import Mathlib

/-!
# Pet-feeder firmware: command protocol, scheduler and transport buffer

A shallow embedding of `uart.c` (receive ring buffer), `proto.c` (line framer,
AT command dispatcher, time base and calendar, feeding scheduler, actuation
sequencer), `eeprom_config.c` (persistence gateway) and the stepping part of
`stepper_uln2003.c`, together with the properties proved about them.

Conventions of the embedding
* C strings are `List Char` (the bytes before the terminating NUL).
* `uint32_t` values are `Nat`, reduced modulo `U32 = 2^32` wherever the C
  arithmetic can wrap; a signed test on a wrapped difference is a range test
  on the `Nat`.
* Global variables become fields of explicit state records which every
  operation receives and returns.
* A handler reads the tick counter once: `millis()` has one value during a
  call.
* The persistent storage is modelled twice: as the two typed records last
  programmed (`Eeprom`), and as bytes at addresses (`EepromMem`), of which the
  typed records are a view.
-/

namespace Feeder

/-! ## uart.c : receive ring buffer -/

/-- Constant `#define UART0_RX_BUF_SZ 2048u`. -/
def UART0_RX_BUF_SZ : Nat := 2048

/-- The three globals of the ring buffer: `rx_head` (written by the ISR only),
`rx_tail` (written by the main loop only) and the array `rx_buf`, indexed by
position. -/
structure RxState where
  rx_head : Nat
  rx_tail : Nat
  rx_buf : Nat → Char

/-- Static initialisation: both indices zero, zeroed array. -/
def rx_init : RxState := ⟨0, 0, fun _ => '\x00'⟩

/-- Function `rx_push_char`: store at `rx_head` and advance it, unless the next write
index equals `rx_tail`, in which case the byte is discarded. -/
def rx_push_char (s : RxState) (c : Char) : RxState :=
  let next := (s.rx_head + 1) % UART0_RX_BUF_SZ
  if next ≠ s.rx_tail then
    { s with rx_buf := fun i => if i = s.rx_head then c else s.rx_buf i, rx_head := next }
  else
    s

/-- Function `rx_pop_char`: `none` stands for the return value `false`; otherwise the
byte written to `*c`, with `rx_tail` advanced. -/
def rx_pop_char (s : RxState) : Option Char × RxState :=
  if s.rx_tail = s.rx_head then (none, s)
  else (some (s.rx_buf s.rx_tail), { s with rx_tail := (s.rx_tail + 1) % UART0_RX_BUF_SZ })

/-- Successive calls of `rx_push_char`, one per byte, in order. -/
def rx_push_all (s : RxState) (bs : List Char) : RxState :=
  bs.foldl rx_push_char s

/-- The results of `n` successive calls of `rx_pop_char`, and the final state. -/
def rx_pop_many : Nat → RxState → List (Option Char) × RxState
  | 0, s => ([], s)
  | n + 1, s =>
    let r := rx_pop_char s
    let rest := rx_pop_many n r.2
    (r.1 :: rest.1, rest.2)

/-- Number of buffered bytes: distance from `rx_tail` to `rx_head` around the ring. -/
def rx_count (s : RxState) : Nat :=
  (s.rx_head + UART0_RX_BUF_SZ - s.rx_tail) % UART0_RX_BUF_SZ

/-- The buffered bytes, oldest first. -/
def rx_contents (s : RxState) : List Char :=
  (List.range (rx_count s)).map (fun i => s.rx_buf ((s.rx_tail + i) % UART0_RX_BUF_SZ))

/-- Both indices are valid positions of the array. -/
def rx_wf (s : RxState) : Prop :=
  s.rx_head < UART0_RX_BUF_SZ ∧ s.rx_tail < UART0_RX_BUF_SZ

/-! ## C library helpers -/

/-- Two to the 32: the modulus of `uint32_t` arithmetic. -/
def U32 : Nat := 4294967296

/-- Two to the 64: the modulus of `uint64_t` arithmetic. -/
def U64 : Nat := 18446744073709551616

/-- Subtraction of two `uint32_t` values, wrapping modulo 2^32. -/
def u32_sub (a b : Nat) : Nat := (a % U32 + (U32 - b % U32)) % U32

/-- Conversion of an out-of-range value to `int32_t` (two's complement wrap). -/
def to_i32 (x : Int) : Int := (x + 2147483648) % 4294967296 - 2147483648

/-- Function `strncmp(a, b, n) == 0` on NUL-free strings: the first `n` bytes agree. -/
def strncmp_eq (a b : List Char) (n : Nat) : Bool := decide (a.take n = b.take n)

/-- Function `strcmp(a, b) == 0`. -/
def strcmp_eq (a b : List Char) : Bool := decide (a = b)

/-- Function `strchr(s, c)`: the suffix of `s` starting at the first `c`, `none` for NULL. -/
def strchr : List Char → Char → Option (List Char)
  | [], _ => none
  | x :: xs, c => if x = c then some (x :: xs) else strchr xs c

/-- Function `isspace` of the C locale. -/
def isspace (c : Char) : Bool :=
  c = ' ' || c = '\t' || c = '\n' || c = '\x0b' || c = '\x0c' || c = '\r'

/-- Test `c >= '0' && c <= '9'`. -/
def isdigit (c : Char) : Bool := decide ('0'.toNat ≤ c.toNat ∧ c.toNat ≤ '9'.toNat)

/-- Value `c - '0'` of a digit character. -/
def digit_val (c : Char) : Nat := c.toNat - '0'.toNat

/-- Value of the leading run of decimal digits of `s`. -/
def digits_value (s : List Char) : Nat :=
  (s.takeWhile isdigit).foldl (fun acc c => acc * 10 + digit_val c) 0

/-- Optional sign in front of a number: the flag is `true` for `-`. -/
def strip_sign : List Char → Bool × List Char
  | [] => (false, [])
  | c :: r =>
    if c = '-' then (true, r)
    else if c = '+' then (false, r)
    else (false, c :: r)

/-- Function `strtoul(s, NULL, 10)` with a 32-bit `unsigned long`: leading white space,
optional sign, digits; saturates at `ULONG_MAX`, a minus sign negates
modulo 2^32. -/
def strtoul10 (s : List Char) : Nat :=
  let p := strip_sign (s.dropWhile isspace)
  let v := digits_value p.2
  if v ≥ U32 then U32 - 1
  else if p.1 then (U32 - v) % U32 else v

/-- Function `atoi(s)`, taken as `(int)strtol(s, NULL, 10)` with a 32-bit `long`
(saturating at `LONG_MIN` and `LONG_MAX`). -/
def atoi (s : List Char) : Int :=
  let p := strip_sign (s.dropWhile isspace)
  let v := digits_value p.2
  if p.1 then (if v > 2147483648 then -2147483648 else -(v : Int))
  else (if v > 2147483647 then 2147483647 else (v : Int))

/-- Conversion `%u` or `%d` of a non-negative value. -/
def fmt_u (n : Nat) : List Char := Nat.toDigits 10 n

/-- Conversion `%d` of an `int`. -/
def fmt_d (i : Int) : List Char :=
  if i < 0 then '-' :: Nat.toDigits 10 i.natAbs else Nat.toDigits 10 i.natAbs

/-- Conversions `%02d`, `%04d`, `%02u` of a non-negative value: zero padded to
width `w`. -/
def fmt_0d (w n : Nat) : List Char :=
  List.replicate (w - (Nat.toDigits 10 n).length) '0' ++ Nat.toDigits 10 n

/-- What `printf("%s", p)` reads from a buffer: the bytes before the first NUL. -/
def c_str (buf : List Char) : List Char := buf.takeWhile (fun c => c ≠ '\x00')

/-- Function `strtok` with the delimiter set `";"`, on the unread remainder of the
buffer: skips leading delimiters; returns the token and the remainder after
the delimiter that ended it, `none` when no token is left. -/
def strtok (s : List Char) : Option (List Char × List Char) :=
  let s1 := s.dropWhile (fun c => c = ';')
  if s1 = [] then none
  else some (s1.takeWhile (fun c => c ≠ ';'), (s1.dropWhile (fun c => c ≠ ';')).drop 1)

/-! ## uart.c : transmit side -/

/-- Function `uart0_write`: every `\n` is sent as `\r\n`. -/
def uart0_write : List Char → List Char
  | [] => []
  | c :: cs => if c = '\n' then '\r' :: c :: uart0_write cs else c :: uart0_write cs

/-- Function `UARTprintf`, applied to the already formatted text: `vsnprintf` into a
512-byte buffer, then `uart0_write`. The result is what goes on the wire. -/
def UARTprintf (text : List Char) : List Char := uart0_write (text.take 511)

/-! ## proto.h : constants and state -/

def FEED_DEG_L : Nat := 30
def FEED_DEG_M : Nat := 60
def FEED_DEG_H : Nat := 120
def FEED_STEP_DELAY_MS : Nat := 10
def MAX_FEED_STEPS : Nat := 4096 * 2

/-- From `stepper_uln2003.h`. -/
def STEPPER_HALFSTEP_STEPS_PER_REV : Nat := 4096

/-- One slot of `ProtoState.sched`. -/
structure SchedEntry where
  hh : Nat
  mm : Nat
  amount : Char
  en : Nat
deriving DecidableEq

/-- The `ProtoState` structure; `sched` is the array of 8 slots. -/
structure ProtoState where
  bowl_g : Int
  water_g : Int
  alarm : Int
  lastFed_time : List Char
  lastFed_amount : Int
  lastEaten_time : List Char
  lastEaten_amount : Int
  sched : List SchedEntry
  sched_len : Nat
  unix_base : Nat
  ms_at_sync : Nat
  time_request_pending : Bool
  time_request_last_ms : Nat
  busy : Bool
  feed_steps_remaining : Nat
  feed_step_delay_ms : Nat
  feed_next_step_ms : Nat
  feed_deadline_ms : Nat
  feed_last_amount_g : Int
  last_sched_minute : Nat
  sched_init : Bool
deriving DecidableEq

/-- The `rtc_time_t` structure. -/
structure rtc_time_t where
  year : Nat
  month : Nat
  date : Nat
  weekday : Nat
  hour : Nat
  min : Nat
  sec : Nat
deriving DecidableEq

/-! ## hx711_tiva : sensor calibration state -/

/-- A `float` value, kept symbolic: either a given IEEE-754 bit pattern, or the
result of the C expression `(float)num / (float)den` on two `int32_t` values.
Only the sign tests below are ever computed on it. -/
inductive F32 where
  | bits (w : Nat)
  | quot (num den : Int)
deriving DecidableEq

/-- Test `x <= 0` on a float. For a quotient of converted integers the sign is
that of the exact quotient (conversion and division of 32-bit integers neither
underflow to zero nor change sign); a zero divisor gives an infinity or NaN. -/
def F32.le_zero : F32 → Bool
  | .quot num den =>
    if den > 0 then decide (num ≤ 0)
    else if den < 0 then decide (num ≥ 0)
    else decide (num < 0)
  | .bits w =>
    let mag := w % 2147483648
    if mag > 2139095040 then false
    else decide (mag = 0 ∨ w % U32 ≥ 2147483648)

/-- Test `x > 0.0f` on a float. -/
def F32.gt_zero : F32 → Bool
  | .quot num den =>
    if den > 0 then decide (num > 0)
    else if den < 0 then decide (num < 0)
    else decide (num > 0)
  | .bits w =>
    let mag := w % 2147483648
    if mag > 2139095040 then false
    else decide (mag ≠ 0 ∧ w % U32 < 2147483648)

/-- The calibration part of `hx711_t` (the pin configuration is constant). -/
structure hx711_t where
  scale : F32
  offset : Int
deriving DecidableEq

/-- Function `hx711_set_scale`. -/
def hx711_set_scale (dev : hx711_t) (scale : F32) : hx711_t :=
  if scale.gt_zero then { dev with scale := scale } else dev

/-- Function `hx711_set_offset`. -/
def hx711_set_offset (dev : hx711_t) (offset : Int) : hx711_t :=
  { dev with offset := offset }

/-! ## eeprom_config : persistence gateway (save side) -/

def EEPROM_ADDR_CALIBRATION : Nat := 0x0000
def EEPROM_ADDR_SCHEDULE : Nat := 0x001C
def EEPROM_MAGIC_CALIBRATION : Nat := 0x48583731
def EEPROM_MAGIC_SCHEDULE : Nat := 0x53434844

/-- The `eeprom_calibration_t` record. -/
structure eeprom_calibration_t where
  magic : Nat
  food_scale : F32
  food_offset : Int
  water_scale : F32
  water_offset : Int
  crc32 : Nat
  reserved : Nat
deriving DecidableEq

/-- The `eeprom_schedule_t` record. -/
structure eeprom_schedule_t where
  magic : Nat
  sched_len : Nat
  sched : List SchedEntry
  crc32 : Nat
deriving DecidableEq

/-- State of the gateway and of the storage behind it: the flag
`eeprom_initialized`, the record last programmed at each of the two addresses,
and the list of addresses passed to `EEPROMProgram` so far (newest first). -/
structure Eeprom where
  eeprom_initialized : Bool
  cal_rec : eeprom_calibration_t
  sched_rec : eeprom_schedule_t
  programmed : List Nat
deriving DecidableEq

/-- Function `eeprom_save_calibration`: the new storage state and the returned flag. -/
def eeprom_save_calibration (ee : Eeprom) (food water : hx711_t) : Eeprom × Bool :=
  if !ee.eeprom_initialized then (ee, false)
  else
    let cal_data : eeprom_calibration_t :=
      { magic := EEPROM_MAGIC_CALIBRATION,
        food_scale := food.scale, food_offset := food.offset,
        water_scale := water.scale, water_offset := water.offset,
        reserved := 0, crc32 := 0 }
    ({ ee with cal_rec := cal_data,
               programmed := EEPROM_ADDR_CALIBRATION :: ee.programmed }, true)

/-- Slot `i` of the schedule array. -/
def sched_slot (sched : List SchedEntry) (i : Nat) : SchedEntry :=
  sched.getD i ⟨0, 0, '\x00', 0⟩

/-- Function `eeprom_save_schedule`: the new storage state and the returned flag. -/
def eeprom_save_schedule (ee : Eeprom) (st : ProtoState) : Eeprom × Bool :=
  if !ee.eeprom_initialized then (ee, false)
  else
    let sched_data : eeprom_schedule_t :=
      { magic := EEPROM_MAGIC_SCHEDULE,
        sched_len := st.sched_len,
        sched := (List.range 8).map (fun i => { sched_slot st.sched i with en := 1 }),
        crc32 := 0 }
    ({ ee with sched_rec := sched_data,
               programmed := EEPROM_ADDR_SCHEDULE :: ee.programmed }, true)

/-- Function `eeprom_check_integrity`. -/
def eeprom_check_integrity (_ee : Eeprom) : Bool := true

/-! ## proto.c : device, environment, helpers -/

/-- All mutable globals the command handlers touch. -/
structure Device where
  S : ProtoState
  g_hx_food : hx711_t
  g_hx_water : hx711_t
  ee : Eeprom
deriving DecidableEq

/-- What a handler observes of the outside world while it runs: the tick
counter `g_ms_ticks`, and the outcome of `hx711_read_raw_timeout` on each
sensor (`none` when the sensor does not become ready within the timeout). -/
structure Env where
  g_ms_ticks : Nat
  food_raw : Option Int
  water_raw : Option Int

/-- Function `millis()`: the 32-bit tick counter. -/
def millis (env : Env) : Nat := env.g_ms_ticks % U32

/-- Selector for the two sensor instances `g_hx_food` and `g_hx_water`. -/
inductive Sensor where
  | food
  | water
deriving DecidableEq

def Device.hx (D : Device) : Sensor → hx711_t
  | .food => D.g_hx_food
  | .water => D.g_hx_water

def Device.set_hx (D : Device) : Sensor → hx711_t → Device
  | .food, h => { D with g_hx_food := h }
  | .water, h => { D with g_hx_water := h }

/-- Function `hx711_read_raw_timeout(dev, &raw, 500)`. -/
def hx711_read_raw_timeout (env : Env) : Sensor → Option Int
  | .food => env.food_raw
  | .water => env.water_raw

def send_ok_data (data : List Char) : List Char :=
  UARTprintf ("+OK: ".data ++ data ++ "\r\n".data)

def send_ok : List Char := UARTprintf "+OK\r\n".data

def ack_err (err : List Char) : List Char :=
  UARTprintf ("+ERR: ".data ++ err ++ "\r\n".data)

/-- Function `deg_to_steps`: 64-bit numerator, result truncated to `uint32_t`. -/
def deg_to_steps (deg : Nat) : Nat :=
  let steps_per_rev := STEPPER_HALFSTEP_STEPS_PER_REV % U32
  let num := (deg % U32 * steps_per_rev + 180) % U64
  (num / 360) % U32

/-- Function `is_amount_LMH`: looks at the first byte only. -/
def is_amount_LMH (s : List Char) : Bool :=
  match s with
  | [] => false
  | c :: _ => c = 'L' || c = 'M' || c = 'H'

/-- Function `level_to_grams`, applied to the byte `level[0]`. -/
def level_to_grams (level : Char) : Int :=
  if level = 'L' then 10
  else if level = 'M' then 25
  else if level = 'H' then 40
  else 0

/-- Function `now_unix`, with `ms` the value of `millis()`. -/
def now_unix (S : ProtoState) (ms : Nat) : Nat :=
  let elapsed_ms := u32_sub ms S.ms_at_sync
  (S.unix_base + elapsed_ms / 1000) % U32

/-- Function `format_HHMM`. -/
def format_HHMM (unix_sec : Nat) : List Char :=
  let sec_in_day := unix_sec % 86400
  let hh := (sec_in_day / 3600) % 24
  let mm := (sec_in_day % 3600) / 60
  (fmt_0d 2 hh ++ [':'] ++ fmt_0d 2 mm).take 5

/-! ## proto.c : calendar -/

def is_leap_year (year : Nat) : Bool :=
  (year % 4 = 0 && year % 100 ≠ 0) || (year % 400 = 0)

/-- Function `calculate_weekday` (Zeller), in `uint32_t` arithmetic. -/
def calculate_weekday (year month day : Nat) : Nat :=
  let month1 := if month < 3 then (month + 12) % 256 else month
  let year1 := if month < 3 then (year + (U32 - 1)) % U32 else year
  let K := year1 % 100
  let J := year1 / 100
  let h := ((day + (13 * (month1 + 1)) / 5 + K + K / 4 + J / 4
              + (U32 - (2 * J) % U32)) % U32) % 7
  ((h + 6) % 7 + 1) % 256

/-- The `while (1)` loop of `rtc_unix_to_time` that finds the year; `none`
when the iteration budget is used up before the loop exits. -/
def find_year : Nat → Nat → Nat → Nat → Option (Nat × Nat)
  | 0, _, _, _ => none
  | fuel + 1, days, year, days_counted =>
    let days_in_year := if is_leap_year year then 366 else 365
    if days_counted + days_in_year > days then some (year, days_counted)
    else find_year fuel days (year + 1) (days_counted + days_in_year)

def days_in_month : List Nat := [31, 28, 31, 30, 31, 30, 31, 31, 30, 31, 30, 31]

/-- The `for (month = 1; month <= 12; month++)` loop of `rtc_unix_to_time`:
returns the final `month` and `day_of_year`. -/
def find_month (feb_days : Nat) : Nat → Nat → Nat → Nat × Nat
  | 0, month, day_of_year => (month, day_of_year)
  | fuel + 1, month, day_of_year =>
    if month ≤ 12 then
      let days_this_month := if month = 2 then feb_days else days_in_month.getD (month - 1) 0
      if day_of_year < days_this_month then (month, day_of_year)
      else find_month feb_days fuel (month + 1) (day_of_year - days_this_month)
    else (month, day_of_year)

/-- Function `rtc_unix_to_time`; the year loop is given `days + 1` iterations, each of
which consumes at least 365 of the `days`. -/
def rtc_unix_to_time (unix_sec : Nat) : Option rtc_time_t :=
  let days := unix_sec / 86400
  let sec_in_day := unix_sec % 86400
  match find_year (days + 1) days 1970 0 with
  | none => none
  | some (year, days_counted) =>
    let day_of_year := days - days_counted
    let feb_days := if is_leap_year year then 29 else 28
    let md := find_month feb_days 13 1 day_of_year
    let month := md.1
    let day := (md.2 + 1) % 256
    some { year := year % 65536, month := month, date := day,
           hour := (sec_in_day / 3600) % 256,
           min := ((sec_in_day % 3600) / 60) % 256,
           sec := (sec_in_day % 60) % 256,
           weekday := calculate_weekday year month day }

/-! ## proto.c : command handlers

Every handler returns the new device state and the text it sent through
`UARTprintf`. -/

def cmd_at_status (D : Device) (env : Env) : Device × List Char :=
  let now := now_unix D.S (millis env)
  match rtc_unix_to_time now with
  | none => (D, [])
  | some t =>
    let time_str :=
      (fmt_0d 4 t.year ++ ['-'] ++ fmt_0d 2 t.month ++ ['-'] ++ fmt_0d 2 t.date ++ [' ']
        ++ fmt_0d 2 t.hour ++ [':'] ++ fmt_0d 2 t.min ++ [':'] ++ fmt_0d 2 t.sec).take 19
    let buf :=
      ("TIME=".data ++ time_str ++ ",BOWL=".data ++ fmt_d D.S.bowl_g
        ++ ",WATER=".data ++ fmt_d D.S.water_g ++ ",ALARM=".data ++ fmt_d D.S.alarm
        ++ ",BUSY=".data ++ fmt_d (if D.S.busy then 1 else 0)).take 127
    (D, send_ok_data buf)

def cmd_at_feed (D : Device) (env : Env) (param : List Char) : Device × List Char :=
  if D.S.busy then (D, ack_err "BUSY".data)
  else
    let level := param.headD '\x00'
    if !is_amount_LMH param then (D, ack_err "PARAM_ERR".data)
    else
      let degrees :=
        if level = 'L' then FEED_DEG_L else if level = 'M' then FEED_DEG_M else FEED_DEG_H
      let steps := deg_to_steps degrees
      ({ D with S :=
          { D.S with
            feed_steps_remaining := steps,
            feed_step_delay_ms := FEED_STEP_DELAY_MS,
            feed_next_step_ms := millis env,
            feed_deadline_ms := (millis env + steps * 10 + 1000) % U32,
            feed_last_amount_g := level_to_grams level,
            busy := true } }, send_ok)

def cmd_at_log (D : Device) : Device × List Char :=
  let buf :=
    ("FED_TIME=".data ++ c_str D.S.lastFed_time ++ ",FED_AMT=".data ++ fmt_d D.S.lastFed_amount
      ++ ",EAT_TIME=".data ++ c_str D.S.lastEaten_time
      ++ ",EAT_AMT=".data ++ fmt_d D.S.lastEaten_amount).take 127
  (D, send_ok_data buf)

def cmd_at_tare (D : Device) (env : Env) (param : List Char) : Device × List Char :=
  let dev : Option Sensor :=
    if strncmp_eq param "FOOD".data 4 then some Sensor.food
    else if strncmp_eq param "WATER".data 5 then some Sensor.water
    else none
  match dev with
  | none => (D, ack_err "PARAM_ERR".data)
  | some d =>
    match hx711_read_raw_timeout env d with
    | none => (D, ack_err "TIMEOUT".data)
    | some raw =>
      let D1 := D.set_hx d (hx711_set_offset (D.hx d) raw)
      ({ D1 with ee := (eeprom_save_calibration D1.ee D1.g_hx_food D1.g_hx_water).1 }, send_ok)

def cmd_at_calibrate (D : Device) (env : Env) (param : List Char) : Device × List Char :=
  match strchr param ',' with
  | none => (D, ack_err "PARAM_ERR".data)
  | some comma =>
    let len := param.length - comma.length
    let len := if len ≥ 10 then 9 else len
    let sensor := param.take len
    let weight := atoi (comma.drop 1)
    if weight ≤ 0 then (D, ack_err "PARAM_ERR".data)
    else
      let dev : Option Sensor :=
        if strcmp_eq sensor "FOOD".data then some Sensor.food
        else if strcmp_eq sensor "WATER".data then some Sensor.water
        else none
      match dev with
      | none => (D, ack_err "PARAM_ERR".data)
      | some d =>
        match hx711_read_raw_timeout env d with
        | none => (D, ack_err "TIMEOUT".data)
        | some raw =>
          let new_scale := F32.quot (to_i32 (raw - (D.hx d).offset)) weight
          if new_scale.le_zero then (D, ack_err "CAL_ERR".data)
          else
            let D1 := D.set_hx d (hx711_set_scale (D.hx d) new_scale)
            ({ D1 with ee := (eeprom_save_calibration D1.ee D1.g_hx_food D1.g_hx_water).1 },
              send_ok)

def cmd_at_settime (D : Device) (env : Env) (param : List Char) : Device × List Char :=
  let timestamp := strtoul10 param
  if timestamp = 0 then (D, ack_err "INVALID_TIMESTAMP".data)
  else
    ({ D with S :=
        { D.S with
          unix_base := timestamp,
          ms_at_sync := millis env,
          time_request_pending := false } }, send_ok)

/-- The digit-collecting loop of `cmd_at_schedule`: goes through the bytes
while fewer than 4 digits have been collected. -/
def collect_digits : List Char → List Char → List Char
  | [], digits => digits
  | c :: cs, digits =>
    if digits.length < 4 then
      (if isdigit c then collect_digits cs (digits ++ [c]) else collect_digits cs digits)
    else digits

/-- Body of the token loop of `cmd_at_schedule`: the entry parsed from one
token, `none` when `time_ok` is false. -/
def parse_sched_token (token : List Char) : Option SchedEntry :=
  let len := token.length
  let amt0 : Char := if len ≥ 5 then token.getD (len - 1) '\x00' else '\x00'
  let digits : List Char :=
    if len ≥ 5 ∧ (amt0 = 'L' ∨ amt0 = 'M' ∨ amt0 = 'H')
    then collect_digits (token.take (len - 1)) [] else []
  let new_form : Option SchedEntry :=
    match digits with
    | [d0, d1, d2, d3] =>
      some { hh := (digit_val d0 * 10 + digit_val d1) % 256,
             mm := (digit_val d2 * 10 + digit_val d3) % 256,
             amount := amt0, en := 1 }
    | _ => none
  let parsed : Option SchedEntry :=
    match new_form with
    | some e => some e
    | none =>
      -- legacy form "HH:MM,A,E"
      match strchr token ':' with
      | none => none
      | some colon =>
        match strchr colon ',' with
        | none => none
        | some comma1 =>
          let hh := ((atoi token) % 256).toNat
          let mm := ((atoi (colon.drop 1)) % 256).toNat
          let amt := (comma1.drop 1).headD '\x00'
          if amt = 'L' ∨ amt = 'M' ∨ amt = 'H'
          then some { hh := hh, mm := mm, amount := amt, en := 1 } else none
  match parsed with
  | some e => if e.hh ≤ 23 ∧ e.mm ≤ 59 then some e else none
  | none => none

/-- The `while (token != NULL && iteration_count < 16)` loop of
`cmd_at_schedule`. The first argument is `16 - iteration_count`, the second
the current result of `strtok` (token and unread remainder), the third
`temp_sched[0 .. temp_len)`. -/
def sched_loop : Nat → Option (List Char × List Char) → List SchedEntry → List SchedEntry
  | 0, _, temp => temp
  | _ + 1, none, temp => temp
  | n + 1, some (token, rest), temp =>
    if temp.length ≥ 8 then temp
    else
      let temp1 := match parse_sched_token token with
        | some e => temp ++ [e]
        | none => temp
      sched_loop n (strtok rest) temp1

/-- The member-wise copy `S.sched[i] = temp_sched[i]` for `i < temp_len`. -/
def copy_sched : List SchedEntry → List SchedEntry → List SchedEntry
  | [], old => old
  | t :: ts, old => t :: copy_sched ts old.tail

def cmd_at_schedule (D : Device) (param : List Char) : Device × List Char :=
  if param.length = 0 then (D, ack_err "PARAM_ERR".data)
  else if strcmp_eq param "NONE".data then
    let S1 := { D.S with sched_len := 0, sched := List.replicate 8 ⟨0, 0, '\x00', 0⟩ }
    ({ D with S := S1, ee := (eeprom_save_schedule D.ee S1).1 }, send_ok)
  else
    let buf := param.take 255
    let temp_sched := sched_loop 16 (strtok buf) []
    let S1 := { D.S with sched_len := temp_sched.length % 256,
                         sched := copy_sched temp_sched D.S.sched }
    ({ D with S := S1, ee := (eeprom_save_schedule D.ee S1).1 }, send_ok)

/-- The `for` loop of `cmd_at_get_schedule` from index `i` on, over the slots
still to be printed; the state is `off` and the bytes written to `buf` so far.
`remaining_u` is `sizeof(buf) - off` as computed in `size_t`; read as an `int`
it is positive exactly when it is non-zero and below 2^31. -/
def get_schedule_loop : List SchedEntry → Nat → Nat × List Char → Nat × List Char
  | [], _, st => st
  | e :: es, i, (off, buf) =>
    let st1 : Nat × List Char :=
      if i > 0 ∧ off < 256 - 1 then (off + 1, buf ++ [';']) else (off, buf)
    let remaining_u := (256 + (U32 - st1.1 % U32)) % U32
    let st2 : Nat × List Char :=
      if 0 < remaining_u ∧ remaining_u < 2147483648 then
        let text := fmt_0d 2 e.hh ++ fmt_0d 2 e.mm ++ [e.amount]
        (st1.1 + text.length, st1.2 ++ text.take (remaining_u - 1))
      else st1
    get_schedule_loop es (i + 1) st2

def cmd_at_get_schedule (D : Device) : Device × List Char :=
  if D.S.sched_len = 0 then (D, send_ok_data "NONE".data)
  else
    let r := get_schedule_loop ((List.range D.S.sched_len).map (sched_slot D.S.sched)) 0 (0, [])
    (D, send_ok_data (c_str (r.2.take 255)))

def cmd_at_eeprom_diag (D : Device) : Device × List Char :=
  let ok := eeprom_check_integrity D.ee
  (D, send_ok_data (if ok then "PASS".data else "FAIL".data))

def handle_at_command (D : Device) (env : Env) (line : List Char) : Device × List Char :=
  if !strncmp_eq line "AT+".data 3 then (D, ack_err "SYNTAX".data)
  else
    let cmd := line.drop 3
    let eq := strchr cmd '='
    let param := (eq.getD []).drop 1
    if strncmp_eq cmd "STATUS".data 6 then cmd_at_status D env
    else if strncmp_eq cmd "FEED=".data 5 && eq.isSome then cmd_at_feed D env param
    else if strncmp_eq cmd "LOG".data 3 then cmd_at_log D
    else if strncmp_eq cmd "TARE=".data 5 && eq.isSome then cmd_at_tare D env param
    else if strncmp_eq cmd "CAL=".data 4 && eq.isSome then cmd_at_calibrate D env param
    else if strncmp_eq cmd "SETTIME=".data 8 && eq.isSome then cmd_at_settime D env param
    else if strncmp_eq cmd "SCHED=".data 6 && eq.isSome then cmd_at_schedule D param
    else if strncmp_eq cmd "GETSCHED".data 8 then cmd_at_get_schedule D
    else if strncmp_eq cmd "EEDIAG".data 6 then cmd_at_eeprom_diag D
    else (D, ack_err "UNKNOWN_CMD".data)

/-! ## proto.c : scheduler tick -/

/-- The `for` loop over the schedule table in `Proto_Tick1000ms`, on the slots
not yet visited. -/
def sched_scan (S : ProtoState) (ms : Nat) (current_minute : Nat) : List SchedEntry → ProtoState
  | [] => S
  | e :: es =>
    let sched_minute := (e.hh % 65536 * 60 + e.mm % 65536) % 65536
    if sched_minute = current_minute ∧ S.busy = false then
      let level := e.amount
      let degrees :=
        if level = 'L' then FEED_DEG_L else if level = 'M' then FEED_DEG_M else FEED_DEG_H
      let steps := deg_to_steps degrees
      { S with
        feed_steps_remaining := steps,
        feed_step_delay_ms := FEED_STEP_DELAY_MS,
        feed_next_step_ms := ms,
        feed_deadline_ms := (ms + steps * FEED_STEP_DELAY_MS % U32 + 1000) % U32,
        feed_last_amount_g := level_to_grams level,
        busy := true }
    else sched_scan S ms current_minute es

/-- Minute of the day (0..1439) of a wall-clock value, as computed in
`Proto_Tick1000ms`. -/
def minute_of_day (now : Nat) : Nat :=
  let sec_in_day := now % 86400
  let current_hh := (sec_in_day / 3600) % 65536
  let current_mm := ((sec_in_day % 3600) / 60) % 65536
  (current_hh * 60 + current_mm) % 65536

/-- First part of `Proto_Tick1000ms`: while a time request is pending, resend
it every 60 seconds. Returns the new state and the text sent. -/
def tick_time_request (S : ProtoState) (env : Env) : ProtoState × List Char :=
  if S.time_request_pending
      && decide (u32_sub (millis env) S.time_request_last_ms ≥ 60000) then
    ({ S with time_request_last_ms := millis env }, UARTprintf "AT+GETTIME\r\n".data)
  else (S, [])

/-- Second part of `Proto_Tick1000ms`, from `if (S.unix_base == 0) return;` on:
the schedule evaluation. -/
def tick_schedule (S : ProtoState) (env : Env) : ProtoState :=
  if S.unix_base = 0 then S
  else
    let now := now_unix S (millis env)
    let current_minute := minute_of_day now
    if !S.sched_init then
      { S with last_sched_minute := current_minute, sched_init := true }
    else if current_minute = S.last_sched_minute then S
    else
      let S1 := { S with last_sched_minute := current_minute }
      sched_scan S1 (millis env) current_minute
        ((List.range S1.sched_len).map (sched_slot S1.sched))

/-- Function `Proto_Tick1000ms`: the new state and the text sent through `UARTprintf`. -/
def Proto_Tick1000ms (S : ProtoState) (env : Env) : ProtoState × List Char :=
  let r := tick_time_request S env
  (tick_schedule r.1 env, r.2)

/-! ## eeprom_config : checksum, initialisation and load side -/

/-- Function `eeprom_calculate_crc32(data, len)` on the bytes `data`: the body
initialises a local `crc` and returns the constant 0. -/
def eeprom_calculate_crc32 (_data : List Nat) : Nat := 0

/-- Function `eeprom_config_init`; `hw_ok` tells whether `EEPROMInit()` returned
`EEPROM_INIT_OK`. -/
def eeprom_config_init (ee : Eeprom) (hw_ok : Bool) : Eeprom × Bool :=
  if !hw_ok then ({ ee with eeprom_initialized := false }, false)
  else ({ ee with eeprom_initialized := true }, true)

/-- The `for (i = 0; i < 3; i++)` loop of `eeprom_init_with_retry`: the first
argument counts the attempts left, `i` is the attempt number, `hw i` the outcome
of `EEPROMInit()` at attempt `i`. The 10 ms spin between attempts only lets
time pass. -/
def eeprom_init_retry_loop : Nat → Nat → (Nat → Bool) → Eeprom → Eeprom × Bool
  | 0, _, _, ee => (ee, false)
  | n + 1, i, hw, ee =>
    let r := eeprom_config_init ee (hw i)
    if r.2 then (r.1, true) else eeprom_init_retry_loop n (i + 1) hw r.1

/-- Function `eeprom_init_with_retry` of `proto.c`. -/
def eeprom_init_with_retry (ee : Eeprom) (hw : Nat → Bool) : Eeprom × Bool :=
  eeprom_init_retry_loop 3 0 hw ee

/-- Function `eeprom_load_calibration`: the two sensor instances after the
call and the returned flag. -/
def eeprom_load_calibration (ee : Eeprom) (food water : hx711_t) :
    (hx711_t × hx711_t) × Bool :=
  if !ee.eeprom_initialized then ((food, water), false)
  else
    let cal_data := ee.cal_rec
    if cal_data.magic ≠ EEPROM_MAGIC_CALIBRATION then ((food, water), false)
    else
      (({ food with scale := cal_data.food_scale, offset := cal_data.food_offset },
        { water with scale := cal_data.water_scale, offset := cal_data.water_offset }), true)

/-- Function `eeprom_load_schedule`: the state after the call and the returned
flag. -/
def eeprom_load_schedule (ee : Eeprom) (st : ProtoState) : ProtoState × Bool :=
  if !ee.eeprom_initialized then (st, false)
  else
    let sched_data := ee.sched_rec
    if sched_data.magic ≠ EEPROM_MAGIC_SCHEDULE then (st, false)
    else if sched_data.sched_len > 8 then (st, false)
    else
      ({ st with
          sched_len := sched_data.sched_len % 256,
          sched := (List.range 8).map
            (fun i => { sched_slot sched_data.sched i with en := 1 }) }, true)

/-! ## proto.c : line framer -/

/-- Constant `#define RX_LINE_MAX 256`. -/
def RX_LINE_MAX : Nat := 256

/-- Function `strstr(s, needle)`: the suffix of `s` starting at the first
occurrence of `needle`, `none` for NULL. -/
def strstr : List Char → List Char → Option (List Char)
  | [], needle => if needle = [] then some [] else none
  | c :: cs, needle =>
    if strncmp_eq (c :: cs) needle needle.length then some (c :: cs) else strstr cs needle

/-- The statics of the framer: `rx_line[0 .. rx_len)` and `overflow_skip`. -/
structure Framer where
  rx_line : List Char
  overflow_skip : Bool
deriving DecidableEq

/-- State threaded through `Proto_Poll`: the framer, the device, everything
sent through `UARTprintf` so far, and the arguments of the calls of
`handle_at_command` made so far, in order. -/
structure PollState where
  fr : Framer
  D : Device
  out : List Char
  dispatched : List (List Char)
deriving DecidableEq

/-- Body of the `while` loop of `Proto_Poll` for one received byte `ch`; `env` is
what a command handler called from here observes. -/
def poll_step (env : Env) (st : PollState) (ch : Char) : PollState :=
  if ch = '\r' then st
  else if ch = '\n' then
    if st.fr.overflow_skip then { st with fr := ⟨[], false⟩ }
    else
      let line := c_str st.fr.rx_line
      let st1 : PollState :=
        if st.fr.rx_line.length > 0 then
          match strstr line "AT+".data with
          | some cmd_start =>
            let r := handle_at_command st.D env cmd_start
            { st with D := r.1, out := st.out ++ r.2,
                      dispatched := st.dispatched ++ [cmd_start] }
          | none => st
        else st
      { st1 with fr := ⟨[], st1.fr.overflow_skip⟩ }
  else
    if st.fr.overflow_skip then st
    else if st.fr.rx_line.length < RX_LINE_MAX - 1 then
      { st with fr := { st.fr with rx_line := st.fr.rx_line ++ [ch] } }
    else { st with fr := ⟨[], true⟩ }

/-- The loop body applied to a stream of received bytes, in order. -/
def poll_bytes (env : Env) (st : PollState) (bs : List Char) : PollState :=
  bs.foldl (poll_step env) st

/-- The loop `while (UART0_ReadChar(&ch))` of `Proto_Poll`; the first argument
bounds the number of iterations. No byte is pushed while the loop runs. -/
def Proto_Poll_loop : Nat → Env → RxState → PollState → RxState × PollState
  | 0, _, rx, st => (rx, st)
  | fuel + 1, env, rx, st =>
    match rx_pop_char rx with
    | (none, rx1) => (rx1, st)
    | (some ch, rx1) => Proto_Poll_loop fuel env rx1 (poll_step env st ch)

/-- Function `Proto_Poll`: drains the ring buffer, which holds fewer than
`UART0_RX_BUF_SZ` bytes. -/
def Proto_Poll (env : Env) (rx : RxState) (st : PollState) : RxState × PollState :=
  Proto_Poll_loop UART0_RX_BUF_SZ env rx st

/-! ## proto.c : start-up -/

/-- Function `Proto_Init`. `ee` is the storage as found at power-up, `hw` the
outcomes of the storage initialisation attempts. Returns the device and the
text sent. -/
def Proto_Init (env : Env) (hw : Nat → Bool) (ee : Eeprom) : Device × List Char :=
  let S0 : ProtoState :=
    { bowl_g := 0, water_g := 0, alarm := 0,
      lastFed_time := "--:--".data, lastFed_amount := 0,
      lastEaten_time := "--:--".data, lastEaten_amount := 0,
      sched := List.replicate 8 ⟨0, 0, '\x00', 0⟩, sched_len := 0,
      unix_base := 0, ms_at_sync := millis env,
      time_request_pending := true, time_request_last_ms := millis env,
      busy := false,
      feed_steps_remaining := 0, feed_step_delay_ms := FEED_STEP_DELAY_MS,
      feed_next_step_ms := 0, feed_deadline_ms := 0, feed_last_amount_g := 0,
      last_sched_minute := 0, sched_init := false }
  let out := UARTprintf "AT+GETTIME\r\n".data
  let food0 : hx711_t := ⟨F32.bits 0x3F800000, 0⟩
  let water0 : hx711_t := ⟨F32.bits 0x3F800000, 0⟩
  let r := eeprom_init_with_retry ee hw
  if r.2 then
    let cal := eeprom_load_calibration r.1 food0 water0
    let sch := eeprom_load_schedule r.1 S0
    ({ S := sch.1, g_hx_food := cal.1.1, g_hx_water := cal.1.2, ee := r.1 }, out)
  else
    ({ S := S0, g_hx_food := food0, g_hx_water := water0, ee := r.1 }, out)

/-! ## Observations and sample inputs used in the statements -/

/-- The 2049 bytes `0, 1, ..., 127, 0, 1, ...` used as overflow input. -/
def overflow_bytes : List Char := (List.range 2049).map (fun i => Char.ofNat (i % 128))

/-- The state `Proto_Init` leaves behind when nothing is loaded from storage,
with the tick counter at `ms`. -/
def init_state (ms : Nat) : ProtoState :=
  { bowl_g := 0, water_g := 0, alarm := 0,
    lastFed_time := "--:--".data, lastFed_amount := 0,
    lastEaten_time := "--:--".data, lastEaten_amount := 0,
    sched := List.replicate 8 ⟨0, 0, '\x00', 0⟩, sched_len := 0,
    unix_base := 0, ms_at_sync := ms,
    time_request_pending := true, time_request_last_ms := ms,
    busy := false,
    feed_steps_remaining := 0, feed_step_delay_ms := FEED_STEP_DELAY_MS,
    feed_next_step_ms := 0, feed_deadline_ms := 0, feed_last_amount_g := 0,
    last_sched_minute := 0, sched_init := false }

/-- A device just after start-up: initial state, unit scale (bit pattern of
`1.0f`) and zero offset on both sensors, gateway initialised, blank storage. -/
def idle_device : Device :=
  { S := init_state 0,
    g_hx_food := ⟨F32.bits 0x3F800000, 0⟩,
    g_hx_water := ⟨F32.bits 0x3F800000, 0⟩,
    ee := { eeprom_initialized := true,
            cal_rec := ⟨0, F32.bits 0, 0, F32.bits 0, 0, 0, 0⟩,
            sched_rec := ⟨0, 0, [], 0⟩,
            programmed := [] } }

/-- The same device in the middle of a Mid feed started at tick 0. -/
def busy_device : Device :=
  { idle_device with S :=
      { init_state 0 with
        busy := true, feed_steps_remaining := 683, feed_deadline_ms := 7830,
        feed_last_amount_g := 25 } }

/-- A state with the clock set to 08:59:00 at tick 0, the cursor on minute
08:59 and one schedule entry at 09:00, class Mid. -/
def sched_state : ProtoState :=
  { init_state 0 with
    unix_base := 1733475540, sched_init := true, last_sched_minute := 539,
    time_request_pending := false,
    sched_len := 1,
    sched := ⟨9, 0, 'M', 1⟩ :: List.replicate 7 ⟨0, 0, '\x00', 0⟩ }

/-- An environment at tick 5000 in which neither sensor becomes ready. -/
def env_timeout : Env := ⟨5000, none, none⟩

/-- The fields of a feed task together with the busy flag. -/
def feed_task (S : ProtoState) : Bool × Nat × Nat × Nat × Nat × Int :=
  (S.busy, S.feed_steps_remaining, S.feed_step_delay_ms, S.feed_next_step_ms,
    S.feed_deadline_ms, S.feed_last_amount_g)

/-- The minute cursor of the scheduler. -/
def minute_cursor (S : ProtoState) : Nat × Bool := (S.last_sched_minute, S.sched_init)

/-- Number of feed tasks started by a step from `S` to `T` (0 or 1): a task is
started when the busy flag goes from clear to set. -/
def tasks_started (S T : ProtoState) : Nat :=
  if S.busy = false ∧ T.busy = true then 1 else 0

/-- Written form `HHMM{L|M|H}` of a schedule tuple (hour, minute, amount):
two decimal digits each for hour and minute, then the amount letter. -/
def encode_entry (e : Nat × Nat × Char) : List Char :=
  fmt_0d 2 e.1 ++ fmt_0d 2 e.2.1 ++ [e.2.2]

/-- Written form of a schedule table: the entries joined by `;`. -/
def encode_sched : List (Nat × Nat × Char) → List Char
  | [] => []
  | [e] => encode_entry e
  | e :: es => encode_entry e ++ ';' :: encode_sched es

/-- A valid schedule tuple: hour 0..23, minute 0..59, amount L, M or H. -/
def valid_entry (e : Nat × Nat × Char) : Prop :=
  e.1 ≤ 23 ∧ e.2.1 ≤ 59 ∧ (e.2.2 = 'L' ∨ e.2.2 = 'M' ∨ e.2.2 = 'H')

instance (e : Nat × Nat × Char) : Decidable (valid_entry e) := by
  unfold valid_entry
  infer_instance

/-- The table slot holding a tuple (enable flag always 1). -/
def slot_of (e : Nat × Nat × Char) : SchedEntry := ⟨e.1, e.2.1, e.2.2, 1⟩

/-- The tuples held by the first `sched_len` slots of the table. -/
def sched_tuples (S : ProtoState) : List (Nat × Nat × Char) :=
  ((List.range S.sched_len).map (sched_slot S.sched)).map (fun e => (e.hh, e.mm, e.amount))

/-- The text separating and following the first entry in the written form. -/
def encode_tail : List (Nat × Nat × Char) → List Char
  | [] => []
  | e :: es => ';' :: encode_entry e ++ encode_tail es

/-- The reply is an error line: it begins with `+ERR: `. -/
def is_err_reply (out : List Char) : Bool := out.take 6 == "+ERR: ".data

/-- Successive results of `strtok` on a buffer: at most `n` tokens. -/
def sched_tokens : Nat → List Char → List (List Char)
  | 0, _ => []
  | n + 1, s =>
    match strtok s with
    | none => []
    | some (token, rest) => token :: sched_tokens n rest

/-- The entries the schedule command keeps for a parameter: of the first 255
bytes, the first 16 tokens, those of them that parse as an entry, and of these
the first 8. -/
def sched_kept (param : List Char) : List SchedEntry :=
  ((sched_tokens 16 (param.take 255)).filterMap parse_sched_token).take 8

/-- A valid table slot: hour 0..23, minute 0..59, amount L, M or H. -/
def valid_slot (e : SchedEntry) : Prop :=
  e.hh ≤ 23 ∧ e.mm ≤ 59 ∧ (e.amount = 'L' ∨ e.amount = 'M' ∨ e.amount = 'H')

instance (e : SchedEntry) : Decidable (valid_slot e) := by
  unfold valid_slot
  infer_instance

/-- The schedule table invariant: at most 8 entries, and every slot below the
length is valid. -/
def sched_inv (S : ProtoState) : Prop :=
  S.sched_len ≤ 8 ∧ ∀ i, i < S.sched_len → valid_slot (sched_slot S.sched i)

/-- The framer at the start of a line, nothing sent or dispatched yet. -/
def poll_start (D : Device) : PollState := ⟨⟨[], false⟩, D, [], []⟩

/-- A line of 256 bytes that begins with a well-formed command. -/
def line_256 : List Char := "AT+STATUS".data ++ List.replicate 247 ' '

/-- A storage whose schedule record carries the right magic, length 1 and an
entry that is no valid schedule entry; the calibration record is blank. -/
def bad_sched_storage (crc : Nat) : Eeprom :=
  { eeprom_initialized := false,
    cal_rec := ⟨0, F32.bits 0, 0, F32.bits 0, 0, 0, 0⟩,
    sched_rec :=
      { magic := EEPROM_MAGIC_SCHEDULE, sched_len := 1,
        sched := ⟨99, 99, 'X', 0⟩ :: List.replicate 7 ⟨0, 0, '\x00', 0⟩,
        crc32 := crc },
    programmed := [] }

/-- A storage whose calibration record carries the right magic, scales with
the bit patterns of 2.0 and 4.0, offsets 123 and -45 and the checksum field
`crc`; the schedule record is blank. -/
def cal_storage (crc : Nat) : Eeprom :=
  { eeprom_initialized := true,
    cal_rec :=
      { magic := EEPROM_MAGIC_CALIBRATION,
        food_scale := F32.bits 0x40000000, food_offset := 123,
        water_scale := F32.bits 0x40800000, water_offset := -45,
        crc32 := crc, reserved := 0 },
    sched_rec := ⟨0, 0, [], 0⟩,
    programmed := [] }

/-! ## stepper_uln2003 : actuator driver -/

/-- The driver's static `s_step_idx`, the levels last written to the pins
IN1..IN4 (as a 4-bit pattern, IN1 the most significant bit), and the number of
calls of `stepper_uln2003_step` made so far. -/
structure Stepper where
  s_step_idx : Nat
  coils : Nat
  step_calls : Nat
deriving DecidableEq

/-- Table `seq8`: the half-step sequence, order IN1, IN2, IN3, IN4. -/
def seq8 : List Nat := [0b1000, 0b1100, 0b0100, 0b0110, 0b0010, 0b0011, 0b0001, 0b1001]

/-- Function `stepper_uln2003_step`. -/
def stepper_uln2003_step (m : Stepper) (direction : Int) : Stepper :=
  let idx := if direction ≥ 0 then (m.s_step_idx + 1) % 8 else (m.s_step_idx + 7) % 8
  { s_step_idx := idx, coils := seq8.getD idx 0, step_calls := m.step_calls + 1 }

/-- Function `stepper_uln2003_all_off`: all four outputs low. -/
def stepper_uln2003_all_off (m : Stepper) : Stepper := { m with coils := 0 }

/-! ## proto.c : sequencer tick -/

/-- The expression `(level=='L')?FEED_DEG_L:(level=='M')?FEED_DEG_M:FEED_DEG_H`
of `cmd_at_feed` and `Proto_Tick1000ms`. -/
def feed_degrees (level : Char) : Nat :=
  if level = 'L' then FEED_DEG_L else if level = 'M' then FEED_DEG_M else FEED_DEG_H

/-- Test `(int32_t)(nowms - deadline) >= 0` on two `uint32_t` values: the
wrapped difference, read as a signed number, is not negative. -/
def deadline_passed (nowms deadline : Nat) : Bool :=
  decide (u32_sub nowms deadline < 2147483648)

/-- Function `Proto_Tick10ms`: the new state and the new state of the
actuator. `millis()` returns the same value throughout the call. -/
def Proto_Tick10ms (S : ProtoState) (m : Stepper) (env : Env) : ProtoState × Stepper :=
  let p1 : ProtoState × Stepper :=
    if S.feed_steps_remaining > MAX_FEED_STEPS then
      ({ S with feed_steps_remaining := 0, busy := false }, stepper_uln2003_all_off m)
    else (S, m)
  let p2 : ProtoState × Stepper :=
    if p1.1.busy = true ∧ p1.1.feed_steps_remaining > 0 then
      let nowms := millis env
      -- Check timeout/deadline
      let Sa : ProtoState :=
        if deadline_passed nowms p1.1.feed_deadline_ms = true
        then { p1.1 with feed_steps_remaining := 0 } else p1.1
      -- Time to step?
      let pb : ProtoState × Stepper :=
        if Sa.feed_steps_remaining > 0 ∧ deadline_passed nowms Sa.feed_next_step_ms = true then
          ({ Sa with feed_steps_remaining := Sa.feed_steps_remaining - 1,
                     feed_next_step_ms := (nowms + Sa.feed_step_delay_ms) % U32 },
            stepper_uln2003_step p1.2 1)
        else (Sa, p1.2)
      -- Finished?
      if pb.1.feed_steps_remaining = 0 then
        let Sc : ProtoState := { pb.1 with busy := false }
        let Sd : ProtoState :=
          if Sc.unix_base > 0
          then { Sc with lastFed_time := format_HHMM (now_unix Sc (millis env)) } else Sc
        ({ Sd with lastFed_amount := Sd.feed_last_amount_g }, stepper_uln2003_all_off pb.2)
      else pb
    else p1
  if p2.1.busy = false ∧ p2.1.feed_steps_remaining = 0
  then (p2.1, stepper_uln2003_all_off p2.2) else p2

/-! ## proto.c : sensor tick -/

/-- Function `Proto_Tick100ms`. For each sensor the argument is `none` when the
data is not ready or the read times out, and otherwise the value of
`(int)(mass + 0.5f)`. `pump` is the level of the pump output PE1. -/
def Proto_Tick100ms (S : ProtoState) (pump : Bool) (food water : Option Int) :
    ProtoState × Bool :=
  let S1 : ProtoState :=
    match food with
    | some g => { S with bowl_g := g }
    | none => S
  match water with
  | some g => ({ S1 with water_g := g }, decide (g < 80))
  | none => (S1, pump)

/-! ## proto.c : calendar, fields to seconds -/

/-- Number of days of a year, the expression `is_leap_year(y) ? 366 : 365`. -/
def days_in_year (y : Nat) : Nat := if is_leap_year y then 366 else 365

/-- The loop `for (y = 1970; y < t->year; y++) days += ...` of
`rtc_time_to_unix`: `n` iterations are left, `y` is the loop variable. -/
def add_years : Nat → Nat → Nat → Nat
  | 0, _, days => days
  | n + 1, y, days => add_years n (y + 1) ((days + days_in_year y) % U32)

/-- The loop `for (m = 1; m < t->month; m++) days += ...` of
`rtc_time_to_unix`: `n` iterations are left, `m` is the loop variable. -/
def add_months (year : Nat) : Nat → Nat → Nat → Nat
  | 0, _, days => days
  | n + 1, m, days =>
    add_months year n (m + 1)
      (if m = 2 ∧ is_leap_year year = true then (days + 29) % U32
       else (days + days_in_month.getD (m - 1) 0) % U32)

/-- Function `rtc_time_to_unix`. -/
def rtc_time_to_unix (t : rtc_time_t) : Nat :=
  if t.year < 1970 ∨ t.year > 2099 then 0
  else if t.month < 1 ∨ t.month > 12 then 0
  else if t.date < 1 ∨ t.date > 31 then 0
  else if t.hour > 23 ∨ t.min > 59 ∨ t.sec > 59 then 0
  else
    let days := add_years (t.year - 1970) 1970 0
    let days := add_months t.year (t.month - 1) 1 days
    let days := (days + (t.date - 1)) % U32
    let unix_time := (days * 86400) % U32
    let unix_time := (unix_time + t.hour * 3600) % U32
    let unix_time := (unix_time + t.min * 60) % U32
    (unix_time + t.sec) % U32

/-- Number of days of month `m` (1..12) of a year, as used by both conversions. -/
def month_length (year m : Nat) : Nat :=
  if m = 2 then (if is_leap_year year then 29 else 28) else days_in_month.getD (m - 1) 0

/-! ## Operation sequences on the ring buffer -/

/-- One operation on the ring buffer: a push from the interrupt handler or a
pop from the main loop. -/
inductive RxOp where
  | push (c : Char)
  | pop
deriving DecidableEq

/-- The state after one operation. -/
def rx_apply (s : RxState) : RxOp → RxState
  | .push c => rx_push_char s c
  | .pop => (rx_pop_char s).2

/-- The state after a sequence of operations, in order. -/
def rx_run (s : RxState) (ops : List RxOp) : RxState := ops.foldl rx_apply s

/-! ## Runs of the sequencer and sample feed states -/

/-- Successive calls of `Proto_Tick10ms`, the first at tick `t`, each following
one 10 ms later; the first argument is the number of calls. -/
def tick10_run : Nat → ProtoState → Stepper → Nat → ProtoState × Stepper
  | 0, S, m, _ => (S, m)
  | n + 1, S, m, t =>
    let r := Proto_Tick10ms S m ⟨t, none, none⟩
    tick10_run n r.1 r.2 (t + 10)

/-- The actuator at rest: phase 0, all outputs low, no step issued yet. -/
def motor_rest : Stepper := ⟨0, 0, 0⟩

/-- A state in the middle of a feed with the time base unset: 5 steps left,
next step due at tick 100, task deadline at tick 10000, amount 25 g. -/
def stepping_state : ProtoState :=
  { init_state 0 with
    busy := true, feed_steps_remaining := 5, feed_next_step_ms := 100,
    feed_deadline_ms := 10000, feed_last_amount_g := 25 }

/-- The same feed with a single step left. -/
def last_step_state : ProtoState :=
  { stepping_state with feed_steps_remaining := 1 }

/-- The state `sched_state` with a feed already running: 100 steps left. -/
def sched_state_busy : ProtoState :=
  { sched_state with
    busy := true, feed_steps_remaining := 100, feed_next_step_ms := 60990,
    feed_deadline_ms := 70000, feed_last_amount_g := 10 }

/-! ## The main loop as a transition system -/

/-- Everything the main loop acts on: the device, the actuator driver and the
level of the pump output. -/
structure Machine where
  D : Device
  motor : Stepper
  pump : Bool
deriving DecidableEq

/-- One action of the main loop of `main.c`: a line passed to
`handle_at_command`, or one of the three periodic handlers, each with what it
observes of the outside world. -/
inductive Event where
  | command (env : Env) (line : List Char)
  | tick10 (env : Env)
  | tick100 (food water : Option Int)
  | tick1000 (env : Env)

/-- The machine after one action. -/
def Machine.step (M : Machine) : Event → Machine
  | .command env line => { M with D := (handle_at_command M.D env line).1 }
  | .tick10 env =>
    { M with D := { M.D with S := (Proto_Tick10ms M.D.S M.motor env).1 },
             motor := (Proto_Tick10ms M.D.S M.motor env).2 }
  | .tick100 food water =>
    { M with D := { M.D with S := (Proto_Tick100ms M.D.S M.pump food water).1 },
             pump := (Proto_Tick100ms M.D.S M.pump food water).2 }
  | .tick1000 env => { M with D := { M.D with S := (Proto_Tick1000ms M.D.S env).1 } }

/-- The machine after a sequence of actions, in order. -/
def Machine.run (M : Machine) (evs : List Event) : Machine := evs.foldl Machine.step M

/-- The feed task invariant: busy exactly when steps remain, and never more
steps than the safety ceiling. -/
def feed_inv (S : ProtoState) : Prop :=
  (S.busy = true ↔ 0 < S.feed_steps_remaining) ∧ S.feed_steps_remaining ≤ MAX_FEED_STEPS

/-! ## eeprom_config : the records as bytes in storage

The storage is byte addressed; a read returns the bytes last programmed. The
target is little-endian and the two record types have no padding. -/

/-- Value of `sizeof(eeprom_calibration_t)`: seven 32-bit fields. -/
def sizeof_eeprom_calibration_t : Nat := 7 * 4

/-- Value of `sizeof(eeprom_schedule_t)`: two 32-bit fields, eight 4-byte
slots, one 32-bit field. -/
def sizeof_eeprom_schedule_t : Nat := 4 + 4 + 8 * 4 + 4

/-- Modelled from the spec: the storage collaborator's `program(address,
buffer, len)`, the driver function `EEPROMProgram(data, addr, count)` that the
sources call but do not contain. The storage after the bytes `data` have been
written from address `addr` on. -/
def EEPROMProgram (mem : Nat → Nat) (data : List Nat) (addr : Nat) : Nat → Nat :=
  fun a => if addr ≤ a ∧ a < addr + data.length then data.getD (a - addr) 0 else mem a

/-- Modelled from the spec: the storage collaborator's `read(address, buffer,
len)`, the driver function `EEPROMRead(buf, addr, count)` that the sources
call but do not contain. The `count` bytes from address `addr` on. -/
def EEPROMRead (mem : Nat → Nat) (addr count : Nat) : List Nat :=
  (List.range count).map (fun i => mem (addr + i))

/-- The four bytes of a `uint32_t`, least significant first. -/
def u32_bytes (w : Nat) : List Nat :=
  [w % 256, w / 256 % 256, w / 65536 % 256, w / 16777216 % 256]

/-- The `uint32_t` held by the four bytes at offset `off` of a buffer. -/
def u32_at (b : List Nat) (off : Nat) : Nat :=
  b.getD off 0 + 256 * b.getD (off + 1) 0 + 65536 * b.getD (off + 2) 0
    + 16777216 * b.getD (off + 3) 0

/-- The `uint32_t` with the same bytes as an `int32_t`. -/
def i32_word (x : Int) : Nat := (x % 4294967296).toNat

/-- The `int32_t` with the same bytes as a `uint32_t`. -/
def i32_of_word (w : Nat) : Int :=
  if w < 2147483648 then (w : Int) else (w : Int) - 4294967296

/-- The four bytes of one schedule slot: `hh`, `mm`, `amount`, `en`. -/
def sched_entry_bytes (e : SchedEntry) : List Nat :=
  [e.hh % 256, e.mm % 256, e.amount.toNat % 256, e.en % 256]

/-- The bytes of an array of schedule slots. -/
def slots_bytes : List SchedEntry → List Nat
  | [] => []
  | e :: es => sched_entry_bytes e ++ slots_bytes es

/-- Object representation of an `eeprom_schedule_t`. -/
def eeprom_schedule_t.to_bytes (r : eeprom_schedule_t) : List Nat :=
  u32_bytes r.magic ++ u32_bytes r.sched_len
    ++ slots_bytes ((List.range 8).map (sched_slot r.sched)) ++ u32_bytes r.crc32

/-- The `eeprom_schedule_t` with a given object representation. -/
def eeprom_schedule_t.of_bytes (b : List Nat) : eeprom_schedule_t :=
  { magic := u32_at b 0,
    sched_len := u32_at b 4,
    sched := (List.range 8).map (fun i =>
      ⟨b.getD (8 + 4 * i) 0, b.getD (9 + 4 * i) 0, Char.ofNat (b.getD (10 + 4 * i) 0),
        b.getD (11 + 4 * i) 0⟩),
    crc32 := u32_at b 40 }

/-- Object representation of an `eeprom_calibration_t`; `enc` gives the bit
pattern of a `float`. -/
def eeprom_calibration_t.to_bytes (enc : F32 → Nat) (r : eeprom_calibration_t) : List Nat :=
  u32_bytes r.magic ++ u32_bytes (enc r.food_scale) ++ u32_bytes (i32_word r.food_offset)
    ++ u32_bytes (enc r.water_scale) ++ u32_bytes (i32_word r.water_offset)
    ++ u32_bytes r.crc32 ++ u32_bytes r.reserved

/-- The `eeprom_calibration_t` with a given object representation. -/
def eeprom_calibration_t.of_bytes (b : List Nat) : eeprom_calibration_t :=
  { magic := u32_at b 0,
    food_scale := F32.bits (u32_at b 4),
    food_offset := i32_of_word (u32_at b 8),
    water_scale := F32.bits (u32_at b 12),
    water_offset := i32_of_word (u32_at b 16),
    crc32 := u32_at b 20,
    reserved := u32_at b 24 }

/-- The gateway over the byte-addressed storage: the flag
`eeprom_initialized` and the content of the storage. -/
structure EepromMem where
  eeprom_initialized : Bool
  mem : Nat → Nat

/-- Function `eeprom_save_schedule`, over the byte-addressed storage. -/
def eeprom_save_schedule_mem (ee : EepromMem) (st : ProtoState) : EepromMem × Bool :=
  if !ee.eeprom_initialized then (ee, false)
  else
    let sched_data : eeprom_schedule_t :=
      { magic := EEPROM_MAGIC_SCHEDULE,
        sched_len := st.sched_len,
        sched := (List.range 8).map (fun i => { sched_slot st.sched i with en := 1 }),
        crc32 := 0 }
    ({ ee with mem := EEPROMProgram ee.mem sched_data.to_bytes EEPROM_ADDR_SCHEDULE }, true)

/-- Function `eeprom_load_schedule`, over the byte-addressed storage. -/
def eeprom_load_schedule_mem (ee : EepromMem) (st : ProtoState) : ProtoState × Bool :=
  if !ee.eeprom_initialized then (st, false)
  else
    let sched_data := eeprom_schedule_t.of_bytes
      (EEPROMRead ee.mem EEPROM_ADDR_SCHEDULE sizeof_eeprom_schedule_t)
    if sched_data.magic ≠ EEPROM_MAGIC_SCHEDULE then (st, false)
    else if sched_data.sched_len > 8 then (st, false)
    else
      ({ st with
          sched_len := sched_data.sched_len % 256,
          sched := (List.range 8).map
            (fun i => { sched_slot sched_data.sched i with en := 1 }) }, true)

/-- Function `eeprom_save_calibration`, over the byte-addressed storage. -/
def eeprom_save_calibration_mem (enc : F32 → Nat) (ee : EepromMem) (food water : hx711_t) :
    EepromMem × Bool :=
  if !ee.eeprom_initialized then (ee, false)
  else
    let cal_data : eeprom_calibration_t :=
      { magic := EEPROM_MAGIC_CALIBRATION,
        food_scale := food.scale, food_offset := food.offset,
        water_scale := water.scale, water_offset := water.offset,
        reserved := 0, crc32 := 0 }
    ({ ee with mem := EEPROMProgram ee.mem (cal_data.to_bytes enc) EEPROM_ADDR_CALIBRATION },
      true)

/-- Function `eeprom_load_calibration`, over the byte-addressed storage; it
reads `words * 4` bytes with `words = (sizeof(eeprom_calibration_t) + 3) / 4`. -/
def eeprom_load_calibration_mem (ee : EepromMem) (food water : hx711_t) :
    (hx711_t × hx711_t) × Bool :=
  if !ee.eeprom_initialized then ((food, water), false)
  else
    let words := (sizeof_eeprom_calibration_t + 3) / 4
    let cal_data := eeprom_calibration_t.of_bytes
      (EEPROMRead ee.mem EEPROM_ADDR_CALIBRATION (words * 4))
    if cal_data.magic ≠ EEPROM_MAGIC_CALIBRATION then ((food, water), false)
    else
      (({ food with scale := cal_data.food_scale, offset := cal_data.food_offset },
        { water with scale := cal_data.water_scale, offset := cal_data.water_offset }), true)

/-- Every slot of the table holds bytes, as the C types `uint8_t` and `char`
demand. -/
def slots_are_bytes (st : ProtoState) : Prop :=
  ∀ i, i < 8 → (sched_slot st.sched i).hh < 256 ∧ (sched_slot st.sched i).mm < 256 ∧
    (sched_slot st.sched i).amount.toNat < 256

/-- The gateway and storage of the record-level model that a byte-addressed
storage stands for (nothing programmed yet). -/
def EepromMem.records (ee : EepromMem) : Eeprom :=
  { eeprom_initialized := ee.eeprom_initialized,
    cal_rec := eeprom_calibration_t.of_bytes
      (EEPROMRead ee.mem EEPROM_ADDR_CALIBRATION sizeof_eeprom_calibration_t),
    sched_rec := eeprom_schedule_t.of_bytes
      (EEPROMRead ee.mem EEPROM_ADDR_SCHEDULE sizeof_eeprom_schedule_t),
    programmed := [] }

/-- A blank, initialised storage: every byte 0xFF. -/
def blank_mem : EepromMem := ⟨true, fun _ => 255⟩

/-! ## The schedule parameter as the protocol writes it

These definitions describe the parameter of `AT+SCHED` from the protocol's
side, without reference to the parser: what a token looks like, and which
entry, if any, it stands for. -/

/-- A token of the schedule parameter: an entry written `HHMM{L|M|H}`, an
entry written in the legacy form `HH:MM,A,E`, or other text. -/
inductive SchedToken where
  | entry (hh mm : Nat) (a : Char)
  | legacy (hh mm : Nat) (a : Char) (en : Char)
  | junk (t : List Char)

/-- The bytes of a token: hour and minute as two decimal digits each. -/
def SchedToken.text : SchedToken → List Char
  | .entry hh mm a => fmt_0d 2 hh ++ fmt_0d 2 mm ++ [a]
  | .legacy hh mm a en => fmt_0d 2 hh ++ [':'] ++ fmt_0d 2 mm ++ [','] ++ [a] ++ [','] ++ [en]
  | .junk t => t

/-- The last byte of a text is one of the amount letters. -/
def ends_in_amount (t : List Char) : Prop :=
  t.getLast? = some 'L' ∨ t.getLast? = some 'M' ∨ t.getLast? = some 'H'

/-- What is taken as given about a token. An entry in either form has written
numbers of two digits and an amount letter L, M or H, the legacy form an
enable flag `0` or `1`. Other text is not empty, has no `;`, no `:` and no NUL,
and either does not end in an amount letter or has fewer than four digits
before its last byte. -/
def SchedToken.wf : SchedToken → Prop
  | .entry hh mm a => hh < 100 ∧ mm < 100 ∧ (a = 'L' ∨ a = 'M' ∨ a = 'H')
  | .legacy hh mm a en =>
    hh < 100 ∧ mm < 100 ∧ (a = 'L' ∨ a = 'M' ∨ a = 'H') ∧ (en = '0' ∨ en = '1')
  | .junk t =>
    t ≠ [] ∧ ';' ∉ t ∧ ':' ∉ t ∧ '\x00' ∉ t ∧
      (¬ ends_in_amount t ∨ (t.dropLast.filter isdigit).length < 4)

/-- The schedule entry a token stands for: the written hour, minute and amount
of an entry whose hour is at most 23 and whose minute is at most 59; nothing
for an entry out of range and for other text. -/
def SchedToken.value : SchedToken → Option (Nat × Nat × Char)
  | .entry hh mm a => if hh ≤ 23 ∧ mm ≤ 59 then some (hh, mm, a) else none
  | .legacy hh mm a _ => if hh ≤ 23 ∧ mm ≤ 59 then some (hh, mm, a) else none
  | .junk _ => none

/-- The texts joined by `;`. -/
def join_tokens : List (List Char) → List Char
  | [] => []
  | [t] => t
  | t :: ts => t ++ ';' :: join_tokens ts

/-- The parameter made of a list of tokens. -/
def sched_param (toks : List SchedToken) : List Char :=
  join_tokens (toks.map SchedToken.text)

/-- The table the tokens stand for: of the first 16 tokens those that stand
for an entry, in their order, and of these the first 8. -/
def sched_expected (toks : List SchedToken) : List (Nat × Nat × Char) :=
  ((toks.take 16).filterMap SchedToken.value).take 8

/-! ## Ring buffer lemmas -/

theorem rx_contents_length (s : RxState) : (rx_contents s).length = rx_count s := by
  simp [rx_contents]

theorem rx_count_lt (s : RxState) : rx_count s < UART0_RX_BUF_SZ := by
  unfold rx_count UART0_RX_BUF_SZ
  omega

theorem rx_push_wf (s : RxState) (c : Char) (h : rx_wf s) : rx_wf (rx_push_char s c) := by
  unfold rx_wf rx_push_char UART0_RX_BUF_SZ at *
  simp only []
  split
  · simp only []; omega
  · exact h

theorem rx_push_full (s : RxState) (c : Char) (h : rx_wf s)
    (hfull : rx_count s = UART0_RX_BUF_SZ - 1) : rx_push_char s c = s := by
  unfold rx_wf rx_count UART0_RX_BUF_SZ at *
  unfold rx_push_char UART0_RX_BUF_SZ
  simp only []
  rw [if_neg]
  omega

theorem rx_push_room (s : RxState) (c : Char) (h : rx_wf s)
    (hroom : rx_count s < UART0_RX_BUF_SZ - 1) :
    rx_contents (rx_push_char s c) = rx_contents s ++ [c] := by
  unfold rx_wf rx_count UART0_RX_BUF_SZ at *
  have hne : (s.rx_head + 1) % 2048 ≠ s.rx_tail := by omega
  have hcnt : rx_count (rx_push_char s c) = rx_count s + 1 := by
    unfold rx_count rx_push_char UART0_RX_BUF_SZ
    simp only [hne, ne_eq, not_false_eq_true, if_true]
    omega
  unfold rx_contents
  rw [hcnt, List.range_succ, List.map_append]
  congr 1
  · apply List.map_congr_left
    intro i hi
    rw [List.mem_range] at hi
    unfold rx_count UART0_RX_BUF_SZ at hi
    unfold rx_push_char UART0_RX_BUF_SZ
    simp only [hne, ne_eq, not_false_eq_true, if_true]
    rw [if_neg]
    omega
  · unfold rx_push_char rx_count UART0_RX_BUF_SZ
    simp only [hne, ne_eq, not_false_eq_true, if_true, List.map_cons, List.map_nil]
    rw [if_pos]
    omega

theorem rx_push_all_contents (bs : List Char) :
    ∀ s : RxState, rx_wf s →
      rx_wf (rx_push_all s bs) ∧
      rx_contents (rx_push_all s bs)
        = rx_contents s ++ bs.take (UART0_RX_BUF_SZ - 1 - rx_count s) := by
  induction bs with
  | nil => intro s h; simp [rx_push_all, h]
  | cons b bs ih =>
    intro s h
    have hlt := rx_count_lt s
    have step : rx_push_all s (b :: bs) = rx_push_all (rx_push_char s b) bs := rfl
    rw [step]
    obtain ⟨hw, hc⟩ := ih (rx_push_char s b) (rx_push_wf s b h)
    refine ⟨hw, ?_⟩
    rw [hc]
    by_cases hroom : rx_count s < UART0_RX_BUF_SZ - 1
    · have h1 := rx_push_room s b h hroom
      have h2 : rx_count (rx_push_char s b) = rx_count s + 1 := by
        rw [← rx_contents_length, h1, List.length_append, rx_contents_length]; rfl
      rw [h1, h2]
      have h3 : UART0_RX_BUF_SZ - 1 - rx_count s
          = (UART0_RX_BUF_SZ - 1 - (rx_count s + 1)) + 1 := by omega
      rw [h3, List.take_succ_cons]
      simp
    · have hfull : rx_count s = UART0_RX_BUF_SZ - 1 := by omega
      rw [rx_push_full s b h hfull, hfull]
      simp

theorem rx_pop_empty (s : RxState) (h : rx_wf s) (he : rx_contents s = []) :
    rx_pop_char s = (none, s) := by
  have hc : rx_count s = 0 := by rw [← rx_contents_length, he]; rfl
  unfold rx_wf rx_count UART0_RX_BUF_SZ at *
  unfold rx_pop_char
  rw [if_pos]
  omega

theorem rx_pop_cons (s : RxState) (h : rx_wf s) (c : Char) (cs : List Char)
    (he : rx_contents s = c :: cs) :
    (rx_pop_char s).1 = some c ∧ rx_wf (rx_pop_char s).2 ∧
      rx_contents (rx_pop_char s).2 = cs := by
  have hc : rx_count s = cs.length + 1 := by rw [← rx_contents_length, he]; rfl
  have hne : ¬ s.rx_tail = s.rx_head := by
    unfold rx_wf rx_count UART0_RX_BUF_SZ at *
    omega
  have hpop : rx_pop_char s
      = (some (s.rx_buf s.rx_tail),
          { s with rx_tail := (s.rx_tail + 1) % UART0_RX_BUF_SZ }) := by
    unfold rx_pop_char
    rw [if_neg hne]
  have hcnt : rx_count { s with rx_tail := (s.rx_tail + 1) % UART0_RX_BUF_SZ }
      = cs.length := by
    unfold rx_wf rx_count UART0_RX_BUF_SZ at *
    simp only []
    omega
  unfold rx_contents at he
  rw [hc, List.range_succ_eq_map, List.map_cons, List.map_map] at he
  injection he with hhead htail
  rw [hpop]
  refine ⟨?_, ?_, ?_⟩
  · simp only [Option.some.injEq]
    rw [← hhead]
    unfold rx_wf UART0_RX_BUF_SZ at h
    unfold UART0_RX_BUF_SZ
    congr 1
    omega
  · unfold rx_wf UART0_RX_BUF_SZ at *
    simp only []
    omega
  · simp only []
    unfold rx_contents
    rw [hcnt]
    refine Eq.trans ?_ htail
    apply List.map_congr_left
    intro i _
    simp only [Function.comp]
    unfold UART0_RX_BUF_SZ
    congr 1
    omega

theorem rx_pop_many_contents (n : Nat) :
    ∀ (s : RxState) (cs : List Char), rx_wf s → rx_contents s = cs →
      (rx_pop_many n s).1
        = (cs.take n).map some ++ List.replicate (n - cs.length) none ∧
      rx_wf (rx_pop_many n s).2 ∧
      rx_contents (rx_pop_many n s).2 = cs.drop n := by
  induction n with
  | zero => intro s cs h he; simp [rx_pop_many, h, he]
  | succ n ih =>
    intro s cs h he
    cases cs with
    | nil =>
      have hp := rx_pop_empty s h he
      obtain ⟨i1, i2, i3⟩ := ih s [] h he
      simp only [rx_pop_many, hp]
      refine ⟨?_, i2, ?_⟩
      · rw [i1]; simp [List.replicate_succ]
      · rw [i3]; simp
    | cons c cs =>
      obtain ⟨p1, p2, p3⟩ := rx_pop_cons s h c cs he
      obtain ⟨i1, i2, i3⟩ := ih (rx_pop_char s).2 cs p2 p3
      simp only [rx_pop_many]
      refine ⟨?_, i2, ?_⟩
      · rw [i1, p1]; simp
      · rw [i3]; simp

theorem rx_empty_contents (s : RxState) (h : s.rx_tail = s.rx_head)
    (hw : s.rx_head < UART0_RX_BUF_SZ) : rx_wf s ∧ rx_contents s = [] := by
  have hc : rx_count s = 0 := by
    unfold rx_count UART0_RX_BUF_SZ at *
    omega
  refine ⟨⟨hw, h ▸ hw⟩, ?_⟩
  unfold rx_contents
  rw [hc]
  rfl

/-- From an empty buffer, pushing `bs` and then popping `n` times returns the
first `UART0_RX_BUF_SZ - 1` bytes of `bs` (as far as `n` reaches) and then
only failures. -/
theorem rx_push_then_pop (s : RxState) (h : s.rx_tail = s.rx_head)
    (hw : s.rx_head < UART0_RX_BUF_SZ) (bs : List Char) (n : Nat) :
    (rx_pop_many n (rx_push_all s bs)).1
      = ((bs.take (UART0_RX_BUF_SZ - 1)).take n).map some
        ++ List.replicate (n - (bs.take (UART0_RX_BUF_SZ - 1)).length) none ∧
    rx_wf (rx_pop_many n (rx_push_all s bs)).2 ∧
    rx_contents (rx_pop_many n (rx_push_all s bs)).2
      = (bs.take (UART0_RX_BUF_SZ - 1)).drop n := by
  obtain ⟨hwf, he⟩ := rx_empty_contents s h hw
  obtain ⟨q1, q2⟩ := rx_push_all_contents bs s hwf
  have hc : rx_count s = 0 := by rw [← rx_contents_length, he]; rfl
  rw [he, hc] at q2
  simp only [List.nil_append, Nat.sub_zero] at q2
  exact rx_pop_many_contents n (rx_push_all s bs) _ q1 q2

/-! ## Transport buffer: claims -/

/-- C1: starting from an empty buffer (indices equal and in range), pushing
fewer than `UART0_RX_BUF_SZ` bytes stores all of them, the same number of pops
all succeed and return the bytes in the order pushed, and one more pop fails. -/
theorem C1_push_pop_fifo (s : RxState) (bs : List Char)
    (hempty : s.rx_tail = s.rx_head) (hidx : s.rx_head < UART0_RX_BUF_SZ)
    (hN : bs.length < UART0_RX_BUF_SZ) :
    rx_contents (rx_push_all s bs) = bs ∧
    (rx_pop_many bs.length (rx_push_all s bs)).1 = bs.map some ∧
    (rx_pop_char (rx_pop_many bs.length (rx_push_all s bs)).2).1 = none := by
  have htake : bs.take (UART0_RX_BUF_SZ - 1) = bs := List.take_of_length_le (by omega)
  obtain ⟨r1, r2, r3⟩ := rx_push_then_pop s hempty hidx bs bs.length
  obtain ⟨q1, _, q3⟩ := rx_push_then_pop s hempty hidx bs 0
  rw [htake] at r1 r3 q3
  refine ⟨?_, ?_, ?_⟩
  · simpa [rx_pop_many] using q3
  · rw [r1]; simp
  · rw [rx_pop_empty _ r2 (by rw [r3]; simp)]

theorem C1_push_pop_fifo_witness :
    rx_contents (rx_push_all rx_init ['A', 'T', '+']) = ['A', 'T', '+'] ∧
    (rx_pop_many 3 (rx_push_all rx_init ['A', 'T', '+'])).1
      = [some 'A', some 'T', some '+'] ∧
    (rx_pop_char (rx_pop_many 3 (rx_push_all rx_init ['A', 'T', '+'])).2).1 = none :=
  C1_push_pop_fifo rx_init ['A', 'T', '+'] rfl (by decide) (by decide)

/-- C2 fails with capacity = `UART0_RX_BUF_SZ`: after 2049 pushes into the
empty buffer, 2048 pops do not return the first 2048 bytes (the 2048th pop
already fails, the buffer holds 2047 bytes). -/
theorem C2_counterexample :
    ¬ ((rx_pop_many 2048 (rx_push_all rx_init overflow_bytes)).1
        = (overflow_bytes.take 2048).map some) := by
  intro h
  obtain ⟨r1, _, _⟩ := rx_push_then_pop rx_init rfl (by decide) overflow_bytes 2048
  have hlen : (overflow_bytes.take (UART0_RX_BUF_SZ - 1)).length = 2047 := by
    simp [overflow_bytes, UART0_RX_BUF_SZ]
  rw [hlen] at r1
  have hmem : (none : Option Char) ∈ (rx_pop_many 2048 (rx_push_all rx_init overflow_bytes)).1 := by
    rw [r1]; simp
  rw [h] at hmem
  obtain ⟨x, _, hx⟩ := List.mem_map.mp hmem
  exact Option.noConfusion hx

/-- C2 (amended): the buffer holds `UART0_RX_BUF_SZ - 1 = 2047` bytes. Pushing
2048 bytes into the empty buffer drops only the last one: the pops return
the first 2047 bytes in order and the next pop fails. Whatever is pushed, the
buffer keeps exactly the first 2047 bytes. -/
theorem C2_drop_newest (s : RxState) (bs : List Char)
    (hempty : s.rx_tail = s.rx_head) (hidx : s.rx_head < UART0_RX_BUF_SZ) :
    rx_contents (rx_push_all s bs) = bs.take (UART0_RX_BUF_SZ - 1) ∧
    (bs.length = UART0_RX_BUF_SZ →
      (rx_pop_many UART0_RX_BUF_SZ (rx_push_all s bs)).1 = bs.dropLast.map some ++ [none]) := by
  obtain ⟨_, _, q3⟩ := rx_push_then_pop s hempty hidx bs 0
  refine ⟨by simpa [rx_pop_many] using q3, ?_⟩
  intro hlen
  obtain ⟨r1, _, _⟩ := rx_push_then_pop s hempty hidx bs UART0_RX_BUF_SZ
  have hdl : bs.take (UART0_RX_BUF_SZ - 1) = bs.dropLast := by
    rw [List.dropLast_eq_take, hlen]
  rw [hdl] at r1
  have hl2 : bs.dropLast.length = 2047 := by
    rw [List.length_dropLast, hlen]; rfl
  have h2 : List.take UART0_RX_BUF_SZ bs.dropLast = bs.dropLast :=
    List.take_of_length_le (by rw [hl2]; decide)
  rw [r1, hl2, h2]
  simp [UART0_RX_BUF_SZ]

theorem C2_drop_newest_witness :
    rx_contents (rx_push_all rx_init overflow_bytes)
      = overflow_bytes.take (UART0_RX_BUF_SZ - 1) ∧
    (overflow_bytes.length = UART0_RX_BUF_SZ →
      (rx_pop_many UART0_RX_BUF_SZ (rx_push_all rx_init overflow_bytes)).1
        = overflow_bytes.dropLast.map some ++ [none]) :=
  C2_drop_newest rx_init overflow_bytes rfl (by decide)

/-! ## Dispatcher lemmas -/

theorem dispatch_feed (D : Device) (env : Env) (param : List Char) :
    handle_at_command D env ("AT+FEED=".data ++ param) = cmd_at_feed D env param := by
  simp [handle_at_command, strncmp_eq, strchr]

theorem dispatch_settime (D : Device) (env : Env) (param : List Char) :
    handle_at_command D env ("AT+SETTIME=".data ++ param) = cmd_at_settime D env param := by
  simp [handle_at_command, strncmp_eq, strchr]

theorem dispatch_sched (D : Device) (env : Env) (param : List Char) :
    handle_at_command D env ("AT+SCHED=".data ++ param) = cmd_at_schedule D param := by
  simp [handle_at_command, strncmp_eq, strchr]

theorem dispatch_getsched (D : Device) (env : Env) :
    handle_at_command D env "AT+GETSCHED".data = cmd_at_get_schedule D := by
  simp [handle_at_command, strncmp_eq, strchr]

/-! ## Feed command: claims -/

/-- C4 fails as written: `deg_to_steps(30)` with 4096 steps per revolution is
not 342. -/
theorem C4_counterexample : deg_to_steps FEED_DEG_L ≠ 342 := by decide

/-- C4 (amended): for amount class Low (30 degrees, 4096 steps per revolution)
`deg_to_steps` yields `(30*4096 + 180) / 360 = 341`, the integer nearest to
341.33, and an accepted `AT+FEED=L` starts with `steps_remaining = 341`. -/
theorem C4_low_steps (D : Device) (env : Env) (hidle : D.S.busy = false) :
    deg_to_steps FEED_DEG_L = 341 ∧
    (30 * 4096 + 180) / 360 = 341 ∧
    (handle_at_command D env "AT+FEED=L".data).1.S.feed_steps_remaining = 341 ∧
    (handle_at_command D env "AT+FEED=L".data).1.S.busy = true := by
  have h : handle_at_command D env "AT+FEED=L".data = cmd_at_feed D env ['L'] :=
    dispatch_feed D env ['L']
  rw [h]
  have hs : deg_to_steps FEED_DEG_L = 341 := by decide
  refine ⟨hs, by decide, ?_, ?_⟩ <;>
    simp [cmd_at_feed, hidle, is_amount_LMH, hs]

theorem C4_low_steps_witness :
    deg_to_steps FEED_DEG_L = 341 ∧
    (30 * 4096 + 180) / 360 = 341 ∧
    (handle_at_command idle_device env_timeout "AT+FEED=L".data).1.S.feed_steps_remaining = 341 ∧
    (handle_at_command idle_device env_timeout "AT+FEED=L".data).1.S.busy = true :=
  C4_low_steps idle_device env_timeout rfl

/-- C5: while a feed task is active (`busy = true`), `AT+FEED=M` replies
`+ERR: BUSY` and leaves the whole device state, in particular every field of
the active task, unchanged. -/
theorem C5_feed_busy (D : Device) (env : Env) (hbusy : D.S.busy = true) :
    handle_at_command D env "AT+FEED=M".data = (D, ack_err "BUSY".data) ∧
    feed_task (handle_at_command D env "AT+FEED=M".data).1.S = feed_task D.S := by
  have h : handle_at_command D env "AT+FEED=M".data = cmd_at_feed D env ['M'] :=
    dispatch_feed D env ['M']
  rw [h]
  simp [cmd_at_feed, hbusy]

theorem C5_feed_busy_witness :
    handle_at_command busy_device env_timeout "AT+FEED=M".data
      = (busy_device, ack_err "BUSY".data) ∧
    feed_task (handle_at_command busy_device env_timeout "AT+FEED=M".data).1.S
      = feed_task busy_device.S :=
  C5_feed_busy busy_device env_timeout rfl

/-- C6 fails as written: with no active task, the parameter `LOW` (longer than
one byte, beginning with `L`) is accepted: the reply is `+OK`, not
`+ERR: PARAM_ERR`, and a feed task is started. -/
theorem C6_counterexample :
    (handle_at_command idle_device env_timeout "AT+FEED=LOW".data).2 = send_ok ∧
    (handle_at_command idle_device env_timeout "AT+FEED=LOW".data).2
      ≠ ack_err "PARAM_ERR".data ∧
    (handle_at_command idle_device env_timeout "AT+FEED=LOW".data).1.S.busy = true ∧
    idle_device.S.busy = false := by
  decide

/-- C6 (amended): with no active task, `AT+FEED=<param>` looks at the first
byte of the parameter only. If the parameter is empty or its first byte is
none of `L`, `M`, `H`, the reply is `+ERR: PARAM_ERR` and the device state is
unchanged; if the first byte is `L`, `M` or `H` (whatever follows), the reply
is `+OK` and a feed task for that class is started at the current tick. -/
theorem C6_feed_param (D : Device) (env : Env) (hidle : D.S.busy = false) :
    (∀ param : List Char,
      param.head? ≠ some 'L' → param.head? ≠ some 'M' → param.head? ≠ some 'H' →
      handle_at_command D env ("AT+FEED=".data ++ param) = (D, ack_err "PARAM_ERR".data)) ∧
    (∀ (c : Char) (rest : List Char), c = 'L' ∨ c = 'M' ∨ c = 'H' →
      handle_at_command D env ("AT+FEED=".data ++ c :: rest)
        = ({ D with S :=
              { D.S with
                feed_steps_remaining :=
                  deg_to_steps (if c = 'L' then 30 else if c = 'M' then 60 else 120),
                feed_step_delay_ms := 10,
                feed_next_step_ms := millis env,
                feed_deadline_ms :=
                  (millis env
                    + deg_to_steps (if c = 'L' then 30 else if c = 'M' then 60 else 120) * 10
                    + 1000) % U32,
                feed_last_amount_g := if c = 'L' then 10 else if c = 'M' then 25 else 40,
                busy := true } }, send_ok)) := by
  constructor
  · intro param h1 h2 h3
    rw [dispatch_feed]
    cases param with
    | nil => simp [cmd_at_feed, hidle, is_amount_LMH]
    | cons c rest =>
      simp only [List.head?_cons, ne_eq, Option.some.injEq] at h1 h2 h3
      simp [cmd_at_feed, hidle, is_amount_LMH, h1, h2, h3]
  · intro c rest hc
    rw [dispatch_feed]
    rcases hc with h | h | h <;> subst h <;>
      simp [cmd_at_feed, hidle, is_amount_LMH, level_to_grams, FEED_DEG_L, FEED_DEG_M,
        FEED_DEG_H, FEED_STEP_DELAY_MS]

theorem C6_feed_param_witness :
    (∀ param : List Char,
      param.head? ≠ some 'L' → param.head? ≠ some 'M' → param.head? ≠ some 'H' →
      handle_at_command idle_device env_timeout ("AT+FEED=".data ++ param)
        = (idle_device, ack_err "PARAM_ERR".data)) ∧
    (∀ (c : Char) (rest : List Char), c = 'L' ∨ c = 'M' ∨ c = 'H' →
      handle_at_command idle_device env_timeout ("AT+FEED=".data ++ c :: rest)
        = ({ idle_device with S :=
              { idle_device.S with
                feed_steps_remaining :=
                  deg_to_steps (if c = 'L' then 30 else if c = 'M' then 60 else 120),
                feed_step_delay_ms := 10,
                feed_next_step_ms := millis env_timeout,
                feed_deadline_ms :=
                  (millis env_timeout
                    + deg_to_steps (if c = 'L' then 30 else if c = 'M' then 60 else 120) * 10
                    + 1000) % U32,
                feed_last_amount_g := if c = 'L' then 10 else if c = 'M' then 25 else 40,
                busy := true } }, send_ok)) :=
  C6_feed_param idle_device env_timeout rfl

/-! ## Decimal numbers -/

theorem digitChar_spec (d : Nat) (hd : d < 10) :
    isdigit (Nat.digitChar d) = true ∧ digit_val (Nat.digitChar d) = d ∧
    isspace (Nat.digitChar d) = false ∧ Nat.digitChar d ≠ '-' ∧ Nat.digitChar d ≠ '+' := by
  interval_cases d <;> decide

theorem toDigitsCore_spec (fuel : Nat) :
    ∀ (n : Nat) (ds : List Char), n < fuel →
      ∃ pre : List Char, Nat.toDigitsCore 10 fuel n ds = pre ++ ds ∧ pre ≠ [] ∧
        (∀ c ∈ pre, isdigit c = true) ∧
        pre.foldl (fun acc c => acc * 10 + digit_val c) 0 = n := by
  induction fuel with
  | zero => intro n ds h; omega
  | succ fuel ih =>
    intro n ds h
    have hd := digitChar_spec (n % 10) (Nat.mod_lt _ (by decide))
    simp only [Nat.toDigitsCore]
    by_cases h0 : n / 10 = 0
    · rw [if_pos h0]
      refine ⟨[Nat.digitChar (n % 10)], rfl, by simp, ?_, ?_⟩
      · intro c hc
        simp only [List.mem_singleton] at hc
        rw [hc]; exact hd.1
      · simp only [List.foldl_cons, List.foldl_nil, hd.2.1]
        omega
    · rw [if_neg h0]
      obtain ⟨pre, e1, _, e3, e4⟩ := ih (n / 10) (Nat.digitChar (n % 10) :: ds) (by omega)
      refine ⟨pre ++ [Nat.digitChar (n % 10)], ?_, by simp, ?_, ?_⟩
      · rw [e1]; simp
      · intro c hc
        rcases List.mem_append.mp hc with hc | hc
        · exact e3 c hc
        · simp only [List.mem_singleton] at hc
          rw [hc]; exact hd.1
      · rw [List.foldl_append, e4]
        simp only [List.foldl_cons, List.foldl_nil, hd.2.1]
        omega

/-- The decimal numeral of `n` is a non-empty run of digits whose value is `n`. -/
theorem toDigits_spec (n : Nat) :
    Nat.toDigits 10 n ≠ [] ∧ (∀ c ∈ Nat.toDigits 10 n, isdigit c = true) ∧
    (Nat.toDigits 10 n).foldl (fun acc c => acc * 10 + digit_val c) 0 = n := by
  obtain ⟨pre, e1, e2, e3, e4⟩ := toDigitsCore_spec (n + 1) n [] (by omega)
  have : Nat.toDigits 10 n = pre := by
    unfold Nat.toDigits
    rw [e1]; simp
  rw [this]
  exact ⟨e2, e3, e4⟩

theorem isdigit_not_special (c : Char) (h : isdigit c = true) :
    isspace c = false ∧ c ≠ '-' ∧ c ≠ '+' := by
  simp only [isdigit, decide_eq_true_eq] at h
  refine ⟨?_, ?_, ?_⟩
  · simp only [isspace, Bool.or_eq_false_iff, decide_eq_false_iff_not]
    refine ⟨⟨⟨⟨⟨?_, ?_⟩, ?_⟩, ?_⟩, ?_⟩, ?_⟩ <;> intro hc <;> subst hc <;> revert h <;> decide
  · intro hc; subst hc; revert h; decide
  · intro hc; subst hc; revert h; decide

/-- Function `strtoul` reads back the decimal numeral of any 32-bit value. -/
theorem strtoul10_toDigits (v : Nat) (hv : v < U32) : strtoul10 (Nat.toDigits 10 v) = v := by
  obtain ⟨hne, hall, hval⟩ := toDigits_spec v
  cases hds : Nat.toDigits 10 v with
  | nil => exact absurd hds hne
  | cons c r =>
    rw [hds] at hall hval
    obtain ⟨hsp, hm, hp⟩ := isdigit_not_special c (hall c (List.mem_cons_self c r))
    have h1 : List.dropWhile isspace (c :: r) = c :: r := by
      rw [List.dropWhile_cons_of_neg]; simp [hsp]
    have h2 : strip_sign (c :: r) = (false, c :: r) := by
      simp [strip_sign, hm, hp]
    have h3 : digits_value (c :: r) = v := by
      unfold digits_value
      rw [List.takeWhile_eq_self_iff.mpr hall]
      exact hval
    unfold strtoul10
    simp only [h1, h2, h3]
    rw [if_neg (by omega)]
    simp

/-! ## Time base: claims -/

/-- C8 fails as written: with the anchor set at tick 0, the two ticks
`4294967000` and `4294967000 + 1000` (mod 2^32), one second apart, lie on
either side of the wrap of the elapsed-time value, and the second reading of
`now_unix` is not the first plus 1 (it falls back to the anchor value). -/
theorem C8_counterexample :
    now_unix { init_state 0 with unix_base := 1733472000 } ((4294967000 + 1000) % U32)
      ≠ now_unix { init_state 0 with unix_base := 1733472000 } 4294967000 + 1 ∧
    now_unix { init_state 0 with unix_base := 1733472000 } 4294967000 = 1733472000 + 4294967 ∧
    now_unix { init_state 0 with unix_base := 1733472000 } ((4294967000 + 1000) % U32)
      = 1733472000 := by
  decide

/-- C8 (amended): for every anchor and every tick `t`, if fewer than
`2^32 - 1000` milliseconds have elapsed since the anchor tick (the elapsed-time
value does not wrap between the two readings), then `now_unix` at tick
`t + 1000` (mod 2^32, so also across a wrap of the tick counter) is `now_unix`
at tick `t` plus 1, in 32-bit arithmetic; it is exactly the first value plus 1
unless that value is `2^32 - 1`. -/
theorem C8_clock_step (S : ProtoState) (t : Nat)
    (hnowrap : u32_sub t S.ms_at_sync + 1000 < U32) :
    now_unix S ((t + 1000) % U32) = (now_unix S t + 1) % U32 ∧
    (now_unix S t + 1 < U32 → now_unix S ((t + 1000) % U32) = now_unix S t + 1) := by
  unfold now_unix u32_sub U32 at *
  simp only []
  omega

theorem C8_clock_step_witness :
    now_unix { init_state 4294967000 with unix_base := 1733472000 } ((4294967200 + 1000) % U32)
      = (now_unix { init_state 4294967000 with unix_base := 1733472000 } 4294967200 + 1) % U32 ∧
    (now_unix { init_state 4294967000 with unix_base := 1733472000 } 4294967200 + 1 < U32 →
      now_unix { init_state 4294967000 with unix_base := 1733472000 } ((4294967200 + 1000) % U32)
        = now_unix { init_state 4294967000 with unix_base := 1733472000 } 4294967200 + 1) :=
  C8_clock_step { init_state 4294967000 with unix_base := 1733472000 } 4294967200 (by decide)

/-! ## Scheduler tick: claims -/

theorem sched_scan_frame (ms cur : Nat) (es : List SchedEntry) :
    ∀ S : ProtoState,
      (sched_scan S ms cur es).unix_base = S.unix_base ∧
      (sched_scan S ms cur es).ms_at_sync = S.ms_at_sync ∧
      (sched_scan S ms cur es).sched_init = S.sched_init ∧
      (sched_scan S ms cur es).last_sched_minute = S.last_sched_minute ∧
      (sched_scan S ms cur es).time_request_pending = S.time_request_pending ∧
      (sched_scan S ms cur es).time_request_last_ms = S.time_request_last_ms := by
  induction es with
  | nil => intro S; simp [sched_scan]
  | cons e es ih =>
    intro S
    simp only [sched_scan]
    split
    · simp
    · exact ih S

theorem tick_time_request_frame (S : ProtoState) (env : Env) :
    (tick_time_request S env).1.unix_base = S.unix_base ∧
    (tick_time_request S env).1.ms_at_sync = S.ms_at_sync ∧
    (tick_time_request S env).1.sched_init = S.sched_init ∧
    (tick_time_request S env).1.last_sched_minute = S.last_sched_minute ∧
    feed_task (tick_time_request S env).1 = feed_task S := by
  unfold tick_time_request
  split <;> simp [feed_task]

/-- With the time base unset the schedule evaluation does nothing; otherwise it
leaves the cursor initialised and holding the minute of this invocation. -/
theorem tick_schedule_cursor (S : ProtoState) (env : Env) :
    (tick_schedule S env).unix_base = S.unix_base ∧
    (tick_schedule S env).ms_at_sync = S.ms_at_sync ∧
    (S.unix_base = 0 → tick_schedule S env = S) ∧
    (S.unix_base ≠ 0 →
      (tick_schedule S env).sched_init = true ∧
      (tick_schedule S env).last_sched_minute = minute_of_day (now_unix S (millis env))) := by
  by_cases hb : S.unix_base = 0
  · simp [tick_schedule, hb]
  · by_cases hi : S.sched_init = true
    · by_cases hc : minute_of_day (now_unix S (millis env)) = S.last_sched_minute
      · simp [tick_schedule, hb, hi, hc]
      · obtain ⟨f1, f2, f3, f4, _, _⟩ :=
          sched_scan_frame (millis env) (minute_of_day (now_unix S (millis env)))
            ((List.range S.sched_len).map (sched_slot S.sched))
            { S with last_sched_minute := minute_of_day (now_unix S (millis env)) }
        have ht : tick_schedule S env
            = sched_scan { S with last_sched_minute := minute_of_day (now_unix S (millis env)) }
                (millis env) (minute_of_day (now_unix S (millis env)))
                ((List.range S.sched_len).map (sched_slot S.sched)) := by
          simp [tick_schedule, hb, hi, hc]
        rw [ht]
        exact ⟨f1, f2, fun h => absurd h hb, fun _ => ⟨f3.trans hi, f4⟩⟩
    · simp [tick_schedule, hb, hi]

/-- An invocation whose minute equals the cursor of an initialised scheduler
changes nothing. -/
theorem tick_schedule_same_minute (S : ProtoState) (env : Env)
    (h : S.unix_base = 0 ∨
      (S.sched_init = true ∧ minute_of_day (now_unix S (millis env)) = S.last_sched_minute)) :
    tick_schedule S env = S := by
  unfold tick_schedule
  rcases h with h | ⟨h1, h2⟩
  · simp [h]
  · by_cases hb : S.unix_base = 0
    · simp [hb]
    · simp [hb, h1, h2]


theorem now_unix_congr (A B : ProtoState) (t : Nat) (h1 : A.unix_base = B.unix_base)
    (h2 : A.ms_at_sync = B.ms_at_sync) : now_unix A t = now_unix B t := by
  simp [now_unix, h1, h2]

/-- C9: if `Proto_Tick1000ms` is invoked twice, at two ticks that map to the
same minute of the day, the second invocation changes neither the feed task
(busy flag included) nor the minute cursor, so the two invocations together
start at most one feed task. -/
theorem C9_same_minute_idempotent (S : ProtoState) (env1 env2 : Env)
    (hmin : minute_of_day (now_unix S (millis env1))
      = minute_of_day (now_unix S (millis env2))) :
    feed_task (Proto_Tick1000ms (Proto_Tick1000ms S env1).1 env2).1
      = feed_task (Proto_Tick1000ms S env1).1 ∧
    minute_cursor (Proto_Tick1000ms (Proto_Tick1000ms S env1).1 env2).1
      = minute_cursor (Proto_Tick1000ms S env1).1 ∧
    tasks_started S (Proto_Tick1000ms S env1).1
      + tasks_started (Proto_Tick1000ms S env1).1
          (Proto_Tick1000ms (Proto_Tick1000ms S env1).1 env2).1 ≤ 1 := by
  obtain ⟨a1, a2, _, _, _⟩ := tick_time_request_frame S env1
  obtain ⟨s1, s2, _, s4⟩ := tick_schedule_cursor (tick_time_request S env1).1 env1
  have hS1 : (Proto_Tick1000ms S env1).1 = tick_schedule (tick_time_request S env1).1 env1 := rfl
  generalize (Proto_Tick1000ms S env1).1 = S1 at *
  obtain ⟨b1, b2, b3, b4, b5⟩ := tick_time_request_frame S1 env2
  have hS2 : (Proto_Tick1000ms S1 env2).1 = tick_schedule (tick_time_request S1 env2).1 env2 := rfl
  have c1 : S1.unix_base = S.unix_base := by rw [hS1, s1, a1]
  have c2 : S1.ms_at_sync = S.ms_at_sync := by rw [hS1, s2, a2]
  have hfix : tick_schedule (tick_time_request S1 env2).1 env2 = (tick_time_request S1 env2).1 := by
    apply tick_schedule_same_minute
    by_cases hb : S.unix_base = 0
    · left
      rw [b1, c1, hb]
    · right
      obtain ⟨i1, i2⟩ := s4 (by rw [a1]; exact hb)
      have c3 : S1.sched_init = true := by rw [hS1]; exact i1
      have c4 : S1.last_sched_minute = minute_of_day (now_unix S (millis env1)) := by
        rw [hS1, i2, now_unix_congr _ S _ a1 a2]
      refine ⟨by rw [b3, c3], ?_⟩
      rw [b4, c4, hmin, now_unix_congr _ S _ (b1.trans c1) (b2.trans c2)]
  rw [hS2, hfix]
  refine ⟨b5, ?_, ?_⟩
  · simp [minute_cursor, b3, b4]
  · have hbusy : (tick_time_request S1 env2).1.busy = S1.busy := by
      have := congrArg Prod.fst b5
      simpa [feed_task] using this
    have h2 : tasks_started S1 (tick_time_request S1 env2).1 = 0 := by
      unfold tasks_started
      rw [hbusy]
      cases S1.busy <;> simp
    have h1 : tasks_started S S1 ≤ 1 := by
      unfold tasks_started
      split <;> omega
    omega

theorem C9_same_minute_idempotent_witness :
    feed_task (Proto_Tick1000ms (Proto_Tick1000ms sched_state ⟨61000, none, none⟩).1
        ⟨62000, none, none⟩).1
      = feed_task (Proto_Tick1000ms sched_state ⟨61000, none, none⟩).1 ∧
    minute_cursor (Proto_Tick1000ms (Proto_Tick1000ms sched_state ⟨61000, none, none⟩).1
        ⟨62000, none, none⟩).1
      = minute_cursor (Proto_Tick1000ms sched_state ⟨61000, none, none⟩).1 ∧
    tasks_started sched_state (Proto_Tick1000ms sched_state ⟨61000, none, none⟩).1
      + tasks_started (Proto_Tick1000ms sched_state ⟨61000, none, none⟩).1
          (Proto_Tick1000ms (Proto_Tick1000ms sched_state ⟨61000, none, none⟩).1
            ⟨62000, none, none⟩).1 ≤ 1 :=
  C9_same_minute_idempotent sched_state ⟨61000, none, none⟩ ⟨62000, none, none⟩ (by decide)

/-- In the sample run the first of the two invocations does start a task. -/
theorem sched_state_tick_starts :
    (Proto_Tick1000ms sched_state ⟨61000, none, none⟩).1.busy = true ∧
    (Proto_Tick1000ms sched_state ⟨61000, none, none⟩).1.feed_steps_remaining = 683 := by
  decide

/-! ## Error atomicity of the dispatcher -/

theorem send_ok_not_err : is_err_reply send_ok = false := by decide

theorem send_ok_data_not_err (data : List Char) : is_err_reply (send_ok_data data) = false := by
  simp [is_err_reply, send_ok_data, UARTprintf, uart0_write]

theorem cmd_at_status_atomic (D : Device) (env : Env) :
    (cmd_at_status D env).1 = D ∨ is_err_reply (cmd_at_status D env).2 = false := by
  unfold cmd_at_status
  simp only []
  split <;> simp

theorem cmd_at_feed_atomic (D : Device) (env : Env) (param : List Char) :
    (cmd_at_feed D env param).1 = D ∨ is_err_reply (cmd_at_feed D env param).2 = false := by
  unfold cmd_at_feed
  simp only []
  repeat' split
  all_goals simp [send_ok_not_err]

theorem cmd_at_log_atomic (D : Device) :
    (cmd_at_log D).1 = D ∨ is_err_reply (cmd_at_log D).2 = false := by
  simp [cmd_at_log]

theorem cmd_at_tare_atomic (D : Device) (env : Env) (param : List Char) :
    (cmd_at_tare D env param).1 = D ∨ is_err_reply (cmd_at_tare D env param).2 = false := by
  unfold cmd_at_tare
  simp only []
  repeat' split
  all_goals simp [send_ok_not_err]

theorem cmd_at_calibrate_atomic (D : Device) (env : Env) (param : List Char) :
    (cmd_at_calibrate D env param).1 = D ∨
      is_err_reply (cmd_at_calibrate D env param).2 = false := by
  unfold cmd_at_calibrate
  simp only []
  repeat' split
  all_goals simp [send_ok_not_err]

theorem cmd_at_settime_atomic (D : Device) (env : Env) (param : List Char) :
    (cmd_at_settime D env param).1 = D ∨
      is_err_reply (cmd_at_settime D env param).2 = false := by
  unfold cmd_at_settime
  simp only []
  repeat' split
  all_goals simp [send_ok_not_err]

theorem cmd_at_schedule_atomic (D : Device) (param : List Char) :
    (cmd_at_schedule D param).1 = D ∨ is_err_reply (cmd_at_schedule D param).2 = false := by
  unfold cmd_at_schedule
  simp only []
  repeat' split
  all_goals simp [send_ok_not_err]

theorem cmd_at_get_schedule_atomic (D : Device) :
    (cmd_at_get_schedule D).1 = D ∨ is_err_reply (cmd_at_get_schedule D).2 = false := by
  unfold cmd_at_get_schedule
  simp only []
  split <;> simp

theorem cmd_at_eeprom_diag_atomic (D : Device) :
    (cmd_at_eeprom_diag D).1 = D ∨ is_err_reply (cmd_at_eeprom_diag D).2 = false := by
  simp [cmd_at_eeprom_diag]

/-- The chain of comparisons of `handle_at_command`, with the outcomes of the
comparisons left open. -/
theorem dispatch_chain_atomic (D : Device) (env : Env) (param : List Char)
    (c1 c2 c3 c4 c5 c6 c7 c8 c9 : Bool) :
    (if c1 = true then cmd_at_status D env
      else if c2 = true then cmd_at_feed D env param
      else if c3 = true then cmd_at_log D
      else if c4 = true then cmd_at_tare D env param
      else if c5 = true then cmd_at_calibrate D env param
      else if c6 = true then cmd_at_settime D env param
      else if c7 = true then cmd_at_schedule D param
      else if c8 = true then cmd_at_get_schedule D
      else if c9 = true then cmd_at_eeprom_diag D
      else (D, ack_err "UNKNOWN_CMD".data)).1 = D ∨
    is_err_reply
      (if c1 = true then cmd_at_status D env
        else if c2 = true then cmd_at_feed D env param
        else if c3 = true then cmd_at_log D
        else if c4 = true then cmd_at_tare D env param
        else if c5 = true then cmd_at_calibrate D env param
        else if c6 = true then cmd_at_settime D env param
        else if c7 = true then cmd_at_schedule D param
        else if c8 = true then cmd_at_get_schedule D
        else if c9 = true then cmd_at_eeprom_diag D
        else (D, ack_err "UNKNOWN_CMD".data)).2 = false := by
  cases c1
  case true => exact cmd_at_status_atomic D env
  cases c2
  case true => exact cmd_at_feed_atomic D env param
  cases c3
  case true => exact cmd_at_log_atomic D
  cases c4
  case true => exact cmd_at_tare_atomic D env param
  cases c5
  case true => exact cmd_at_calibrate_atomic D env param
  cases c6
  case true => exact cmd_at_settime_atomic D env param
  cases c7
  case true => exact cmd_at_schedule_atomic D param
  cases c8
  case true => exact cmd_at_get_schedule_atomic D
  cases c9
  case true => exact cmd_at_eeprom_diag_atomic D
  left; rfl

theorem handle_at_command_atomic (D : Device) (env : Env) (line : List Char) :
    (handle_at_command D env line).1 = D ∨
      is_err_reply (handle_at_command D env line).2 = false := by
  unfold handle_at_command
  split
  · left; rfl
  · exact dispatch_chain_atomic D env _ _ _ _ _ _ _ _ _ _

/-- C10: whenever the reply of `handle_at_command` is an error line
(`+ERR: ...`), the device state, the calibration of both sensors and the
storage (records and list of programmed addresses) are exactly what they were
before the command. -/
theorem C10_error_atomic (D : Device) (env : Env) (line : List Char)
    (herr : is_err_reply (handle_at_command D env line).2 = true) :
    (handle_at_command D env line).1 = D := by
  rcases handle_at_command_atomic D env line with h | h
  · exact h
  · rw [h] at herr
    exact absurd herr (by decide)

theorem C10_error_atomic_witness :
    is_err_reply (handle_at_command idle_device env_timeout "AT+TARE=FOOD".data).2 = true ∧
    (handle_at_command idle_device env_timeout "AT+TARE=FOOD".data).1 = idle_device :=
  ⟨by decide, C10_error_atomic idle_device env_timeout "AT+TARE=FOOD".data (by decide)⟩

theorem tare_timeout_reply :
    (handle_at_command idle_device env_timeout "AT+TARE=FOOD".data).2
      = ack_err "TIMEOUT".data := by
  decide


/-! ## Schedule command round trip -/

theorem fmt_0d_two (n : Nat) (hn : n < 100) :
    fmt_0d 2 n = [Nat.digitChar (n / 10), Nat.digitChar (n % 10)] := by
  interval_cases n <;> rfl

theorem encode_entry_shape (e : Nat × Nat × Char) (h : valid_entry e) :
    encode_entry e = [Nat.digitChar (e.1 / 10), Nat.digitChar (e.1 % 10),
      Nat.digitChar (e.2.1 / 10), Nat.digitChar (e.2.1 % 10), e.2.2] := by
  obtain ⟨h1, h2, _⟩ := h
  unfold encode_entry
  rw [fmt_0d_two e.1 (by omega), fmt_0d_two e.2.1 (by omega)]
  rfl

theorem digitChar_plain (d : Nat) (hd : d < 10) :
    Nat.digitChar d ≠ ';' ∧ Nat.digitChar d ≠ '\x00' := by
  interval_cases d <;> decide

theorem parse_encode_entry (e : Nat × Nat × Char) (h : valid_entry e) :
    parse_sched_token (encode_entry e) = some (slot_of e) := by
  rw [encode_entry_shape e h]
  obtain ⟨h1, h2, h3⟩ := h
  have a1 := digitChar_spec (e.1 / 10) (by omega)
  have a2 := digitChar_spec (e.1 % 10) (by omega)
  have a3 := digitChar_spec (e.2.1 / 10) (by omega)
  have a4 := digitChar_spec (e.2.1 % 10) (by omega)
  have hh : (e.1 / 10 * 10 + e.1 % 10) % 256 = e.1 := by omega
  have hm : (e.2.1 / 10 * 10 + e.2.1 % 10) % 256 = e.2.1 := by omega
  unfold parse_sched_token
  simp [collect_digits, a1.1, a2.1, a3.1, a4.1, a1.2.1, a2.2.1, a3.2.1, a4.2.1, h3, hh, hm,
    slot_of, h1, h2]


theorem encode_entry_chars (e : Nat × Nat × Char) (h : valid_entry e) :
    encode_entry e ≠ [] ∧ (encode_entry e).length = 5 ∧
    ∀ c ∈ encode_entry e, c ≠ ';' ∧ c ≠ '\x00' := by
  rw [encode_entry_shape e h]
  obtain ⟨h1, h2, h3⟩ := h
  have a1 := digitChar_plain (e.1 / 10) (by omega)
  have a2 := digitChar_plain (e.1 % 10) (by omega)
  have a3 := digitChar_plain (e.2.1 / 10) (by omega)
  have a4 := digitChar_plain (e.2.1 % 10) (by omega)
  refine ⟨by simp, by simp, ?_⟩
  intro c hc
  simp only [List.mem_cons, List.mem_singleton, List.not_mem_nil, or_false] at hc
  rcases hc with hc | hc | hc | hc | hc
  · rw [hc]; exact a1
  · rw [hc]; exact a2
  · rw [hc]; exact a3
  · rw [hc]; exact a4
  · rw [hc]; rcases h3 with h | h | h <;> rw [h] <;> decide

/-- Function `strtok` on a token followed by a delimiter, and on a last token. -/
theorem strtok_token (tok rest : List Char) (hne : tok ≠ [])
    (hns : ∀ c ∈ tok, c ≠ ';') :
    strtok (tok ++ ';' :: rest) = some (tok, rest) ∧ strtok tok = some (tok, []) := by
  cases tok with
  | nil => exact absurd rfl hne
  | cons c cs =>
    have hc : c ≠ ';' := hns c (List.mem_cons_self c cs)
    have hcs : ∀ x ∈ cs, x ≠ ';' := fun x hx => hns x (List.mem_cons_of_mem c hx)
    have t1 : List.takeWhile (fun c => !decide (c = ';')) (cs ++ ';' :: rest) = cs := by
      rw [List.takeWhile_append_of_pos (by simpa using hcs)]
      simp
    have d1 : List.dropWhile (fun c => !decide (c = ';')) (cs ++ ';' :: rest) = ';' :: rest := by
      rw [List.dropWhile_append_of_pos (by simpa using hcs)]
      simp
    have t2 : List.takeWhile (fun c => !decide (c = ';')) cs = cs :=
      List.takeWhile_eq_self_iff.mpr (by simpa using hcs)
    have d2 : List.dropWhile (fun c => !decide (c = ';')) cs = [] :=
      List.dropWhile_eq_nil_iff.mpr (by simpa using hcs)
    constructor
    · simp [strtok, hc, t1, d1]
    · simp [strtok, hc, d2]
      exact hcs

theorem strtok_nil : strtok [] = none := by decide

/-- The next `strtok` on the written form of a non-empty table returns the
first entry and leaves the written form of the remaining entries. -/
theorem strtok_encode_sched (e : Nat × Nat × Char) (es : List (Nat × Nat × Char))
    (h : valid_entry e) :
    strtok (encode_sched (e :: es)) = some (encode_entry e, encode_sched es) := by
  obtain ⟨hne, _, hch⟩ := encode_entry_chars e h
  have hs := strtok_token (encode_entry e) (encode_sched es) hne (fun c hc => (hch c hc).1)
  cases es with
  | nil => exact hs.2
  | cons e2 es2 => exact hs.1

theorem sched_loop_encode (es : List (Nat × Nat × Char)) :
    ∀ (fuel : Nat) (temp : List SchedEntry),
      (∀ e ∈ es, valid_entry e) → es.length ≤ fuel → temp.length + es.length ≤ 8 →
      sched_loop fuel (strtok (encode_sched es)) temp = temp ++ es.map slot_of := by
  induction es with
  | nil =>
    intro fuel temp _ _ _
    have : encode_sched [] = [] := rfl
    rw [this, strtok_nil]
    cases fuel <;> simp [sched_loop]
  | cons e es ih =>
    intro fuel temp hv hf ht
    have hve : valid_entry e := hv e (List.mem_cons_self e es)
    cases fuel with
    | zero => simp at hf
    | succ n =>
      rw [strtok_encode_sched e es hve]
      simp only [List.length_cons] at hf ht
      simp only [sched_loop]
      rw [if_neg (by omega), parse_encode_entry e hve]
      simp only []
      rw [ih n (temp ++ [slot_of e]) (fun x hx => hv x (List.mem_cons_of_mem e hx)) (by omega)
        (by simp; omega)]
      simp

theorem encode_sched_length (es : List (Nat × Nat × Char)) (hv : ∀ e ∈ es, valid_entry e) :
    (encode_sched es).length ≤ 6 * es.length := by
  induction es with
  | nil => simp [encode_sched]
  | cons e es ih =>
    have h5 := (encode_entry_chars e (hv e (List.mem_cons_self e es))).2.1
    have ih2 := ih (fun x hx => hv x (List.mem_cons_of_mem e hx))
    cases es with
    | nil => simp [encode_sched, h5]
    | cons e2 es2 =>
      simp only [encode_sched, List.length_append, List.length_cons, h5] at ih2 ⊢
      omega

theorem encode_sched_chars (es : List (Nat × Nat × Char)) (hv : ∀ e ∈ es, valid_entry e) :
    ∀ c ∈ encode_sched es, c ≠ '\x00' := by
  induction es with
  | nil => simp [encode_sched]
  | cons e es ih =>
    have hc := (encode_entry_chars e (hv e (List.mem_cons_self e es))).2.2
    have ih2 := ih (fun x hx => hv x (List.mem_cons_of_mem e hx))
    cases es with
    | nil => intro c h; exact (hc c (by simpa [encode_sched] using h)).2
    | cons e2 es2 =>
      intro c h
      simp only [encode_sched, List.mem_append, List.mem_cons] at h
      rcases h with h | h | h
      · exact (hc c h).2
      · rw [h]; decide
      · exact ih2 c h


theorem slots_of_copy_sched (temp : List SchedEntry) :
    ∀ old : List SchedEntry,
      (List.range temp.length).map (sched_slot (copy_sched temp old)) = temp := by
  induction temp with
  | nil => intro old; rfl
  | cons t ts ih =>
    intro old
    rw [List.length_cons, List.range_succ_eq_map, List.map_cons, List.map_map]
    have h0 : sched_slot (copy_sched (t :: ts) old) 0 = t := rfl
    rw [h0]
    congr 1
    exact ih old.tail

/-- The size computation `sizeof(buf) - off` of `cmd_at_get_schedule` while the
buffer is not full. -/
theorem remaining_spec (off : Nat) (h : off ≤ 255) :
    (256 + (U32 - off % U32)) % U32 = 256 - off := by
  unfold U32
  omega

theorem encode_sched_cons (e : Nat × Nat × Char) (es : List (Nat × Nat × Char)) :
    encode_sched (e :: es) = encode_entry e ++ encode_tail es := by
  induction es generalizing e with
  | nil => exact (List.append_nil _).symm
  | cons e2 es2 ih =>
    have h : encode_sched (e :: e2 :: es2)
        = encode_entry e ++ ';' :: encode_sched (e2 :: es2) := rfl
    rw [h, ih e2]
    rfl

theorem get_schedule_step (x : Nat × Nat × Char) (hv : valid_entry x)
    (entries : List SchedEntry) (i off : Nat) (buf : List Char)
    (hoff : off + 6 ≤ 255) :
    get_schedule_loop (slot_of x :: entries) i (off, buf)
      = if i > 0 then get_schedule_loop entries (i + 1) (off + 6, buf ++ ';' :: encode_entry x)
        else get_schedule_loop entries (i + 1) (off + 5, buf ++ encode_entry x) := by
  have h5 := (encode_entry_chars x hv).2.1
  have htext : fmt_0d 2 (slot_of x).hh ++ fmt_0d 2 (slot_of x).mm ++ [(slot_of x).amount]
      = encode_entry x := rfl
  by_cases hi : i > 0
  · have r := remaining_spec (off + 1) (by omega)
    have hlt : off < 256 - 1 := by omega
    simp only [get_schedule_loop, hi, hlt, and_self, if_true, htext, r]
    rw [if_pos (by omega)]
    have ht : List.take (256 - (off + 1) - 1) (encode_entry x) = encode_entry x :=
      List.take_of_length_le (by omega)
    rw [ht, h5]
    simp
  · have r := remaining_spec off (by omega)
    simp only [get_schedule_loop, hi, false_and, if_false, htext, r]
    rw [if_pos (by omega)]
    have ht : List.take (256 - off - 1) (encode_entry x) = encode_entry x :=
      List.take_of_length_le (by omega)
    rw [ht, h5]

theorem get_schedule_tail (es : List (Nat × Nat × Char)) :
    ∀ (i off : Nat) (buf : List Char), 0 < i → (∀ e ∈ es, valid_entry e) →
      off + 6 * es.length ≤ 255 →
      (get_schedule_loop (es.map slot_of) i (off, buf)).2 = buf ++ encode_tail es := by
  induction es with
  | nil => intro i off buf _ _ _; simp [get_schedule_loop, encode_tail]
  | cons e es ih =>
    intro i off buf hi hv hoff
    simp only [List.length_cons] at hoff
    rw [List.map_cons, get_schedule_step e (hv e (List.mem_cons_self e es)) _ i off buf
      (by omega), if_pos hi]
    rw [ih (i + 1) (off + 6) _ (by omega) (fun x hx => hv x (List.mem_cons_of_mem e hx))
      (by omega)]
    simp [encode_tail]

theorem get_schedule_encode (es : List (Nat × Nat × Char)) (hv : ∀ e ∈ es, valid_entry e)
    (hlen : es.length ≤ 8) :
    (get_schedule_loop (es.map slot_of) 0 (0, [])).2 = encode_sched es := by
  cases es with
  | nil => rfl
  | cons e es =>
    simp only [List.length_cons] at hlen
    rw [List.map_cons, get_schedule_step e (hv e (List.mem_cons_self e es)) _ 0 0 []
      (by omega), if_neg (by omega)]
    rw [get_schedule_tail es 1 5 _ (by omega) (fun x hx => hv x (List.mem_cons_of_mem e hx))
      (by omega)]
    rw [encode_sched_cons]
    simp


theorem cmd_at_schedule_encode (D : Device) (es : List (Nat × Nat × Char))
    (h1 : 1 ≤ es.length) (h8 : es.length ≤ 8) (hv : ∀ e ∈ es, valid_entry e) :
    cmd_at_schedule D (encode_sched es)
      = ({ D with
            S := { D.S with sched_len := es.length,
                            sched := copy_sched (es.map slot_of) D.S.sched },
            ee := (eeprom_save_schedule D.ee
                    { D.S with sched_len := es.length,
                               sched := copy_sched (es.map slot_of) D.S.sched }).1 },
          send_ok) := by
  have hlen := encode_sched_length es hv
  have hpos : 5 ≤ (encode_sched es).length := by
    cases es with
    | nil => simp at h1
    | cons e es =>
      rw [encode_sched_cons, List.length_append,
        (encode_entry_chars e (hv e (List.mem_cons_self e es))).2.1]
      omega
  have hnone : strcmp_eq (encode_sched es) "NONE".data = false := by
    unfold strcmp_eq
    rw [decide_eq_false_iff_not]
    intro h
    rw [h] at hpos
    simp at hpos
  have htake : (encode_sched es).take 255 = encode_sched es :=
    List.take_of_length_le (by omega)
  have hloop := sched_loop_encode es 16 [] hv (by omega) (by simp; omega)
  unfold cmd_at_schedule
  rw [if_neg (by omega)]
  simp only [hnone, Bool.false_eq_true, if_false, htake, hloop, List.nil_append,
    List.length_map]
  have hmod : es.length % 256 = es.length := by omega
  rw [hmod]

theorem poll_bytes_append (env : Env) (st : PollState) (a b : List Char) :
    poll_bytes env st (a ++ b) = poll_bytes env (poll_bytes env st a) b := by
  simp [poll_bytes, List.foldl_append]

theorem poll_bytes_cons (env : Env) (st : PollState) (c : Char) (bs : List Char) :
    poll_bytes env st (c :: bs) = poll_bytes env (poll_step env st c) bs := rfl

/-- In the skip state every byte other than a newline is discarded. -/
theorem poll_skip (env : Env) (l : List Char) :
    ∀ st : PollState, '\n' ∉ l → st.fr.overflow_skip = true → poll_bytes env st l = st := by
  induction l with
  | nil => intro st _ _; rfl
  | cons c l ih =>
    intro st hl hs
    have hc : c ≠ '\n' := fun h => hl (by rw [h]; exact List.mem_cons_self _ _)
    have hl2 : '\n' ∉ l := fun h => hl (List.mem_cons_of_mem _ h)
    have hstep : poll_step env st c = st := by
      unfold poll_step
      by_cases hr : c = '\r'
      · simp [hr]
      · simp [hr, hc, hs]
    rw [poll_bytes_cons, hstep]
    exact ih st hl2 hs

/-- Accumulation of the bytes of a line: carriage returns are dropped; if the
line does not fit in 255 bytes the framer ends in the skip state with an empty
buffer. -/
theorem poll_accumulate (env : Env) (l : List Char) :
    ∀ st : PollState, '\n' ∉ l → st.fr.overflow_skip = false → st.fr.rx_line.length ≤ 255 →
      poll_bytes env st l
        = if st.fr.rx_line.length + (l.filter (fun c => c ≠ '\r')).length ≤ 255 then
            { st with fr := ⟨st.fr.rx_line ++ l.filter (fun c => c ≠ '\r'), false⟩ }
          else { st with fr := ⟨[], true⟩ } := by
  induction l with
  | nil =>
    intro st _ hs hinv
    have : poll_bytes env st [] = st := rfl
    rw [this]
    obtain ⟨⟨line, skip⟩, D, out, disp⟩ := st
    simp only [] at hs hinv
    subst hs
    simp [hinv]
  | cons c l ih =>
    intro st hl hs hinv
    have hc : c ≠ '\n' := fun h => hl (by rw [h]; exact List.mem_cons_self _ _)
    have hl2 : '\n' ∉ l := fun h => hl (List.mem_cons_of_mem _ h)
    rw [poll_bytes_cons]
    obtain ⟨⟨line, skip⟩, D, out, disp⟩ := st
    simp only [] at hs hinv
    subst hs
    by_cases hr : c = '\r'
    · have hstep : poll_step env ⟨⟨line, false⟩, D, out, disp⟩ c = ⟨⟨line, false⟩, D, out, disp⟩ := by
        simp [poll_step, hr]
      rw [hstep, ih _ hl2 rfl hinv]
      simp [hr]
    · have hf : (c :: l).filter (fun c => c ≠ '\r') = c :: l.filter (fun c => c ≠ '\r') := by
        simp [hr]
      rw [hf]
      by_cases hlen : line.length < 255
      · have hstep : poll_step env ⟨⟨line, false⟩, D, out, disp⟩ c
            = ⟨⟨line ++ [c], false⟩, D, out, disp⟩ := by
          simp [poll_step, hr, hc, RX_LINE_MAX, hlen]
        rw [hstep, ih _ hl2 rfl (by simp; omega)]
        have hsum : (line ++ [c]).length + (l.filter (fun c => c ≠ '\r')).length
            = line.length + (c :: l.filter (fun c => c ≠ '\r')).length := by
          simp only [List.length_append, List.length_cons, List.length_nil]
          omega
        simp only [hsum, List.append_assoc, List.singleton_append]
      · have hstep : poll_step env ⟨⟨line, false⟩, D, out, disp⟩ c
            = ⟨⟨[], true⟩, D, out, disp⟩ := by
          simp [poll_step, hr, hc, RX_LINE_MAX, hlen]
        rw [hstep, poll_skip env l _ hl2 rfl]
        simp only [List.length_cons]
        rw [if_neg (by omega)]

/-- Processing of the newline that ends a line which fitted in the buffer. -/
theorem poll_newline (env : Env) (line : List Char) (D : Device) (out : List Char)
    (disp : List (List Char)) :
    poll_step env ⟨⟨line, false⟩, D, out, disp⟩ '\n'
      = match (if line.length > 0 then strstr (c_str line) "AT+".data else none) with
        | some cmd =>
          ⟨⟨[], false⟩, (handle_at_command D env cmd).1,
            out ++ (handle_at_command D env cmd).2, disp ++ [cmd]⟩
        | none => ⟨⟨[], false⟩, D, out, disp⟩ := by
  unfold poll_step
  by_cases h0 : line.length > 0
  · simp only [h0, if_true]
    cases hs : strstr (c_str line) "AT+".data <;> simp [hs]
  · simp [h0]

/-- Processing of the newline that ends a skipped line. -/
theorem poll_newline_skip (env : Env) (line : List Char) (D : Device) (out : List Char)
    (disp : List (List Char)) :
    poll_step env ⟨⟨line, true⟩, D, out, disp⟩ '\n' = ⟨⟨[], false⟩, D, out, disp⟩ := by
  simp [poll_step]

/-- A whole line, from the start-of-line state: at most 255 bytes are framed
and searched for the marker, a longer line leaves no trace. -/
theorem poll_line (env : Env) (l : List Char) (D : Device) (out : List Char)
    (disp : List (List Char)) (hl : '\n' ∉ l) :
    poll_bytes env ⟨⟨[], false⟩, D, out, disp⟩ (l ++ ['\n'])
      = if (l.filter (fun c => c ≠ '\r')).length ≤ 255 then
          match (if (l.filter (fun c => c ≠ '\r')).length > 0
                  then strstr (c_str (l.filter (fun c => c ≠ '\r'))) "AT+".data else none) with
          | some cmd =>
            ⟨⟨[], false⟩, (handle_at_command D env cmd).1,
              out ++ (handle_at_command D env cmd).2, disp ++ [cmd]⟩
          | none => ⟨⟨[], false⟩, D, out, disp⟩
        else ⟨⟨[], false⟩, D, out, disp⟩ := by
  rw [poll_bytes_append, poll_accumulate env l _ hl rfl (by simp)]
  simp only [List.length_nil, Nat.zero_add, List.nil_append]
  by_cases hlen : (l.filter (fun c => c ≠ '\r')).length ≤ 255
  · rw [if_pos hlen, if_pos hlen]
    exact poll_newline env _ D out disp
  · rw [if_neg hlen, if_neg hlen]
    exact poll_newline_skip env _ D out disp

/-- After a newline the framer is at the start of a line. -/
theorem poll_after_newline (env : Env) (st : PollState) :
    (poll_step env st '\n').fr = ⟨[], false⟩ := by
  obtain ⟨⟨line, skip⟩, D, out, disp⟩ := st
  cases skip
  · rw [poll_newline]
    split <;> rfl
  · rw [poll_newline_skip]

theorem strncmp_eq_iff (s lit : List Char) :
    strncmp_eq s lit lit.length = true ↔ ∃ tail, s = lit ++ tail := by
  unfold strncmp_eq
  rw [decide_eq_true_iff, List.take_length]
  constructor
  · intro h
    have h2 := List.take_append_drop lit.length s
    rw [h] at h2
    exact ⟨s.drop lit.length, h2.symm⟩
  · rintro ⟨tail, rfl⟩
    simp

/-- A result of `strstr` is a suffix of the string that begins with the needle. -/
theorem strstr_some (needle : List Char) (s : List Char) :
    ∀ r, strstr s needle = some r →
      ∃ pre tail, s = pre ++ r ∧ r = needle ++ tail := by
  induction s with
  | nil =>
    intro r h
    unfold strstr at h
    split at h
    · rename_i hn
      injection h with h
      exact ⟨[], [], by simp [← h], by simp [← h, hn]⟩
    · exact absurd h (by simp)
  | cons c cs ih =>
    intro r h
    unfold strstr at h
    split at h
    · rename_i hp
      injection h with h
      obtain ⟨tail, ht⟩ := (strncmp_eq_iff (c :: cs) needle).mp hp
      exact ⟨[], tail, by simp [← h], by rw [← h, ht]⟩
    · obtain ⟨pre, tail, h1, h2⟩ := ih r h
      exact ⟨c :: pre, tail, by rw [h1]; rfl, h2⟩

/-- A result of `strstr` starts at the first occurrence of the needle: no
occurrence starts further left. -/
theorem strstr_first (needle : List Char) (s : List Char) :
    ∀ r, strstr s needle = some r →
      ∃ pre tail, s = pre ++ r ∧ r = needle ++ tail ∧
        ∀ p q, s = p ++ needle ++ q → pre.length ≤ p.length := by
  induction s with
  | nil =>
    intro r h
    unfold strstr at h
    split at h
    · rename_i hn
      injection h with h
      exact ⟨[], [], by simp [← h], by simp [← h, hn], fun _ _ _ => Nat.zero_le _⟩
    · exact absurd h (by simp)
  | cons c cs ih =>
    intro r h
    unfold strstr at h
    split at h
    · rename_i hp
      injection h with h
      obtain ⟨tail, ht⟩ := (strncmp_eq_iff (c :: cs) needle).mp hp
      exact ⟨[], tail, by simp [← h], by rw [← h, ht], fun _ _ _ => Nat.zero_le _⟩
    · rename_i hp
      obtain ⟨pre, tail, h1, h2, h3⟩ := ih r h
      refine ⟨c :: pre, tail, by rw [h1]; rfl, h2, ?_⟩
      intro p q hpq
      cases p with
      | nil =>
        exfalso
        apply hp
        exact (strncmp_eq_iff (c :: cs) needle).mpr ⟨q, by simpa using hpq⟩
      | cons p0 p2 =>
        simp only [List.cons_append, List.cons.injEq] at hpq
        have := h3 p2 q (by simpa using hpq.2)
        simp only [List.length_cons]
        omega

/-- If `strstr` finds nothing, a non-empty needle does not occur in the string. -/
theorem strstr_none (needle : List Char) (hne : needle ≠ []) (s : List Char) :
    strstr s needle = none → ∀ pre post, s ≠ pre ++ needle ++ post := by
  induction s with
  | nil =>
    intro _ pre post h
    have h2 := congrArg List.length h
    simp only [List.length_nil, List.length_append] at h2
    have : needle.length ≠ 0 := fun h0 => hne (List.length_eq_zero.mp h0)
    omega
  | cons c cs ih =>
    intro h pre post heq
    unfold strstr at h
    split at h
    · exact absurd h (by simp)
    · rename_i hp
      cases pre with
      | nil =>
        apply hp
        exact (strncmp_eq_iff (c :: cs) needle).mpr ⟨post, by simpa using heq⟩
      | cons p pre2 =>
        simp only [List.cons_append, List.cons.injEq] at heq
        exact ih h pre2 post (by simpa using heq.2)

theorem c_str_of_no_nul (s : List Char) (h : '\x00' ∉ s) : c_str s = s := by
  unfold c_str
  apply List.takeWhile_eq_self_iff.mpr
  intro c hc
  have : c ≠ '\x00' := fun h0 => h (h0 ▸ hc)
  simpa using this

/-- What follows the first NUL is not read: the C string is an initial part. -/
theorem c_str_append (s : List Char) : ∃ rest, s = c_str s ++ rest :=
  ⟨s.dropWhile (fun c => c ≠ '\x00'), by unfold c_str; rw [List.takeWhile_append_dropWhile]⟩

theorem Proto_Poll_loop_spec (env : Env) (fuel : Nat) :
    ∀ (rx : RxState) (st : PollState) (cs : List Char),
      rx_wf rx → rx_contents rx = cs → cs.length ≤ fuel →
      (Proto_Poll_loop fuel env rx st).2 = poll_bytes env st cs ∧
      rx_contents (Proto_Poll_loop fuel env rx st).1 = [] ∧
      rx_wf (Proto_Poll_loop fuel env rx st).1 := by
  induction fuel with
  | zero =>
    intro rx st cs hw hc hlen
    have : cs = [] := List.length_eq_zero.mp (by omega)
    subst this
    exact ⟨rfl, hc, hw⟩
  | succ fuel ih =>
    intro rx st cs hw hc hlen
    cases cs with
    | nil =>
      have hp := rx_pop_empty rx hw hc
      simp only [Proto_Poll_loop, hp]
      exact ⟨rfl, hc, hw⟩
    | cons c cs =>
      obtain ⟨p1, p2, p3⟩ := rx_pop_cons rx hw c cs hc
      have hp : rx_pop_char rx = (some c, (rx_pop_char rx).2) := by
        rw [← p1]
      simp only [List.length_cons] at hlen
      have := ih (rx_pop_char rx).2 (poll_step env st c) cs p2 p3 (by omega)
      rw [Proto_Poll_loop, hp]
      exact this

/-- One call of `Proto_Poll` applies the loop body to the buffered bytes, oldest
first, and leaves the ring buffer empty. -/
theorem Proto_Poll_spec (env : Env) (rx : RxState) (st : PollState) (hw : rx_wf rx) :
    (Proto_Poll env rx st).2 = poll_bytes env st (rx_contents rx) ∧
    rx_contents (Proto_Poll env rx st).1 = [] := by
  have hlen : (rx_contents rx).length ≤ UART0_RX_BUF_SZ := by
    rw [rx_contents_length]
    exact Nat.le_of_lt (rx_count_lt rx)
  obtain ⟨h1, h2, _⟩ := Proto_Poll_loop_spec env UART0_RX_BUF_SZ rx st _ hw rfl hlen
  exact ⟨h1, h2⟩

/-! ## Line framer: claims -/

/-- C11 fails as written: the non-empty line `HELLO`, which lacks the marker,
gets no response at all, so not the response line `+ERR: SYNTAX`. -/
theorem C11_counterexample :
    (poll_bytes env_timeout (poll_start idle_device) "HELLO\n".data).out = [] ∧
    (poll_bytes env_timeout (poll_start idle_device) "HELLO\n".data).out
      ≠ ack_err "SYNTAX".data ∧
    (poll_bytes env_timeout (poll_start idle_device) "HELLO\n".data).dispatched = [] := by
  decide

/-- C11 (amended): a received line that does not contain the marker `AT+`
is dropped by the framer without any response: nothing is sent, the dispatcher
is not called, the device is unchanged and the framer is back at the start of a
line. The reply `+ERR: SYNTAX` is what `handle_at_command` itself returns for
a line that does not begin with `AT+`. -/
theorem C11_no_marker_dropped (env : Env) (D : Device) (out : List Char)
    (disp : List (List Char)) (l : List Char) (hl : '\n' ∉ l)
    (hno : ∀ pre post, l.filter (fun c => c ≠ '\r') ≠ pre ++ "AT+".data ++ post) :
    poll_bytes env ⟨⟨[], false⟩, D, out, disp⟩ (l ++ ['\n']) = ⟨⟨[], false⟩, D, out, disp⟩ ∧
    (∀ line : List Char, line.take 3 ≠ "AT+".data →
      handle_at_command D env line = (D, ack_err "SYNTAX".data)) := by
  constructor
  · rw [poll_line env l D out disp hl]
    split
    · split
      · rename_i cmd hs
        exfalso
        split at hs
        · obtain ⟨pre, tail, h1, h2⟩ := strstr_some _ _ cmd hs
          obtain ⟨rest, h3⟩ := c_str_append (l.filter (fun c => c ≠ '\r'))
          apply hno pre (tail ++ rest)
          rw [h3, h1, h2]
          simp
        · exact absurd hs (by simp)
      · rfl
    · rfl
  · intro line hline
    unfold handle_at_command
    rw [if_pos]
    simp only [strncmp_eq, Bool.not_eq_true', decide_eq_false_iff_not]
    intro h
    apply hline
    rw [h]
    rfl

theorem C11_no_marker_dropped_witness :
    poll_bytes env_timeout ⟨⟨[], false⟩, idle_device, [], []⟩ ("HELLO\r".data ++ ['\n'])
      = ⟨⟨[], false⟩, idle_device, [], []⟩ ∧
    (∀ line : List Char, line.take 3 ≠ "AT+".data →
      handle_at_command idle_device env_timeout line
        = (idle_device, ack_err "SYNTAX".data)) :=
  C11_no_marker_dropped env_timeout idle_device [] [] "HELLO\r".data (by decide)
    (by
      intro pre post h
      have hmem : '+' ∈ pre ++ "AT+".data ++ post := by simp
      rw [← h] at hmem
      revert hmem
      decide)

theorem line_256_spec :
    '\n' ∉ line_256 ∧ (line_256.filter (fun c => c ≠ '\r')).length = 256 ∧
    line_256.length = 256 ∧ line_256.take 9 = "AT+STATUS".data := by
  have hlen : line_256.length = 256 := by
    unfold line_256
    rw [List.length_append, List.length_replicate]
    rfl
  have hmem : ∀ c ∈ line_256, c ≠ '\n' ∧ c ≠ '\r' := by
    intro c hc
    unfold line_256 at hc
    rcases List.mem_append.mp hc with h | h
    · have hall : ∀ x ∈ "AT+STATUS".data, x ≠ '\n' ∧ x ≠ '\r' := by decide
      exact hall c h
    · rw [List.eq_of_mem_replicate h]
      decide
  refine ⟨fun h => (hmem _ h).1 rfl, ?_, hlen, ?_⟩
  · have hf : line_256.filter (fun c => c ≠ '\r') = line_256 := by
      apply List.filter_eq_self.mpr
      intro c hc
      simpa using (hmem c hc).2
    rw [hf, hlen]
  · unfold line_256
    exact List.take_left' rfl


/-- A line of more than 255 bytes, read from the start-of-line state, leaves
the whole state as it was. -/
theorem poll_oversized (env : Env) (l : List Char) (D : Device) (out : List Char)
    (disp : List (List Char)) (hl : '\n' ∉ l)
    (hlen : 255 < (l.filter (fun c => c ≠ '\r')).length) :
    poll_bytes env ⟨⟨[], false⟩, D, out, disp⟩ (l ++ ['\n']) = ⟨⟨[], false⟩, D, out, disp⟩ := by
  rw [poll_line env l D out disp hl, if_neg (by omega)]

/-- C13: a line longer than the cap (more than 255 bytes, carriage returns
not counted), whatever it contains, is never passed to `handle_at_command`:
reading it and its newline from the start of a line leaves the device, the
output, the list of dispatched lines and the framer exactly as they were. So
the rest of the stream is processed as if the line had never been received,
at the start of the stream and after any newline. -/
theorem C13_oversized_dropped (env : Env) (st : PollState) (D : Device) (out : List Char)
    (disp : List (List Char)) (before l rest : List Char) (hl : '\n' ∉ l)
    (hlen : 255 < (l.filter (fun c => c ≠ '\r')).length) :
    poll_bytes env ⟨⟨[], false⟩, D, out, disp⟩ (l ++ ['\n']) = ⟨⟨[], false⟩, D, out, disp⟩ ∧
    poll_bytes env ⟨⟨[], false⟩, D, out, disp⟩ (l ++ '\n' :: rest)
      = poll_bytes env ⟨⟨[], false⟩, D, out, disp⟩ rest ∧
    poll_bytes env st (before ++ '\n' :: (l ++ '\n' :: rest))
      = poll_bytes env st (before ++ '\n' :: rest) := by
  have h1 := poll_oversized env l
  have h2 : ∀ D out disp, poll_bytes env ⟨⟨[], false⟩, D, out, disp⟩ (l ++ '\n' :: rest)
      = poll_bytes env ⟨⟨[], false⟩, D, out, disp⟩ rest := by
    intro D out disp
    have : l ++ '\n' :: rest = (l ++ ['\n']) ++ rest := by simp
    rw [this, poll_bytes_append, h1 D out disp hl hlen]
  refine ⟨h1 D out disp hl hlen, h2 D out disp, ?_⟩
  rw [poll_bytes_append, poll_bytes_append, poll_bytes_cons, poll_bytes_cons]
  have hfr := poll_after_newline env (poll_bytes env st before)
  generalize poll_step env (poll_bytes env st before) '\n' = s1 at hfr
  obtain ⟨fr, D1, out1, disp1⟩ := s1
  simp only [] at hfr
  subst hfr
  exact h2 D1 out1 disp1

theorem C13_oversized_dropped_witness :
    poll_bytes env_timeout ⟨⟨[], false⟩, idle_device, [], []⟩ (line_256 ++ ['\n'])
      = ⟨⟨[], false⟩, idle_device, [], []⟩ ∧
    poll_bytes env_timeout ⟨⟨[], false⟩, idle_device, [], []⟩
        (line_256 ++ '\n' :: "AT+FEED=Q\n".data)
      = poll_bytes env_timeout ⟨⟨[], false⟩, idle_device, [], []⟩ "AT+FEED=Q\n".data ∧
    poll_bytes env_timeout (poll_start idle_device)
        ("AT+LOG".data ++ '\n' :: (line_256 ++ '\n' :: "AT+FEED=Q\n".data))
      = poll_bytes env_timeout (poll_start idle_device)
          ("AT+LOG".data ++ '\n' :: "AT+FEED=Q\n".data) :=
  C13_oversized_dropped env_timeout (poll_start idle_device) idle_device [] []
    "AT+LOG".data line_256 "AT+FEED=Q\n".data
    line_256_spec.1 (by rw [line_256_spec.2.1]; decide)

/-- C14 fails as written: a line of exactly 256 bytes that begins with the
well-formed command `AT+STATUS` is not dispatched. -/
theorem C14_counterexample :
    line_256.length = 256 ∧ line_256.take 9 = "AT+STATUS".data ∧
    (poll_bytes env_timeout (poll_start idle_device) (line_256 ++ ['\n'])).dispatched = [] ∧
    (poll_bytes env_timeout (poll_start idle_device) (line_256 ++ ['\n'])).out = [] := by
  have h := poll_oversized env_timeout line_256 idle_device [] []
    line_256_spec.1 (by rw [line_256_spec.2.1]; decide)
  unfold poll_start
  rw [h]
  exact ⟨line_256_spec.2.2.1, line_256_spec.2.2.2, rfl, rfl⟩

/-- C14 (amended): the cap is 255 bytes (`RX_LINE_MAX - 1`, carriage returns
not counted). A NUL-free line of at most 255 bytes that contains the marker is
dispatched once, from the first marker on, and the reply of the dispatcher is
sent: whatever place `noise ++ "AT+" ++ tail` of the marker has no occurrence
of the marker starting further left, the line is dispatched as `"AT+" ++ tail`,
and a line containing the marker has such a place. A line of 256 or more
bytes is dropped without a trace. -/
theorem C14_line_cap (env : Env) (D : Device) (out : List Char) (disp : List (List Char))
    (l : List Char) (hl : '\n' ∉ l) :
    ((l.filter (fun c => c ≠ '\r')).length ≤ 255 → '\x00' ∉ l →
      ∀ noise tail,
        l.filter (fun c => c ≠ '\r') = noise ++ ("AT+".data ++ tail) →
        (∀ p q, l.filter (fun c => c ≠ '\r') = p ++ "AT+".data ++ q →
          noise.length ≤ p.length) →
        poll_bytes env ⟨⟨[], false⟩, D, out, disp⟩ (l ++ ['\n'])
          = ⟨⟨[], false⟩, (handle_at_command D env ("AT+".data ++ tail)).1,
              out ++ (handle_at_command D env ("AT+".data ++ tail)).2,
              disp ++ ["AT+".data ++ tail]⟩) ∧
    ((l.filter (fun c => c ≠ '\r')).length ≤ 255 → '\x00' ∉ l →
      (∃ pre post, l.filter (fun c => c ≠ '\r') = pre ++ "AT+".data ++ post) →
      ∃ noise tail,
        l.filter (fun c => c ≠ '\r') = noise ++ ("AT+".data ++ tail) ∧
        (∀ p q, l.filter (fun c => c ≠ '\r') = p ++ "AT+".data ++ q →
          noise.length ≤ p.length) ∧
        poll_bytes env ⟨⟨[], false⟩, D, out, disp⟩ (l ++ ['\n'])
          = ⟨⟨[], false⟩, (handle_at_command D env ("AT+".data ++ tail)).1,
              out ++ (handle_at_command D env ("AT+".data ++ tail)).2,
              disp ++ ["AT+".data ++ tail]⟩) ∧
    (256 ≤ (l.filter (fun c => c ≠ '\r')).length →
      poll_bytes env ⟨⟨[], false⟩, D, out, disp⟩ (l ++ ['\n'])
        = ⟨⟨[], false⟩, D, out, disp⟩) := by
  refine ⟨?_, ?_, ?_⟩
  · intro hlen hnul noise tail hocc hfirst
    have hnul2 : '\x00' ∉ l.filter (fun c => c ≠ '\r') :=
      fun h => hnul (List.mem_of_mem_filter h)
    have hpos : (l.filter (fun c => c ≠ '\r')).length > 0 := by
      rw [hocc]; simp
    rw [poll_line env l D out disp hl, if_pos hlen, if_pos hpos, c_str_of_no_nul _ hnul2]
    cases hs : strstr (l.filter (fun c => c ≠ '\r')) "AT+".data with
    | none =>
      exact absurd (by rw [hocc]; simp) (strstr_none _ (by simp) _ hs noise tail)
    | some cmd =>
      obtain ⟨pre, tail2, h1, h2, h3⟩ := strstr_first _ _ cmd hs
      subst h2
      have e1 : pre.length ≤ noise.length := h3 noise tail (by rw [hocc]; simp)
      have e2 : noise.length ≤ pre.length := hfirst pre tail2 (by rw [h1]; simp)
      have e3 : pre ++ ("AT+".data ++ tail2) = noise ++ ("AT+".data ++ tail) := by
        rw [← h1, hocc]
      obtain ⟨-, e5⟩ := List.append_inj e3 (by omega)
      have e6 : tail2 = tail := List.append_cancel_left e5
      subst e6
      rfl
  · intro hlen hnul ⟨pre, post, hocc⟩
    have hnul2 : '\x00' ∉ l.filter (fun c => c ≠ '\r') :=
      fun h => hnul (List.mem_of_mem_filter h)
    have hpos : (l.filter (fun c => c ≠ '\r')).length > 0 := by
      rw [hocc]; simp
    rw [poll_line env l D out disp hl, if_pos hlen, if_pos hpos, c_str_of_no_nul _ hnul2]
    cases hs : strstr (l.filter (fun c => c ≠ '\r')) "AT+".data with
    | none => exact absurd hocc (strstr_none _ (by simp) _ hs pre post)
    | some cmd =>
      obtain ⟨noise, tail, h1, h2, h3⟩ := strstr_first _ _ cmd hs
      subst h2
      exact ⟨noise, tail, h1, h3, rfl⟩
  · intro hlen
    exact poll_oversized env l D out disp hl (by omega)

theorem C14_line_cap_witness :
    poll_bytes env_timeout ⟨⟨[], false⟩, idle_device, [], []⟩
        ("xxAT+LOGAT+STATUS\r".data ++ ['\n'])
      = ⟨⟨[], false⟩, (handle_at_command idle_device env_timeout
            ("AT+".data ++ "LOGAT+STATUS".data)).1,
          [] ++ (handle_at_command idle_device env_timeout
            ("AT+".data ++ "LOGAT+STATUS".data)).2,
          [] ++ ["AT+".data ++ "LOGAT+STATUS".data]⟩ ∧
    poll_bytes env_timeout ⟨⟨[], false⟩, idle_device, [], []⟩ (line_256 ++ ['\n'])
      = ⟨⟨[], false⟩, idle_device, [], []⟩ :=
  ⟨(C14_line_cap env_timeout idle_device [] [] "xxAT+LOGAT+STATUS\r".data (by decide)).1
      (by decide) (by decide) "xx".data "LOGAT+STATUS".data (by decide)
      (by
        intro p q h
        have hf : ("xxAT+LOGAT+STATUS\r".data).filter (fun c => c ≠ '\r')
            = 'x' :: 'x' :: "AT+LOGAT+STATUS".data := by decide
        rw [hf] at h
        rcases p with _ | ⟨a, _ | ⟨b, p⟩⟩
        · have h2 : some 'x' = some 'A' := congrArg List.head? h
          exact absurd h2 (by decide)
        · have h2 : some 'x' = some 'A' := congrArg (fun s => (s.drop 1).head?) h
          exact absurd h2 (by decide)
        · simp),
   (C14_line_cap env_timeout idle_device [] [] line_256 line_256_spec.1).2.2
      (by rw [line_256_spec.2.1])⟩

/-- In the sample line with two markers the command framed starts at the
first of them, and it runs LOG. -/
theorem poll_first_marker_sample :
    (poll_bytes env_timeout (poll_start idle_device)
        ("xxAT+LOGAT+STATUS\r".data ++ ['\n'])).dispatched = ["AT+LOGAT+STATUS".data] ∧
    (poll_bytes env_timeout (poll_start idle_device)
        ("xxAT+LOGAT+STATUS\r".data ++ ['\n'])).out
      = (cmd_at_log idle_device).2 := by
  decide

/-- In the sample run the framed command is the one expected and its reply is
sent. -/
theorem poll_sample_line :
    (poll_bytes env_timeout (poll_start idle_device) "xxAT+FEED=Q\r\n".data).dispatched
      = ["AT+FEED=Q".data] ∧
    (poll_bytes env_timeout (poll_start idle_device) "xxAT+FEED=Q\r\n".data).out
      = ack_err "PARAM_ERR".data := by
  decide

/-! ## Dispatcher table: claims -/

theorem strncmp_eq_false (s lit : List Char) (n : Nat) (hn : lit.length = n)
    (h : ∀ tail, s ≠ lit ++ tail) : strncmp_eq s lit n = false := by
  subst hn
  rw [Bool.eq_false_iff]
  intro ht
  obtain ⟨tail, e⟩ := (strncmp_eq_iff s lit).mp ht
  exact h tail e

/-- The chain of comparisons of `handle_at_command` when every comparison fails. -/
theorem dispatch_chain_unknown (D : Device) (env : Env) (param : List Char)
    (c2 c4 c5 c6 c7 : Bool) :
    (if false = true then cmd_at_status D env
      else if (false && c2) = true then cmd_at_feed D env param
      else if false = true then cmd_at_log D
      else if (false && c4) = true then cmd_at_tare D env param
      else if (false && c5) = true then cmd_at_calibrate D env param
      else if (false && c6) = true then cmd_at_settime D env param
      else if (false && c7) = true then cmd_at_schedule D param
      else if false = true then cmd_at_get_schedule D
      else if false = true then cmd_at_eeprom_diag D
      else (D, ack_err "UNKNOWN_CMD".data)) = (D, ack_err "UNKNOWN_CMD".data) := by
  simp

theorem handle_unknown (D : Device) (env : Env) (rest : List Char)
    (h1 : strncmp_eq rest "STATUS".data 6 = false)
    (h2 : strncmp_eq rest "FEED=".data 5 = false)
    (h3 : strncmp_eq rest "LOG".data 3 = false)
    (h4 : strncmp_eq rest "TARE=".data 5 = false)
    (h5 : strncmp_eq rest "CAL=".data 4 = false)
    (h6 : strncmp_eq rest "SETTIME=".data 8 = false)
    (h7 : strncmp_eq rest "SCHED=".data 6 = false)
    (h8 : strncmp_eq rest "GETSCHED".data 8 = false)
    (h9 : strncmp_eq rest "EEDIAG".data 6 = false) :
    handle_at_command D env ("AT+".data ++ rest) = (D, ack_err "UNKNOWN_CMD".data) := by
  have h0 : strncmp_eq ("AT+".data ++ rest) "AT+".data 3 = true := by simp [strncmp_eq]
  have hd : List.drop 3 ("AT+".data ++ rest) = rest := by simp
  unfold handle_at_command
  rw [if_neg (by rw [h0]; decide)]
  simp only [hd, h1, h2, h3, h4, h5, h6, h7, h8, h9]
  exact dispatch_chain_unknown D env _ _ _ _ _ _

/-- C12 fails as written: the names `LOGOUT` and `STATUSX`, which are not in
the table, are not answered with `+ERR: UNKNOWN_CMD`; they run the handlers of
`LOG` and `STATUS`. -/
theorem C12_counterexample :
    handle_at_command idle_device env_timeout "AT+LOGOUT".data = cmd_at_log idle_device ∧
    (handle_at_command idle_device env_timeout "AT+LOGOUT".data).2
      ≠ ack_err "UNKNOWN_CMD".data ∧
    handle_at_command idle_device env_timeout "AT+STATUSX".data
      = cmd_at_status idle_device env_timeout ∧
    (handle_at_command idle_device env_timeout "AT+STATUSX".data).2
      ≠ ack_err "UNKNOWN_CMD".data := by
  decide

/-- C12 (amended): the dispatcher compares the text after `AT+` with the
table by initial part, in table order. If that text begins with none of
`STATUS`, `FEED=`, `LOG`, `TARE=`, `CAL=`, `SETTIME=`, `SCHED=`, `GETSCHED`,
`EEDIAG`, the reply is `+ERR: UNKNOWN_CMD` and the device is unchanged (no
handler runs). Conversely every line that begins with `AT+STATUS`, `AT+LOG`,
`AT+GETSCHED` or `AT+EEDIAG` runs that handler, whatever follows the name, and
`AT+FEED=p`, `AT+TARE=p`, `AT+CAL=p`, `AT+SETTIME=p`, `AT+SCHED=p` run their
handler on `p`. -/
theorem C12_dispatch_table (D : Device) (env : Env) :
    (∀ rest : List Char,
      (∀ t, rest ≠ "STATUS".data ++ t) → (∀ t, rest ≠ "FEED=".data ++ t) →
      (∀ t, rest ≠ "LOG".data ++ t) → (∀ t, rest ≠ "TARE=".data ++ t) →
      (∀ t, rest ≠ "CAL=".data ++ t) → (∀ t, rest ≠ "SETTIME=".data ++ t) →
      (∀ t, rest ≠ "SCHED=".data ++ t) → (∀ t, rest ≠ "GETSCHED".data ++ t) →
      (∀ t, rest ≠ "EEDIAG".data ++ t) →
      handle_at_command D env ("AT+".data ++ rest) = (D, ack_err "UNKNOWN_CMD".data)) ∧
    (∀ t, handle_at_command D env ("AT+STATUS".data ++ t) = cmd_at_status D env) ∧
    (∀ p, handle_at_command D env ("AT+FEED=".data ++ p) = cmd_at_feed D env p) ∧
    (∀ t, handle_at_command D env ("AT+LOG".data ++ t) = cmd_at_log D) ∧
    (∀ p, handle_at_command D env ("AT+TARE=".data ++ p) = cmd_at_tare D env p) ∧
    (∀ p, handle_at_command D env ("AT+CAL=".data ++ p) = cmd_at_calibrate D env p) ∧
    (∀ p, handle_at_command D env ("AT+SETTIME=".data ++ p) = cmd_at_settime D env p) ∧
    (∀ p, handle_at_command D env ("AT+SCHED=".data ++ p) = cmd_at_schedule D p) ∧
    (∀ t, handle_at_command D env ("AT+GETSCHED".data ++ t) = cmd_at_get_schedule D) ∧
    (∀ t, handle_at_command D env ("AT+EEDIAG".data ++ t) = cmd_at_eeprom_diag D) := by
  refine ⟨?_, ?_, ?_, ?_, ?_, ?_, ?_, ?_, ?_, ?_⟩
  · intro rest h1 h2 h3 h4 h5 h6 h7 h8 h9
    exact handle_unknown D env rest
      (strncmp_eq_false _ _ _ rfl h1) (strncmp_eq_false _ _ _ rfl h2)
      (strncmp_eq_false _ _ _ rfl h3) (strncmp_eq_false _ _ _ rfl h4)
      (strncmp_eq_false _ _ _ rfl h5) (strncmp_eq_false _ _ _ rfl h6)
      (strncmp_eq_false _ _ _ rfl h7) (strncmp_eq_false _ _ _ rfl h8)
      (strncmp_eq_false _ _ _ rfl h9)
  · intro t; simp [handle_at_command, strncmp_eq, strchr]
  · intro p; simp [handle_at_command, strncmp_eq, strchr]
  · intro t; simp [handle_at_command, strncmp_eq, strchr]
  · intro p; simp [handle_at_command, strncmp_eq, strchr]
  · intro p; simp [handle_at_command, strncmp_eq, strchr]
  · intro p; simp [handle_at_command, strncmp_eq, strchr]
  · intro p; simp [handle_at_command, strncmp_eq, strchr]
  · intro t; simp [handle_at_command, strncmp_eq, strchr]
  · intro t; simp [handle_at_command, strncmp_eq, strchr]

theorem C12_dispatch_table_witness :
    handle_at_command idle_device env_timeout ("AT+".data ++ "REBOOT".data)
      = (idle_device, ack_err "UNKNOWN_CMD".data) ∧
    handle_at_command idle_device env_timeout ("AT+".data ++ "FEED".data)
      = (idle_device, ack_err "UNKNOWN_CMD".data) :=
  ⟨(C12_dispatch_table idle_device env_timeout).1 "REBOOT".data
      (by intro t h; revert h; simp) (by intro t h; revert h; simp)
      (by intro t h; revert h; simp) (by intro t h; revert h; simp)
      (by intro t h; revert h; simp) (by intro t h; revert h; simp)
      (by intro t h; revert h; simp) (by intro t h; revert h; simp)
      (by intro t h; revert h; simp),
   (C12_dispatch_table idle_device env_timeout).1 "FEED".data
      (by intro t h; revert h; simp) (by intro t h; revert h; simp)
      (by intro t h; revert h; simp) (by intro t h; revert h; simp)
      (by intro t h; revert h; simp) (by intro t h; revert h; simp)
      (by intro t h; revert h; simp) (by intro t h; revert h; simp)
      (by intro t h; revert h; simp)⟩

/-! ## Schedule command: token loop -/

/-- The token loop keeps the entries parsed from the first `n` tokens, up to 8
entries in all. -/
theorem sched_loop_spec (n : Nat) :
    ∀ (s : List Char) (temp : List SchedEntry), temp.length ≤ 8 →
      sched_loop n (strtok s) temp
        = (temp ++ (sched_tokens n s).filterMap parse_sched_token).take 8 := by
  induction n with
  | zero =>
    intro s temp ht
    simp only [sched_loop, sched_tokens, List.filterMap_nil, List.append_nil]
    exact (List.take_of_length_le ht).symm
  | succ n ih =>
    intro s temp ht
    cases hs : strtok s with
    | none =>
      simp only [sched_loop, sched_tokens, hs, List.filterMap_nil, List.append_nil]
      exact (List.take_of_length_le ht).symm
    | some p =>
      obtain ⟨token, rest⟩ := p
      simp only [sched_loop, sched_tokens, hs]
      by_cases h8 : temp.length ≥ 8
      · rw [if_pos h8]
        have h8e : temp.length = 8 := by omega
        rw [List.take_append_of_le_length (by omega)]
        exact (List.take_of_length_le ht).symm
      · rw [if_neg h8]
        cases hp : parse_sched_token token with
        | none =>
          simp only [List.filterMap_cons, hp]
          exact ih rest temp ht
        | some e =>
          simp only [List.filterMap_cons, hp]
          rw [ih rest (temp ++ [e]) (by simp; omega)]
          simp

theorem parse_sched_token_valid (token : List Char) (e : SchedEntry)
    (h : parse_sched_token token = some e) : valid_slot e := by
  unfold parse_sched_token at h
  simp only [] at h
  split at h
  · rename_i e2 hparsed
    split at h
    · rename_i hrange
      injection h with h
      subst h
      refine ⟨hrange.1, hrange.2, ?_⟩
      split at hparsed
      · rename_i e3 hnew
        injection hparsed with hparsed
        subst hparsed
        split at hnew
        · rename_i d0 d1 d2 d3 hdig
          injection hnew with hnew
          subst hnew
          simp only []
          by_cases hc : token.length ≥ 5 ∧
              ((if token.length ≥ 5 then token.getD (token.length - 1) '\x00' else '\x00') = 'L' ∨
                (if token.length ≥ 5 then token.getD (token.length - 1) '\x00' else '\x00') = 'M' ∨
                (if token.length ≥ 5 then token.getD (token.length - 1) '\x00' else '\x00') = 'H')
          · exact hc.2
          · rw [if_neg hc] at hdig
            exact absurd hdig (by simp)
        · exact absurd hnew (by simp)
      · split at hparsed
        · exact absurd hparsed (by simp)
        · split at hparsed
          · exact absurd hparsed (by simp)
          · split at hparsed
            · rename_i hamt
              injection hparsed with hparsed
              subst hparsed
              exact hamt
            · exact absurd hparsed (by simp)
    · exact absurd h (by simp)
  · exact absurd h (by simp)

theorem sched_tokens_length (n : Nat) : ∀ s : List Char, (sched_tokens n s).length ≤ n := by
  induction n with
  | zero => intro s; simp [sched_tokens]
  | succ n ih =>
    intro s
    unfold sched_tokens
    split
    · simp
    · rename_i token rest _
      simp only [List.length_cons]
      have := ih rest
      omega

theorem sched_kept_spec (param : List Char) :
    (sched_kept param).length ≤ 8 ∧ ∀ e ∈ sched_kept param, valid_slot e := by
  unfold sched_kept
  refine ⟨by simp [List.length_take], ?_⟩
  intro e he
  have he2 := List.mem_of_mem_take he
  obtain ⟨token, _, ht⟩ := List.mem_filterMap.mp he2
  exact parse_sched_token_valid token e ht

/-- What the schedule command does for a non-empty parameter other than
`NONE`. -/
theorem cmd_at_schedule_kept (D : Device) (param : List Char)
    (hne : param ≠ []) (hnone : param ≠ "NONE".data) :
    cmd_at_schedule D param
      = ({ D with
            S := { D.S with sched_len := (sched_kept param).length,
                            sched := copy_sched (sched_kept param) D.S.sched },
            ee := (eeprom_save_schedule D.ee
                    { D.S with sched_len := (sched_kept param).length,
                               sched := copy_sched (sched_kept param) D.S.sched }).1 },
          send_ok) := by
  have hlen : ¬ param.length = 0 := fun h => hne (List.length_eq_zero.mp h)
  have hn : strcmp_eq param "NONE".data = false := by
    unfold strcmp_eq
    rw [decide_eq_false_iff_not]
    exact hnone
  have hloop : sched_loop 16 (strtok (param.take 255)) [] = sched_kept param := by
    rw [sched_loop_spec 16 _ [] (by simp)]
    rfl
  have hmod : (sched_kept param).length % 256 = (sched_kept param).length := by
    have := (sched_kept_spec param).1
    omega
  unfold cmd_at_schedule
  rw [if_neg hlen]
  simp only [hn, Bool.false_eq_true, if_false, hloop, hmod]

/-! ## Schedule command: claims -/

/-- C15 fails as written: after 16 invalid tokens the valid token `0700M` is
not stored; the table ends up empty although the reply is `+OK`. -/
theorem C15_counterexample :
    parse_sched_token "0700M".data = some ⟨7, 0, 'M', 1⟩ ∧
    (handle_at_command idle_device env_timeout
        "AT+SCHED=x;x;x;x;x;x;x;x;x;x;x;x;x;x;x;x;0700M".data).1.S.sched_len = 0 ∧
    (handle_at_command idle_device env_timeout
        "AT+SCHED=x;x;x;x;x;x;x;x;x;x;x;x;x;x;x;x;0700M".data).2 = send_ok := by
  decide

/-- Of the four tokens `0700M;bad;2500L;1230L` the two valid ones are kept and
the other two skipped. -/
theorem sched_kept_sample :
    sched_kept "0700M;bad;2500L;1230L".data = [⟨7, 0, 'M', 1⟩, ⟨12, 30, 'L', 1⟩] := by
  decide

/-- C16: evaluation at the failing inputs. In the legacy form the written
hour 256 and the written minute 256 are reduced modulo 256 before the range
test, so the tokens are accepted and an entry with hour 0 (resp. minute 0) is
stored. -/
theorem C16_legacy_range_wraps :
    parse_sched_token "256:00,L,1".data = some ⟨0, 0, 'L', 1⟩ ∧
    parse_sched_token "07:256,M,1".data = some ⟨7, 0, 'M', 1⟩ ∧
    (handle_at_command idle_device env_timeout "AT+SCHED=256:00,L,1".data).1.S.sched_len = 1 ∧
    sched_slot
        (handle_at_command idle_device env_timeout "AT+SCHED=256:00,L,1".data).1.S.sched 0
      = ⟨0, 0, 'L', 1⟩ ∧
    parse_sched_token "2400L".data = none ∧
    parse_sched_token "24:00,L,1".data = none := by
  decide

/-! ## Schedule table invariant -/

theorem sched_slot_copy_mem (temp : List SchedEntry) :
    ∀ (old : List SchedEntry) (i : Nat), i < temp.length →
      sched_slot (copy_sched temp old) i ∈ temp := by
  induction temp with
  | nil => intro old i h; simp at h
  | cons t ts ih =>
    intro old i h
    cases i with
    | zero => exact List.mem_cons_self _ _
    | succ i =>
      have : sched_slot (copy_sched (t :: ts) old) (i + 1)
          = sched_slot (copy_sched ts old.tail) i := rfl
      rw [this]
      exact List.mem_cons_of_mem _ (ih old.tail i (by simpa using h))

/-- The schedule command keeps the table invariant, whatever the parameter. -/
theorem cmd_at_schedule_inv (D : Device) (param : List Char) (h : sched_inv D.S) :
    sched_inv (cmd_at_schedule D param).1.S := by
  by_cases hne : param = []
  · subst hne
    simpa [cmd_at_schedule] using h
  · by_cases hnone : param = "NONE".data
    · subst hnone
      simp [cmd_at_schedule, strcmp_eq, sched_inv]
    · rw [cmd_at_schedule_kept D param hne hnone]
      obtain ⟨h8, hv⟩ := sched_kept_spec param
      refine ⟨h8, ?_⟩
      intro i hi
      exact hv _ (sched_slot_copy_mem _ _ i hi)

/-- Start-up without a usable gateway gives an empty table. -/
theorem Proto_Init_inv (env : Env) (hw : Nat → Bool) (ee : Eeprom)
    (h : (eeprom_init_with_retry ee hw).2 = false) :
    sched_inv (Proto_Init env hw ee).1.S := by
  unfold Proto_Init
  simp [h, sched_inv]

/-- A load never makes the table longer than 8 entries. -/
theorem eeprom_load_schedule_len (ee : Eeprom) (st : ProtoState) (h : st.sched_len ≤ 8) :
    (eeprom_load_schedule ee st).1.sched_len ≤ 8 := by
  unfold eeprom_load_schedule
  simp only []
  split
  · exact h
  · split
    · exact h
    · split
      · exact h
      · simp only []
        omega

/-- C17: evaluation at the failing input. Start-up with an initialised gateway
and a stored schedule record that carries the right magic, length 1 and the
entry (99, 99, `X`) loads that entry: the table then violates the invariant. -/
theorem C17_load_breaks_invariant :
    (Proto_Init env_timeout (fun _ => true) (bad_sched_storage 0)).1.S.sched_len = 1 ∧
    sched_slot (Proto_Init env_timeout (fun _ => true) (bad_sched_storage 0)).1.S.sched 0
      = ⟨99, 99, 'X', 1⟩ ∧
    ¬ sched_inv (Proto_Init env_timeout (fun _ => true) (bad_sched_storage 0)).1.S := by
  refine ⟨by decide, by decide, ?_⟩
  intro h
  have h0 := h.2 0 (by decide)
  revert h0
  decide

/-! ## Persistence gateway: claims -/

theorem eeprom_init_retry_fail (ee : Eeprom) (hw : Nat → Bool)
    (h0 : hw 0 = false) (h1 : hw 1 = false) (h2 : hw 2 = false) :
    eeprom_init_with_retry ee hw = ({ ee with eeprom_initialized := false }, false) := by
  simp [eeprom_init_with_retry, eeprom_init_retry_loop, eeprom_config_init, h0, h1, h2]

/-- C18: with the gateway disabled, or with a stored magic that does not
match, `eeprom_load_schedule` and `eeprom_load_calibration` return false and
leave the schedule table and the calibration of both sensors as they were; on
a disabled gateway both save functions return false and leave the storage as it
was. When all 3 initialisation attempts fail the gateway is disabled, the
storage is untouched and start-up ends with the default table and calibration. -/
theorem C18_rejected_loads (ee : Eeprom) (st : ProtoState) (food water : hx711_t)
    (env : Env) (hw : Nat → Bool) :
    ((ee.eeprom_initialized = false ∨ ee.sched_rec.magic ≠ EEPROM_MAGIC_SCHEDULE) →
      eeprom_load_schedule ee st = (st, false)) ∧
    ((ee.eeprom_initialized = false ∨ ee.cal_rec.magic ≠ EEPROM_MAGIC_CALIBRATION) →
      eeprom_load_calibration ee food water = ((food, water), false)) ∧
    (ee.eeprom_initialized = false →
      eeprom_save_schedule ee st = (ee, false) ∧
      eeprom_save_calibration ee food water = (ee, false)) ∧
    (hw 0 = false → hw 1 = false → hw 2 = false →
      eeprom_init_with_retry ee hw = ({ ee with eeprom_initialized := false }, false) ∧
      (Proto_Init env hw ee).1
        = { S := init_state (millis env),
            g_hx_food := ⟨F32.bits 0x3F800000, 0⟩,
            g_hx_water := ⟨F32.bits 0x3F800000, 0⟩,
            ee := { ee with eeprom_initialized := false } }) := by
  refine ⟨?_, ?_, ?_, ?_⟩
  · intro h
    unfold eeprom_load_schedule
    rcases h with h | h
    · simp [h]
    · cases ee.eeprom_initialized <;> simp [h]
  · intro h
    unfold eeprom_load_calibration
    rcases h with h | h
    · simp [h]
    · cases ee.eeprom_initialized <;> simp [h]
  · intro h
    simp [eeprom_save_schedule, eeprom_save_calibration, h]
  · intro h0 h1 h2
    have hr := eeprom_init_retry_fail ee hw h0 h1 h2
    refine ⟨hr, ?_⟩
    unfold Proto_Init
    simp [hr, init_state]

theorem C18_rejected_loads_witness :
    eeprom_load_schedule (bad_sched_storage 0) (init_state 0) = (init_state 0, false) ∧
    eeprom_load_calibration { cal_storage 0 with cal_rec := ⟨0, F32.bits 0, 0, F32.bits 0, 0, 0, 0⟩ }
        ⟨F32.bits 0x3F800000, 0⟩ ⟨F32.bits 0x3F800000, 0⟩
      = ((⟨F32.bits 0x3F800000, 0⟩, ⟨F32.bits 0x3F800000, 0⟩), false) ∧
    (eeprom_save_schedule (bad_sched_storage 0) (init_state 0) = (bad_sched_storage 0, false) ∧
      eeprom_save_calibration (bad_sched_storage 0) ⟨F32.bits 0x3F800000, 0⟩
          ⟨F32.bits 0x3F800000, 0⟩
        = (bad_sched_storage 0, false)) ∧
    (eeprom_init_with_retry (cal_storage 0) (fun _ => false)
        = ({ cal_storage 0 with eeprom_initialized := false }, false) ∧
      (Proto_Init env_timeout (fun _ => false) (cal_storage 0)).1
        = { S := init_state (millis env_timeout),
            g_hx_food := ⟨F32.bits 0x3F800000, 0⟩,
            g_hx_water := ⟨F32.bits 0x3F800000, 0⟩,
            ee := { cal_storage 0 with eeprom_initialized := false } }) :=
  ⟨(C18_rejected_loads (bad_sched_storage 0) (init_state 0) ⟨F32.bits 0x3F800000, 0⟩
      ⟨F32.bits 0x3F800000, 0⟩ env_timeout (fun _ => false)).1 (Or.inl rfl),
   (C18_rejected_loads { cal_storage 0 with cal_rec := ⟨0, F32.bits 0, 0, F32.bits 0, 0, 0, 0⟩ }
      (init_state 0) ⟨F32.bits 0x3F800000, 0⟩ ⟨F32.bits 0x3F800000, 0⟩ env_timeout
      (fun _ => false)).2.1 (Or.inr (by decide)),
   (C18_rejected_loads (bad_sched_storage 0) (init_state 0) ⟨F32.bits 0x3F800000, 0⟩
      ⟨F32.bits 0x3F800000, 0⟩ env_timeout (fun _ => false)).2.2.1 rfl,
   (C18_rejected_loads (cal_storage 0) (init_state 0) ⟨F32.bits 0x3F800000, 0⟩
      ⟨F32.bits 0x3F800000, 0⟩ env_timeout (fun _ => false)).2.2.2 rfl rfl rfl⟩

/-- C19: evaluation at the failing inputs. Whatever value the stored checksum
field has, so also when it is not the CRC-32 of the payload, a schedule record
and a calibration record with the right magic are loaded: the functions
return true and overwrite the table and the calibration. The result does not
depend on the checksum field. -/
theorem C19_load_ignores_checksum (crc : Nat) :
    (eeprom_load_schedule { bad_sched_storage crc with eeprom_initialized := true }
        (init_state 0)).2 = true ∧
    (eeprom_load_schedule { bad_sched_storage crc with eeprom_initialized := true }
        (init_state 0)).1.sched_len = 1 ∧
    sched_slot (eeprom_load_schedule { bad_sched_storage crc with eeprom_initialized := true }
        (init_state 0)).1.sched 0 = ⟨99, 99, 'X', 1⟩ ∧
    eeprom_load_calibration (cal_storage crc) ⟨F32.bits 0x3F800000, 0⟩ ⟨F32.bits 0x3F800000, 0⟩
      = ((⟨F32.bits 0x40000000, 123⟩, ⟨F32.bits 0x40800000, -45⟩), true) := by
  refine ⟨?_, ?_, ?_, ?_⟩
  · simp [eeprom_load_schedule, bad_sched_storage, EEPROM_MAGIC_SCHEDULE]
  · simp [eeprom_load_schedule, bad_sched_storage, EEPROM_MAGIC_SCHEDULE]
  · simp [eeprom_load_schedule, bad_sched_storage, EEPROM_MAGIC_SCHEDULE, sched_slot,
      List.range_succ]
  · simp [eeprom_load_calibration, cal_storage, EEPROM_MAGIC_CALIBRATION]

/-- C20: evaluation at the failing inputs. `eeprom_calculate_crc32` returns 0
for the 9 bytes `123456789` (not 0xCBF43926) and for any other data, and both
save functions store 0 in the checksum field whatever the payload is. -/
theorem C20_checksum_stubbed (ee : Eeprom) (st : ProtoState) (food water : hx711_t)
    (data : List Nat) :
    eeprom_calculate_crc32 [49, 50, 51, 52, 53, 54, 55, 56, 57] = 0 ∧
    eeprom_calculate_crc32 [49, 50, 51, 52, 53, 54, 55, 56, 57] ≠ 0xCBF43926 ∧
    eeprom_calculate_crc32 data = 0 ∧
    (eeprom_save_schedule { ee with eeprom_initialized := true } st).1.sched_rec.crc32 = 0 ∧
    (eeprom_save_calibration { ee with eeprom_initialized := true } food water).1.cal_rec.crc32
      = 0 ∧
    (eeprom_save_schedule { ee with eeprom_initialized := true } st).1.sched_rec.magic
      = EEPROM_MAGIC_SCHEDULE ∧
    (eeprom_save_calibration { ee with eeprom_initialized := true } food water).1.cal_rec.magic
      = EEPROM_MAGIC_CALIBRATION := by
  refine ⟨rfl, by decide, rfl, ?_, ?_, ?_, ?_⟩ <;>
    simp [eeprom_save_schedule, eeprom_save_calibration]

/-! ## Storage diagnostics: claims -/

/-- C21: evaluation at the failing input. `eeprom_check_integrity` returns
true for every storage, so the reply to `AT+EEDIAG` is `+OK: PASS` on every
device; this includes `idle_device`, whose two stored records both carry the
magic 0 instead of the expected sentinels, and a storage whose schedule record
holds an entry that is no schedule entry. -/
theorem C21_eediag_always_pass (D : Device) (env : Env) (crc : Nat) :
    eeprom_check_integrity D.ee = true ∧
    handle_at_command D env "AT+EEDIAG".data = (D, "+OK: PASS\r\r\n".data) ∧
    idle_device.ee.cal_rec.magic ≠ EEPROM_MAGIC_CALIBRATION ∧
    idle_device.ee.sched_rec.magic ≠ EEPROM_MAGIC_SCHEDULE ∧
    (handle_at_command idle_device env "AT+EEDIAG".data).2 = "+OK: PASS\r\r\n".data ∧
    eeprom_check_integrity (bad_sched_storage crc) = true := by
  have h : handle_at_command D env "AT+EEDIAG".data = (D, "+OK: PASS\r\r\n".data) := by
    simp [handle_at_command, strncmp_eq, strchr, cmd_at_eeprom_diag, eeprom_check_integrity,
      send_ok_data, UARTprintf, uart0_write]
  have h2 : handle_at_command idle_device env "AT+EEDIAG".data
      = (idle_device, "+OK: PASS\r\r\n".data) := by
    simp [handle_at_command, strncmp_eq, strchr, cmd_at_eeprom_diag, eeprom_check_integrity,
      send_ok_data, UARTprintf, uart0_write]
  exact ⟨rfl, h, by decide, by decide, by rw [h2], rfl⟩

/-! ## Transport buffer: frame conditions -/

theorem rx_pop_wf (s : RxState) (h : rx_wf s) : rx_wf (rx_pop_char s).2 := by
  unfold rx_wf rx_pop_char UART0_RX_BUF_SZ at *
  split
  · exact h
  · simp only []; omega

theorem rx_run_wf (ops : List RxOp) : ∀ s : RxState, rx_wf s → rx_wf (rx_run s ops) := by
  induction ops with
  | nil => intro s h; exact h
  | cons op ops ih =>
    intro s h
    show rx_wf (rx_run (rx_apply s op) ops)
    apply ih
    cases op with
    | push c => exact rx_push_wf s c h
    | pop => exact rx_pop_wf s h

/-- C22: frame conditions of the ring buffer. A push on a full buffer (next
write index equal to the read index) returns the state unchanged: write index,
read index and every stored byte. A push never changes `rx_tail`; a pop never
changes `rx_head` nor any stored byte; a pop on an empty buffer returns false
and leaves the state unchanged. After any sequence of pushes and pops from
the initial state both indices are below `UART0_RX_BUF_SZ`, and either
operation keeps them below it. -/
theorem C22_push_pop_frame (s : RxState) (c : Char) (ops : List RxOp) :
    ((s.rx_head + 1) % UART0_RX_BUF_SZ = s.rx_tail → rx_push_char s c = s) ∧
    (rx_push_char s c).rx_tail = s.rx_tail ∧
    (rx_pop_char s).2.rx_head = s.rx_head ∧
    (rx_pop_char s).2.rx_buf = s.rx_buf ∧
    (s.rx_tail = s.rx_head → rx_pop_char s = (none, s)) ∧
    rx_wf (rx_run rx_init ops) ∧
    (rx_wf s → rx_wf (rx_push_char s c) ∧ rx_wf (rx_pop_char s).2) := by
  refine ⟨?_, ?_, ?_, ?_, ?_, ?_, ?_⟩
  · intro h
    unfold rx_push_char
    simp only []
    rw [if_neg (by rw [h]; exact fun hn => hn rfl)]
  · unfold rx_push_char
    simp only []
    split <;> rfl
  · unfold rx_pop_char
    split <;> rfl
  · unfold rx_pop_char
    split <;> rfl
  · intro h
    unfold rx_pop_char
    rw [if_pos h]
  · exact rx_run_wf ops rx_init ⟨by decide, by decide⟩
  · intro h
    exact ⟨rx_push_wf s c h, rx_pop_wf s h⟩

theorem C22_push_pop_frame_witness :
    rx_push_char ⟨5, 6, fun _ => 'a'⟩ 'x' = ⟨5, 6, fun _ => 'a'⟩ ∧
    rx_pop_char ⟨7, 7, fun _ => 'a'⟩ = (none, ⟨7, 7, fun _ => 'a'⟩) ∧
    rx_wf (rx_push_char ⟨5, 6, fun _ => 'a'⟩ 'x') :=
  ⟨(C22_push_pop_frame ⟨5, 6, fun _ => 'a'⟩ 'x' []).1 (by decide),
   (C22_push_pop_frame ⟨7, 7, fun _ => 'a'⟩ 'x' []).2.2.2.2.1 rfl,
   ((C22_push_pop_frame ⟨5, 6, fun _ => 'a'⟩ 'x' []).2.2.2.2.2.2
      ⟨by decide, by decide⟩).1⟩

/-! ## Degrees to steps: claims -/

theorem deg_to_steps_exact (d : Nat) (hd : d < 377487360) :
    deg_to_steps d = (d * 4096 + 180) / 360 := by
  unfold deg_to_steps STEPPER_HALFSTEP_STEPS_PER_REV U32 U64
  simp only []
  have h1 : d % 4294967296 = d := Nat.mod_eq_of_lt (by omega)
  have h2 : 4096 % 4294967296 = 4096 := by decide
  rw [h1, h2]
  have h3 : (d * 4096 + 180) % 18446744073709551616 = d * 4096 + 180 :=
    Nat.mod_eq_of_lt (by omega)
  rw [h3]
  exact Nat.mod_eq_of_lt (by omega)

/-- C24, counterexample: the 32-bit degree value 377487360 has
floor((d*4096 + 180) / 360) = 2^32, which the `uint32_t` result cannot hold:
`deg_to_steps` returns 0 there, less than its value at 377487359. -/
theorem C24_counterexample :
    377487360 < U32 ∧
    (377487360 * 4096 + 180) / 360 = 4294967296 ∧
    deg_to_steps 377487360 = 0 ∧
    deg_to_steps 377487359 = 4294967285 := by
  decide

/-- C24, amended: for every degree value below 377487360 (that is, as long as
the quotient fits in 32 bits) `deg_to_steps d` is floor((d*4096 + 180) / 360);
it lies within 180/360 of d*4096/360, a tie being rounded up; it is monotone
on that range; and the step counts of the amount classes are 341 < 683 < 1365. -/
theorem C24_deg_to_steps_round (d : Nat) (hd : d < 377487360) :
    deg_to_steps d = (d * 4096 + 180) / 360 ∧
    360 * deg_to_steps d ≤ 4096 * d + 180 ∧
    4096 * d < 360 * deg_to_steps d + 180 ∧
    (∀ e, e ≤ d → deg_to_steps e ≤ deg_to_steps d) ∧
    deg_to_steps FEED_DEG_L = 341 ∧ deg_to_steps FEED_DEG_M = 683 ∧
    deg_to_steps FEED_DEG_H = 1365 := by
  have h := deg_to_steps_exact d hd
  refine ⟨h, ?_, ?_, ?_, by decide, by decide, by decide⟩
  · rw [h]; omega
  · rw [h]; omega
  · intro e he
    rw [h, deg_to_steps_exact e (by omega)]
    omega

theorem C24_deg_to_steps_round_witness :
    deg_to_steps 120 = (120 * 4096 + 180) / 360 ∧
    360 * deg_to_steps 120 ≤ 4096 * 120 + 180 ∧
    4096 * 120 < 360 * deg_to_steps 120 + 180 ∧
    deg_to_steps 60 ≤ deg_to_steps 120 :=
  ⟨(C24_deg_to_steps_round 120 (by decide)).1,
   (C24_deg_to_steps_round 120 (by decide)).2.1,
   (C24_deg_to_steps_round 120 (by decide)).2.2.1,
   (C24_deg_to_steps_round 120 (by decide)).2.2.2.1 60 (by decide)⟩

/-! ## Sequencer tick: case analysis -/

/-- Safety ceiling exceeded: the task is force-terminated. -/
theorem tick10_ceiling (S : ProtoState) (m : Stepper) (env : Env)
    (h : MAX_FEED_STEPS < S.feed_steps_remaining) :
    Proto_Tick10ms S m env
      = ({ S with feed_steps_remaining := 0, busy := false },
          stepper_uln2003_all_off (stepper_uln2003_all_off m)) := by
  unfold Proto_Tick10ms
  simp [h]

/-- No active task and the ceiling respected: the state is unchanged, no step
is issued. -/
theorem tick10_inactive (S : ProtoState) (m : Stepper) (env : Env)
    (hmax : S.feed_steps_remaining ≤ MAX_FEED_STEPS)
    (h : ¬ (S.busy = true ∧ 0 < S.feed_steps_remaining)) :
    Proto_Tick10ms S m env
      = (S, if S.busy = false ∧ S.feed_steps_remaining = 0
            then stepper_uln2003_all_off m else m) := by
  unfold Proto_Tick10ms
  have h1 : ¬ (S.feed_steps_remaining > MAX_FEED_STEPS) := by omega
  simp only [h1, if_false]
  rw [if_neg h]
  split <;> rfl

/-- Active task whose deadline has passed: forced completion without a step. -/
theorem tick10_deadline (S : ProtoState) (m : Stepper) (env : Env)
    (hmax : S.feed_steps_remaining ≤ MAX_FEED_STEPS)
    (hb : S.busy = true) (h0 : 0 < S.feed_steps_remaining)
    (hd : deadline_passed (millis env) S.feed_deadline_ms = true) :
    Proto_Tick10ms S m env
      = ({ S with
            feed_steps_remaining := 0, busy := false,
            lastFed_time :=
              if S.unix_base > 0 then format_HHMM (now_unix S (millis env)) else S.lastFed_time,
            lastFed_amount := S.feed_last_amount_g },
          stepper_uln2003_all_off (stepper_uln2003_all_off m)) := by
  have h1 : ¬ (S.feed_steps_remaining > MAX_FEED_STEPS) := by omega
  unfold Proto_Tick10ms
  rw [if_neg h1]
  simp only []
  rw [if_pos (show S.busy = true ∧ S.feed_steps_remaining > 0 from ⟨hb, h0⟩)]
  rw [if_pos hd]
  simp only []
  rw [if_neg (show ¬ ((0 : Nat) > 0 ∧ deadline_passed (millis env) S.feed_next_step_ms = true)
    from fun h => absurd h.1 (by decide))]
  simp only [if_true]
  by_cases hu : S.unix_base > 0
  · rw [if_pos hu, if_pos hu]
    simp [now_unix]
  · rw [if_neg hu, if_neg hu]
    simp

/-- Active task, deadline not passed, next step due: one step is issued. -/
theorem tick10_step (S : ProtoState) (m : Stepper) (env : Env)
    (hmax : S.feed_steps_remaining ≤ MAX_FEED_STEPS)
    (hb : S.busy = true) (h0 : 0 < S.feed_steps_remaining)
    (hd : deadline_passed (millis env) S.feed_deadline_ms = false)
    (hn : deadline_passed (millis env) S.feed_next_step_ms = true) :
    Proto_Tick10ms S m env
      = if S.feed_steps_remaining = 1 then
          ({ S with
              feed_steps_remaining := 0,
              feed_next_step_ms := (millis env + S.feed_step_delay_ms) % U32,
              busy := false,
              lastFed_time :=
                if S.unix_base > 0 then format_HHMM (now_unix S (millis env))
                else S.lastFed_time,
              lastFed_amount := S.feed_last_amount_g },
            stepper_uln2003_all_off (stepper_uln2003_all_off (stepper_uln2003_step m 1)))
        else
          ({ S with
              feed_steps_remaining := S.feed_steps_remaining - 1,
              feed_next_step_ms := (millis env + S.feed_step_delay_ms) % U32 },
            stepper_uln2003_step m 1) := by
  have h1 : ¬ (S.feed_steps_remaining > MAX_FEED_STEPS) := by omega
  unfold Proto_Tick10ms
  rw [if_neg h1]
  simp only []
  rw [if_pos (show S.busy = true ∧ S.feed_steps_remaining > 0 from ⟨hb, h0⟩)]
  rw [if_neg (show ¬ (deadline_passed (millis env) S.feed_deadline_ms = true) by rw [hd]; decide)]
  rw [if_pos (show S.feed_steps_remaining > 0 ∧
    deadline_passed (millis env) S.feed_next_step_ms = true from ⟨h0, hn⟩)]
  simp only []
  by_cases h2 : S.feed_steps_remaining = 1
  · rw [if_pos h2, if_pos (show S.feed_steps_remaining - 1 = 0 by omega)]
    simp only [if_true, true_and]
    by_cases hu : S.unix_base > 0
    · rw [if_pos hu, if_pos hu]
      simp [now_unix, h2]
    · rw [if_neg hu, if_neg hu]
      simp [h2]
  · rw [if_neg h2, if_neg (show ¬ (S.feed_steps_remaining - 1 = 0) by omega)]
    simp only []
    rw [if_neg]
    rw [hb]
    exact fun h => absurd h.1 (by decide)

/-- Active task, neither deadline passed: nothing changes. -/
theorem tick10_wait (S : ProtoState) (m : Stepper) (env : Env)
    (hmax : S.feed_steps_remaining ≤ MAX_FEED_STEPS)
    (hb : S.busy = true) (h0 : 0 < S.feed_steps_remaining)
    (hd : deadline_passed (millis env) S.feed_deadline_ms = false)
    (hn : deadline_passed (millis env) S.feed_next_step_ms = false) :
    Proto_Tick10ms S m env = (S, m) := by
  have h1 : ¬ (S.feed_steps_remaining > MAX_FEED_STEPS) := by omega
  unfold Proto_Tick10ms
  rw [if_neg h1]
  simp only []
  rw [if_pos (show S.busy = true ∧ S.feed_steps_remaining > 0 from ⟨hb, h0⟩)]
  rw [if_neg (show ¬ (deadline_passed (millis env) S.feed_deadline_ms = true) by rw [hd]; decide)]
  rw [if_neg (show ¬ (S.feed_steps_remaining > 0 ∧
    deadline_passed (millis env) S.feed_next_step_ms = true) by rw [hn]; simp)]
  simp only []
  rw [if_neg (show ¬ (S.feed_steps_remaining = 0) by omega)]
  rw [if_neg]
  rw [hb]
  exact fun h => absurd h.1 (by decide)

/-! ## Sequencer tick: claims -/

/-- C25, counterexample: a task with its next step due at tick 100 and a
per-step delay of 10 ms is ticked at 105. One step is issued and the next-step
deadline becomes 115 (tick plus delay), not 110 (old deadline plus delay). -/
theorem C25_counterexample :
    stepping_state.feed_next_step_ms + stepping_state.feed_step_delay_ms = 110 ∧
    (Proto_Tick10ms stepping_state motor_rest ⟨105, none, none⟩).2.step_calls = 1 ∧
    (Proto_Tick10ms stepping_state motor_rest ⟨105, none, none⟩).1.feed_next_step_ms = 115 := by
  decide

/-- C25, amended: the priority rule of `Proto_Tick10ms`, for every state,
actuator state and tick. Above the safety ceiling the task is force-terminated
(zero steps, not busy, no step, outputs low). Otherwise, for an active task
(busy with steps remaining): past the task deadline the remaining steps are
zeroed and no step is issued; else, past the next-step deadline, exactly one
step is issued, the remaining steps decrease by one and the next-step deadline
becomes the current tick plus the per-step delay (modulo 2^32); else nothing
changes. No call issues more than one step, none issues a step unless the
task is active. -/
theorem C25_tick10_priority (S : ProtoState) (m : Stepper) (env : Env) :
    (MAX_FEED_STEPS < S.feed_steps_remaining →
      (Proto_Tick10ms S m env).1 = { S with feed_steps_remaining := 0, busy := false } ∧
      (Proto_Tick10ms S m env).2.step_calls = m.step_calls ∧
      (Proto_Tick10ms S m env).2.coils = 0) ∧
    (S.feed_steps_remaining ≤ MAX_FEED_STEPS → S.busy = true → 0 < S.feed_steps_remaining →
      (deadline_passed (millis env) S.feed_deadline_ms = true →
        (Proto_Tick10ms S m env).1.feed_steps_remaining = 0 ∧
        (Proto_Tick10ms S m env).2.step_calls = m.step_calls) ∧
      (deadline_passed (millis env) S.feed_deadline_ms = false →
        deadline_passed (millis env) S.feed_next_step_ms = true →
        (Proto_Tick10ms S m env).2.step_calls = m.step_calls + 1 ∧
        (Proto_Tick10ms S m env).2.s_step_idx = (m.s_step_idx + 1) % 8 ∧
        (Proto_Tick10ms S m env).1.feed_steps_remaining = S.feed_steps_remaining - 1 ∧
        (Proto_Tick10ms S m env).1.feed_next_step_ms
          = (millis env + S.feed_step_delay_ms) % U32) ∧
      (deadline_passed (millis env) S.feed_deadline_ms = false →
        deadline_passed (millis env) S.feed_next_step_ms = false →
        Proto_Tick10ms S m env = (S, m))) ∧
    (Proto_Tick10ms S m env).2.step_calls ≤ m.step_calls + 1 ∧
    (¬ (S.busy = true ∧ 0 < S.feed_steps_remaining) →
      (Proto_Tick10ms S m env).2.step_calls = m.step_calls) := by
  have hceil : MAX_FEED_STEPS < S.feed_steps_remaining →
      (Proto_Tick10ms S m env).1 = { S with feed_steps_remaining := 0, busy := false } ∧
      (Proto_Tick10ms S m env).2.step_calls = m.step_calls ∧
      (Proto_Tick10ms S m env).2.coils = 0 := by
    intro h
    rw [tick10_ceiling S m env h]
    exact ⟨rfl, rfl, rfl⟩
  have hinact : S.feed_steps_remaining ≤ MAX_FEED_STEPS →
      ¬ (S.busy = true ∧ 0 < S.feed_steps_remaining) →
      (Proto_Tick10ms S m env).2.step_calls = m.step_calls := by
    intro hmax h
    rw [tick10_inactive S m env hmax h]
    simp only []
    split <;> rfl
  have hstep : S.feed_steps_remaining ≤ MAX_FEED_STEPS → S.busy = true →
      0 < S.feed_steps_remaining →
      deadline_passed (millis env) S.feed_deadline_ms = false →
      deadline_passed (millis env) S.feed_next_step_ms = true →
      (Proto_Tick10ms S m env).2.step_calls = m.step_calls + 1 ∧
      (Proto_Tick10ms S m env).2.s_step_idx = (m.s_step_idx + 1) % 8 ∧
      (Proto_Tick10ms S m env).1.feed_steps_remaining = S.feed_steps_remaining - 1 ∧
      (Proto_Tick10ms S m env).1.feed_next_step_ms
        = (millis env + S.feed_step_delay_ms) % U32 := by
    intro hmax hb h0 hd hn
    rw [tick10_step S m env hmax hb h0 hd hn]
    by_cases h1 : S.feed_steps_remaining = 1
    · rw [if_pos h1]
      refine ⟨rfl, rfl, ?_, rfl⟩
      simp only []
      omega
    · rw [if_neg h1]
      exact ⟨rfl, rfl, rfl, rfl⟩
  have hdead : S.feed_steps_remaining ≤ MAX_FEED_STEPS → S.busy = true →
      0 < S.feed_steps_remaining →
      deadline_passed (millis env) S.feed_deadline_ms = true →
      (Proto_Tick10ms S m env).1.feed_steps_remaining = 0 ∧
      (Proto_Tick10ms S m env).2.step_calls = m.step_calls := by
    intro hmax hb h0 hd
    rw [tick10_deadline S m env hmax hb h0 hd]
    exact ⟨rfl, rfl⟩
  refine ⟨hceil, ?_, ?_, ?_⟩
  · intro hmax hb h0
    exact ⟨hdead hmax hb h0, hstep hmax hb h0,
      fun hd hn => tick10_wait S m env hmax hb h0 hd hn⟩
  · by_cases hc : MAX_FEED_STEPS < S.feed_steps_remaining
    · rw [(hceil hc).2.1]; omega
    · have hmax : S.feed_steps_remaining ≤ MAX_FEED_STEPS := by omega
      by_cases ha : S.busy = true ∧ 0 < S.feed_steps_remaining
      · cases hd : deadline_passed (millis env) S.feed_deadline_ms
        · cases hn : deadline_passed (millis env) S.feed_next_step_ms
          · rw [tick10_wait S m env hmax ha.1 ha.2 hd hn]; simp
          · rw [(hstep hmax ha.1 ha.2 hd hn).1]
        · rw [(hdead hmax ha.1 ha.2 hd).2]; omega
      · rw [hinact hmax ha]; omega
  · intro ha
    by_cases hc : MAX_FEED_STEPS < S.feed_steps_remaining
    · exact (hceil hc).2.1
    · exact hinact (by omega) ha

theorem C25_tick10_priority_witness :
    ((Proto_Tick10ms { stepping_state with feed_steps_remaining := 9000 } motor_rest
        ⟨105, none, none⟩).1
      = { stepping_state with feed_steps_remaining := 0, busy := false } ∧
     (Proto_Tick10ms { stepping_state with feed_steps_remaining := 9000 } motor_rest
        ⟨105, none, none⟩).2.step_calls = 0 ∧
     (Proto_Tick10ms { stepping_state with feed_steps_remaining := 9000 } motor_rest
        ⟨105, none, none⟩).2.coils = 0) ∧
    ((Proto_Tick10ms stepping_state motor_rest ⟨10000, none, none⟩).1.feed_steps_remaining = 0 ∧
     (Proto_Tick10ms stepping_state motor_rest ⟨10000, none, none⟩).2.step_calls = 0) ∧
    ((Proto_Tick10ms stepping_state motor_rest ⟨105, none, none⟩).2.step_calls = 0 + 1 ∧
     (Proto_Tick10ms stepping_state motor_rest ⟨105, none, none⟩).2.s_step_idx = (0 + 1) % 8 ∧
     (Proto_Tick10ms stepping_state motor_rest ⟨105, none, none⟩).1.feed_steps_remaining = 5 - 1 ∧
     (Proto_Tick10ms stepping_state motor_rest ⟨105, none, none⟩).1.feed_next_step_ms
        = (millis ⟨105, none, none⟩ + 10) % U32) ∧
    Proto_Tick10ms stepping_state motor_rest ⟨95, none, none⟩ = (stepping_state, motor_rest) ∧
    (Proto_Tick10ms (init_state 0) motor_rest ⟨95, none, none⟩).2.step_calls = 0 :=
  ⟨(C25_tick10_priority { stepping_state with feed_steps_remaining := 9000 } motor_rest
      ⟨105, none, none⟩).1 (by decide),
   ((C25_tick10_priority stepping_state motor_rest ⟨10000, none, none⟩).2.1
      (by decide) (by decide) (by decide)).1 (by decide),
   ((C25_tick10_priority stepping_state motor_rest ⟨105, none, none⟩).2.1
      (by decide) (by decide) (by decide)).2.1 (by decide) (by decide),
   ((C25_tick10_priority stepping_state motor_rest ⟨95, none, none⟩).2.1
      (by decide) (by decide) (by decide)).2.2 (by decide) (by decide),
   (C25_tick10_priority (init_state 0) motor_rest ⟨95, none, none⟩).2.2.2 (by decide)⟩

/-- C26, counterexample: with the time base unset, the last step of a 25 g
feed leaves the last-fed time unchanged but sets the last-fed amount to 25,
where it was 0 before. -/
theorem C26_counterexample :
    last_step_state.unix_base = 0 ∧
    last_step_state.lastFed_amount = 0 ∧
    (Proto_Tick10ms last_step_state motor_rest ⟨105, none, none⟩).1.feed_steps_remaining = 0 ∧
    (Proto_Tick10ms last_step_state motor_rest ⟨105, none, none⟩).1.lastFed_time
      = last_step_state.lastFed_time ∧
    (Proto_Tick10ms last_step_state motor_rest ⟨105, none, none⟩).1.lastFed_amount = 25 := by
  decide

/-- C26, amended: whenever `Proto_Tick10ms` brings an active task within the
safety ceiling to zero remaining steps (by its last step or by deadline
expiry), busy becomes false, the outputs are low, and the last-fed amount
becomes the task's amount in grams whether or not the time base is set; the
last-fed time becomes HH:MM of `now_unix` if the time base is set and is
unchanged if it is unset. -/
theorem C26_completion_snapshot (S : ProtoState) (m : Stepper) (env : Env)
    (hmax : S.feed_steps_remaining ≤ MAX_FEED_STEPS)
    (hb : S.busy = true) (h0 : 0 < S.feed_steps_remaining)
    (hz : (Proto_Tick10ms S m env).1.feed_steps_remaining = 0) :
    (Proto_Tick10ms S m env).1.busy = false ∧
    (Proto_Tick10ms S m env).2.coils = 0 ∧
    (Proto_Tick10ms S m env).1.lastFed_amount = S.feed_last_amount_g ∧
    (0 < S.unix_base →
      (Proto_Tick10ms S m env).1.lastFed_time = format_HHMM (now_unix S (millis env))) ∧
    (S.unix_base = 0 → (Proto_Tick10ms S m env).1.lastFed_time = S.lastFed_time) := by
  cases hd : deadline_passed (millis env) S.feed_deadline_ms
  · cases hn : deadline_passed (millis env) S.feed_next_step_ms
    · rw [tick10_wait S m env hmax hb h0 hd hn] at hz
      simp only [] at hz
      omega
    · have hs := tick10_step S m env hmax hb h0 hd hn
      by_cases h1 : S.feed_steps_remaining = 1
      · rw [if_pos h1] at hs
        rw [hs]
        refine ⟨rfl, rfl, rfl, ?_, ?_⟩
        · intro hu
          simp only []
          rw [if_pos hu]
        · intro hu
          simp only []
          rw [if_neg (by omega)]
      · rw [if_neg h1] at hs
        rw [hs] at hz
        simp only [] at hz
        omega
  · rw [tick10_deadline S m env hmax hb h0 hd]
    refine ⟨rfl, rfl, rfl, ?_, ?_⟩
    · intro hu
      simp only []
      rw [if_pos hu]
    · intro hu
      simp only []
      rw [if_neg (by omega)]

theorem C26_completion_snapshot_witness :
    (Proto_Tick10ms { last_step_state with unix_base := 1733475540 } motor_rest
        ⟨105, none, none⟩).1.busy = false ∧
    (Proto_Tick10ms { last_step_state with unix_base := 1733475540 } motor_rest
        ⟨105, none, none⟩).2.coils = 0 ∧
    (Proto_Tick10ms { last_step_state with unix_base := 1733475540 } motor_rest
        ⟨105, none, none⟩).1.lastFed_amount = 25 ∧
    (Proto_Tick10ms { last_step_state with unix_base := 1733475540 } motor_rest
        ⟨105, none, none⟩).1.lastFed_time = "08:59".data :=
  have h := C26_completion_snapshot { last_step_state with unix_base := 1733475540 } motor_rest
    ⟨105, none, none⟩ (by decide) (by decide) (by decide) (by decide)
  ⟨h.1, h.2.1, h.2.2.1, (h.2.2.2.1 (by decide)).trans (by decide)⟩

/-! ## Runs of the sequencer -/

theorem tick10_run_succ (n : Nat) (S : ProtoState) (m : Stepper) (t : Nat) :
    tick10_run (n + 1) S m t
      = tick10_run n (Proto_Tick10ms S m ⟨t, none, none⟩).1
          (Proto_Tick10ms S m ⟨t, none, none⟩).2 (t + 10) := rfl

theorem tick10_run_add (a : Nat) : ∀ (b : Nat) (S : ProtoState) (m : Stepper) (t : Nat),
    tick10_run (a + b) S m t
      = tick10_run b (tick10_run a S m t).1 (tick10_run a S m t).2 (t + 10 * a) := by
  induction a with
  | zero => intro b S m t; simp [tick10_run]
  | succ a ih =>
    intro b S m t
    have h : a + 1 + b = (a + b) + 1 := by omega
    rw [h, tick10_run_succ, ih, tick10_run_succ]
    have h2 : t + 10 + 10 * a = t + 10 * (a + 1) := by omega
    rw [h2]

theorem deadline_passed_self (x : Nat) : deadline_passed x x = true := by
  unfold deadline_passed u32_sub U32 at *
  apply decide_eq_true
  omega

/-- While more than `k` steps remain, `k` ticks issue `k` steps and leave the
task active with the next step due at the following tick. -/
theorem tick10_run_stepping (k : Nat) : ∀ (n : Nat) (S : ProtoState) (m : Stepper) (t : Nat),
    S.busy = true → S.feed_steps_remaining = n → n ≤ MAX_FEED_STEPS →
    S.feed_step_delay_ms = 10 →
    deadline_passed (t % U32) S.feed_next_step_ms = true →
    (∀ j, j < n → deadline_passed ((t + 10 * j) % U32) S.feed_deadline_ms = false) →
    k < n →
    (tick10_run k S m t).1.busy = true ∧
    (tick10_run k S m t).1.feed_steps_remaining = n - k ∧
    (tick10_run k S m t).1.feed_step_delay_ms = 10 ∧
    (tick10_run k S m t).1.feed_deadline_ms = S.feed_deadline_ms ∧
    (tick10_run k S m t).1.feed_last_amount_g = S.feed_last_amount_g ∧
    deadline_passed ((t + 10 * k) % U32) (tick10_run k S m t).1.feed_next_step_ms = true ∧
    (tick10_run k S m t).2.step_calls = m.step_calls + k := by
  induction k with
  | zero =>
    intro n S m t hb hn _ hdl hns _ _
    exact ⟨hb, by simpa using hn, hdl, rfl, rfl, by simpa using hns, rfl⟩
  | succ k ih =>
    intro n S m t hb hn hmax hdl hns hd hk
    rw [tick10_run_succ]
    have h0 : 0 < S.feed_steps_remaining := by omega
    have hmax1 : S.feed_steps_remaining ≤ MAX_FEED_STEPS := by omega
    have hd0 : deadline_passed (millis ⟨t, none, none⟩) S.feed_deadline_ms = false := by
      have := hd 0 (by omega)
      simpa [millis] using this
    have hs := tick10_step S m ⟨t, none, none⟩ hmax1 hb h0 hd0 (by simpa [millis] using hns)
    rw [if_neg (by omega)] at hs
    rw [hs]
    simp only []
    have hih := ih (n - 1)
      { S with feed_steps_remaining := S.feed_steps_remaining - 1,
               feed_next_step_ms := (millis ⟨t, none, none⟩ + S.feed_step_delay_ms) % U32 }
      (stepper_uln2003_step m 1) (t + 10) hb (by simp only []; omega) (by omega) hdl
      (by
        simp only [millis, hdl]
        have : (t % U32 + 10) % U32 = (t + 10) % U32 := by unfold U32; omega
        rw [this]
        exact deadline_passed_self _)
      (by
        intro j hj
        have := hd (j + 1) (by omega)
        have e : t + 10 * (j + 1) = t + 10 + 10 * j := by omega
        rw [e] at this
        exact this)
      (by omega)
    obtain ⟨i1, i2, i3, i4, i5, i6, i7⟩ := hih
    refine ⟨i1, ?_, i3, i4, i5, ?_, ?_⟩
    · rw [i2]; omega
    · have e : t + 10 * (k + 1) = t + 10 + 10 * k := by omega
      rw [e]; exact i6
    · rw [i7]
      show m.step_calls + 1 + k = m.step_calls + (k + 1)
      omega

/-- Once the task is over nothing changes any more and no step is issued. -/
theorem tick10_run_idle (k : Nat) : ∀ (S : ProtoState) (m : Stepper) (t : Nat),
    S.busy = false → S.feed_steps_remaining = 0 →
    (tick10_run k S m t).1 = S ∧ (tick10_run k S m t).2.step_calls = m.step_calls := by
  induction k with
  | zero => intro S m t _ _; exact ⟨rfl, rfl⟩
  | succ k ih =>
    intro S m t hb h0
    rw [tick10_run_succ]
    have hi := tick10_inactive S m ⟨t, none, none⟩ (by rw [h0]; decide)
      (by rw [hb]; exact fun h => absurd h.1 (by decide))
    rw [hi]
    simp only []
    have := ih S (if S.busy = false ∧ S.feed_steps_remaining = 0
      then stepper_uln2003_all_off m else m) (t + 10) hb h0
    refine ⟨this.1, ?_⟩
    rw [this.2]
    split <;> rfl

/-- A task of `n` steps whose first step is due and whose deadline lies beyond
the `n`-th tick: `n` ticks issue `n` steps, the last of them ends the task. -/
theorem tick10_run_complete (n : Nat) (S : ProtoState) (m : Stepper) (t : Nat)
    (hb : S.busy = true) (hn : S.feed_steps_remaining = n) (hpos : 0 < n)
    (hmax : n ≤ MAX_FEED_STEPS) (hdl : S.feed_step_delay_ms = 10)
    (hns : deadline_passed (t % U32) S.feed_next_step_ms = true)
    (hd : ∀ j, j < n → deadline_passed ((t + 10 * j) % U32) S.feed_deadline_ms = false) :
    (tick10_run n S m t).1.busy = false ∧
    (tick10_run n S m t).1.feed_steps_remaining = 0 ∧
    (tick10_run n S m t).1.lastFed_amount = S.feed_last_amount_g ∧
    (tick10_run n S m t).2.step_calls = m.step_calls + n ∧
    (tick10_run n S m t).2.coils = 0 := by
  obtain ⟨i1, i2, i3, i4, i5, i6, i7⟩ :=
    tick10_run_stepping (n - 1) n S m t hb hn hmax hdl hns hd (by omega)
  have e : n = (n - 1) + 1 := by omega
  have hrun : tick10_run n S m t
      = tick10_run 1 (tick10_run (n - 1) S m t).1 (tick10_run (n - 1) S m t).2
          (t + 10 * (n - 1)) := by
    conv_lhs => rw [e]
    exact tick10_run_add (n - 1) 1 S m t
  rw [hrun, tick10_run_succ]
  show
    (Proto_Tick10ms _ _ ⟨t + 10 * (n - 1), none, none⟩).1.busy = false ∧
    (Proto_Tick10ms _ _ ⟨t + 10 * (n - 1), none, none⟩).1.feed_steps_remaining = 0 ∧
    (Proto_Tick10ms _ _ ⟨t + 10 * (n - 1), none, none⟩).1.lastFed_amount = S.feed_last_amount_g ∧
    (Proto_Tick10ms _ _ ⟨t + 10 * (n - 1), none, none⟩).2.step_calls = m.step_calls + n ∧
    (Proto_Tick10ms _ _ ⟨t + 10 * (n - 1), none, none⟩).2.coils = 0
  have h1 : (tick10_run (n - 1) S m t).1.feed_steps_remaining = 1 := by rw [i2]; omega
  have hd0 : deadline_passed (millis ⟨t + 10 * (n - 1), none, none⟩)
      (tick10_run (n - 1) S m t).1.feed_deadline_ms = false := by
    rw [i4]
    have := hd (n - 1) (by omega)
    simpa [millis] using this
  have hs := tick10_step (tick10_run (n - 1) S m t).1 (tick10_run (n - 1) S m t).2
    ⟨t + 10 * (n - 1), none, none⟩ (by rw [h1]; decide) i1 (by rw [h1]; decide) hd0
    (by simpa [millis] using i6)
  rw [if_pos h1] at hs
  rw [hs]
  refine ⟨rfl, rfl, ?_, ?_, rfl⟩
  · exact i5
  · show (tick10_run (n - 1) S m t).2.step_calls + 1 = m.step_calls + n
    rw [i7]; omega

/-! ## A feed from command to completion -/

theorem feed_steps_bounds (c : Char) (hc : c = 'L' ∨ c = 'M' ∨ c = 'H') :
    0 < deg_to_steps (feed_degrees c) ∧ deg_to_steps (feed_degrees c) ≤ MAX_FEED_STEPS := by
  rcases hc with h | h | h <;> subst h <;> decide

theorem cmd_at_feed_start (D : Device) (env : Env) (c : Char)
    (hidle : D.S.busy = false) (hc : c = 'L' ∨ c = 'M' ∨ c = 'H') :
    handle_at_command D env ("AT+FEED=".data ++ [c])
      = ({ D with S :=
            { D.S with
              feed_steps_remaining := deg_to_steps (feed_degrees c),
              feed_step_delay_ms := FEED_STEP_DELAY_MS,
              feed_next_step_ms := millis env,
              feed_deadline_ms := (millis env + deg_to_steps (feed_degrees c) * 10 + 1000) % U32,
              feed_last_amount_g := level_to_grams c,
              busy := true } }, send_ok) := by
  rw [dispatch_feed]
  unfold cmd_at_feed
  rw [if_neg (by rw [hidle]; decide)]
  have hl : is_amount_LMH [c] = true := by
    rcases hc with h | h | h <;> subst h <;> decide
  simp only [hl, Bool.not_true, Bool.false_eq_true, if_false, List.headD_cons, feed_degrees]

theorem wrap_cases (x : Nat) (hx : x < 2 * 4294967296) :
    (x < 4294967296 ∧ x % 4294967296 = x) ∨
    (4294967296 ≤ x ∧ x % 4294967296 = x - 4294967296) := by
  omega

theorem feed_deadline_ahead (t0 t1 n j : Nat) (ht0 : t0 < U32)
    (ht : u32_sub (t1 % U32) t0 < 10) (hn : n ≤ MAX_FEED_STEPS) (hj : j < n) :
    deadline_passed ((t1 + 10 * j) % U32) ((t0 + n * 10 + 1000) % U32) = false := by
  unfold deadline_passed
  apply decide_eq_false
  unfold u32_sub U32 MAX_FEED_STEPS at *
  have hr : t1 % 4294967296 < 4294967296 := Nat.mod_lt _ (by decide)
  have hx : (t1 + 10 * j) % 4294967296 = (t1 % 4294967296 + 10 * j) % 4294967296 := by omega
  rw [hx]
  clear hx
  generalize t1 % 4294967296 = r1 at *
  have e1 : r1 % 4294967296 = r1 := Nat.mod_eq_of_lt hr
  have e0 : t0 % 4294967296 = t0 := Nat.mod_eq_of_lt ht0
  rw [e1, e0] at ht
  have hd : (t0 ≤ r1 ∧ r1 < t0 + 10) ∨ (r1 + 4294967296 < t0 + 10 ∧ r1 < t0) := by
    rcases wrap_cases (r1 + (4294967296 - t0)) (by omega) with ⟨_, h⟩ | ⟨_, h⟩ <;>
      rw [h] at ht <;> omega
  clear ht e1 e0
  rw [Nat.mod_mod, Nat.mod_mod]
  rcases wrap_cases (r1 + 10 * j) (by omega) with ⟨a1, a2⟩ | ⟨a1, a2⟩ <;>
  rcases wrap_cases (t0 + n * 10 + 1000) (by omega) with ⟨b1, b2⟩ | ⟨b1, b2⟩ <;>
  rw [a2, b2] <;>
  [ (rcases wrap_cases (r1 + 10 * j + (4294967296 - (t0 + n * 10 + 1000))) (by omega)
      with ⟨c1, c2⟩ | ⟨c1, c2⟩ <;> rw [c2] <;> omega);
    (rcases wrap_cases (r1 + 10 * j + (4294967296 - (t0 + n * 10 + 1000 - 4294967296)))
      (by omega) with ⟨c1, c2⟩ | ⟨c1, c2⟩ <;> rw [c2] <;> omega);
    (rcases wrap_cases (r1 + 10 * j - 4294967296 + (4294967296 - (t0 + n * 10 + 1000)))
      (by omega) with ⟨c1, c2⟩ | ⟨c1, c2⟩ <;> rw [c2] <;> omega);
    (rcases wrap_cases
      (r1 + 10 * j - 4294967296 + (4294967296 - (t0 + n * 10 + 1000 - 4294967296)))
      (by omega) with ⟨c1, c2⟩ | ⟨c1, c2⟩ <;> rw [c2] <;> omega) ]

/-- C28: a feed runs to completion with the exact step count. From an idle
state, `AT+FEED=c` with `c` one of L, M, H is accepted at tick `millis env0`;
`Proto_Tick10ms` is then called at ticks `t1`, `t1 + 10`, `t1 + 20`, ... with
`t1` less than 10 ms after the command (modulo 2^32) and nothing else in
between. With N = `deg_to_steps` of the degrees of `c`: each of the first N
calls issues exactly one step (after `k ≤ N` calls `k` steps have been issued
and `N - k` remain), the task is still active before the N-th call and over
after it (busy false, outputs low), the task deadline
`millis env0 + 10 * N + 1000` has not passed at the N-th call, the last-fed
amount is then 10, 25 or 40 g for L, M, H, and from then on no call issues a
step. -/
theorem C28_feed_runs_to_completion (D : Device) (env0 : Env) (c : Char) (m : Stepper)
    (t1 : Nat) (hidle : D.S.busy = false) (hc : c = 'L' ∨ c = 'M' ∨ c = 'H')
    (ht : u32_sub (t1 % U32) (millis env0) < 10) :
    (handle_at_command D env0 ("AT+FEED=".data ++ [c])).2 = send_ok ∧
    (handle_at_command D env0 ("AT+FEED=".data ++ [c])).1.S.feed_deadline_ms
      = (millis env0 + 10 * deg_to_steps (feed_degrees c) + 1000) % U32 ∧
    (∀ k, k ≤ deg_to_steps (feed_degrees c) →
      (tick10_run k (handle_at_command D env0 ("AT+FEED=".data ++ [c])).1.S m t1).2.step_calls
        = m.step_calls + k ∧
      (tick10_run k (handle_at_command D env0 ("AT+FEED=".data ++ [c])).1.S m
          t1).1.feed_steps_remaining
        = deg_to_steps (feed_degrees c) - k) ∧
    (∀ k, k < deg_to_steps (feed_degrees c) →
      (tick10_run k (handle_at_command D env0 ("AT+FEED=".data ++ [c])).1.S m t1).1.busy
        = true) ∧
    (tick10_run (deg_to_steps (feed_degrees c))
        (handle_at_command D env0 ("AT+FEED=".data ++ [c])).1.S m t1).1.busy = false ∧
    (tick10_run (deg_to_steps (feed_degrees c))
        (handle_at_command D env0 ("AT+FEED=".data ++ [c])).1.S m t1).2.coils = 0 ∧
    deadline_passed ((t1 + 10 * (deg_to_steps (feed_degrees c) - 1)) % U32)
        (handle_at_command D env0 ("AT+FEED=".data ++ [c])).1.S.feed_deadline_ms = false ∧
    (tick10_run (deg_to_steps (feed_degrees c))
        (handle_at_command D env0 ("AT+FEED=".data ++ [c])).1.S m t1).1.lastFed_amount
      = (if c = 'L' then 10 else if c = 'M' then 25 else 40) ∧
    (∀ k, deg_to_steps (feed_degrees c) ≤ k →
      (tick10_run k (handle_at_command D env0 ("AT+FEED=".data ++ [c])).1.S m t1).2.step_calls
        = m.step_calls + deg_to_steps (feed_degrees c) ∧
      (tick10_run k (handle_at_command D env0 ("AT+FEED=".data ++ [c])).1.S m t1).1.busy
        = false) := by
  obtain ⟨hpos, hmax⟩ := feed_steps_bounds c hc
  rw [cmd_at_feed_start D env0 c hidle hc]
  simp only []
  generalize hN : deg_to_steps (feed_degrees c) = N at hpos hmax ⊢
  generalize hS : ({ D.S with
      feed_steps_remaining := N, feed_step_delay_ms := FEED_STEP_DELAY_MS,
      feed_next_step_ms := millis env0,
      feed_deadline_ms := (millis env0 + N * 10 + 1000) % U32,
      feed_last_amount_g := level_to_grams c, busy := true } : ProtoState) = S1
  have hb : S1.busy = true := by rw [← hS]
  have hn : S1.feed_steps_remaining = N := by rw [← hS]
  have hdl : S1.feed_step_delay_ms = 10 := by rw [← hS]; rfl
  have hnx : S1.feed_next_step_ms = millis env0 := by rw [← hS]
  have hdd : S1.feed_deadline_ms = (millis env0 + N * 10 + 1000) % U32 := by rw [← hS]
  have hg : S1.feed_last_amount_g = level_to_grams c := by rw [← hS]
  have ht0 : millis env0 < U32 := Nat.mod_lt _ (by decide)
  have hns : deadline_passed (t1 % U32) S1.feed_next_step_ms = true := by
    rw [hnx]
    unfold deadline_passed
    apply decide_eq_true
    omega
  have hd : ∀ j, j < N →
      deadline_passed ((t1 + 10 * j) % U32) S1.feed_deadline_ms = false := by
    intro j hj
    rw [hdd]
    exact feed_deadline_ahead (millis env0) t1 N j ht0 ht hmax hj
  have hcomp := tick10_run_complete N S1 m t1 hb hn hpos hmax hdl hns hd
  refine ⟨trivial, ?_, ?_, ?_, hcomp.1, hcomp.2.2.2.2, ?_, ?_, ?_⟩
  · have : millis env0 + N * 10 + 1000 = millis env0 + 10 * N + 1000 := by omega
    rw [this]
  · intro k hk
    rcases Nat.lt_or_ge k N with hlt | hge
    · have := tick10_run_stepping k N S1 m t1 hb hn hmax hdl hns hd hlt
      exact ⟨this.2.2.2.2.2.2, this.2.1⟩
    · have e : k = N := by omega
      subst e
      refine ⟨hcomp.2.2.2.1, ?_⟩
      rw [hcomp.2.1]; omega
  · intro k hk
    exact (tick10_run_stepping k N S1 m t1 hb hn hmax hdl hns hd hk).1
  · rw [← hdd]
    exact hd (N - 1) (by omega)
  · rw [hcomp.2.2.1, hg]
    rcases hc with h | h | h <;> rw [h] <;> simp [level_to_grams]
  · intro k hk
    have e : k = N + (k - N) := by omega
    rw [e, tick10_run_add]
    have hi := tick10_run_idle (k - N) (tick10_run N S1 m t1).1 (tick10_run N S1 m t1).2
      (t1 + 10 * N) hcomp.1 hcomp.2.1
    rw [hi.1, hi.2]
    exact ⟨hcomp.2.2.2.1, hcomp.1⟩

theorem C28_feed_runs_to_completion_witness :
    (tick10_run (deg_to_steps (feed_degrees 'L'))
        (handle_at_command idle_device env_timeout ("AT+FEED=".data ++ ['L'])).1.S motor_rest
        5003).1.busy = false ∧
    (∀ k, deg_to_steps (feed_degrees 'L') ≤ k →
      (tick10_run k (handle_at_command idle_device env_timeout ("AT+FEED=".data ++ ['L'])).1.S
          motor_rest 5003).2.step_calls
        = motor_rest.step_calls + deg_to_steps (feed_degrees 'L') ∧
      (tick10_run k (handle_at_command idle_device env_timeout ("AT+FEED=".data ++ ['L'])).1.S
          motor_rest 5003).1.busy = false) ∧
    deg_to_steps (feed_degrees 'L') = 341 :=
  ⟨(C28_feed_runs_to_completion idle_device env_timeout 'L' motor_rest 5003
      (by decide) (by decide) (by decide)).2.2.2.2.1,
   (C28_feed_runs_to_completion idle_device env_timeout 'L' motor_rest 5003
      (by decide) (by decide) (by decide)).2.2.2.2.2.2.2.2,
   by decide⟩

/-! ## Scheduler tick: the table scan -/

theorem tick_time_request_table (S : ProtoState) (env : Env) :
    (tick_time_request S env).1.sched = S.sched ∧
    (tick_time_request S env).1.sched_len = S.sched_len ∧
    (tick_time_request S env).1.busy = S.busy ∧
    { (tick_time_request S env).1 with time_request_last_ms := S.time_request_last_ms } = S := by
  unfold tick_time_request
  split <;> simp

theorem sched_scan_busy (ms cur : Nat) (es : List SchedEntry) (S : ProtoState)
    (hb : S.busy = true) : sched_scan S ms cur es = S := by
  induction es with
  | nil => rfl
  | cons e es ih =>
    simp only [sched_scan]
    rw [if_neg (by rw [hb]; exact fun h => absurd h.2 (by decide))]
    exact ih

theorem sched_scan_none (ms cur : Nat) (es : List SchedEntry) (S : ProtoState)
    (h : ∀ e ∈ es, (e.hh % 65536 * 60 + e.mm % 65536) % 65536 ≠ cur) :
    sched_scan S ms cur es = S := by
  induction es with
  | nil => rfl
  | cons e es ih =>
    simp only [sched_scan]
    rw [if_neg (fun hc => h e (List.mem_cons_self _ _) hc.1)]
    exact ih (fun x hx => h x (List.mem_cons_of_mem _ hx))

theorem feed_degrees_steps (a : Char) :
    deg_to_steps (feed_degrees a) * 10 < U32 ∧ deg_to_steps (feed_degrees a) ≤ MAX_FEED_STEPS ∧
    0 < deg_to_steps (feed_degrees a) := by
  unfold feed_degrees
  split
  · decide
  · split <;> decide

theorem sched_scan_first (ms cur : Nat) : ∀ (es : List SchedEntry) (i : Nat) (S : ProtoState),
    i < es.length →
    (∀ j, j < i →
      ((es.getD j ⟨0, 0, '\x00', 0⟩).hh % 65536 * 60
        + (es.getD j ⟨0, 0, '\x00', 0⟩).mm % 65536) % 65536 ≠ cur) →
    ((es.getD i ⟨0, 0, '\x00', 0⟩).hh % 65536 * 60
        + (es.getD i ⟨0, 0, '\x00', 0⟩).mm % 65536) % 65536 = cur →
    S.busy = false →
    sched_scan S ms cur es
      = { S with
          feed_steps_remaining := deg_to_steps (feed_degrees (es.getD i ⟨0, 0, '\x00', 0⟩).amount),
          feed_step_delay_ms := FEED_STEP_DELAY_MS,
          feed_next_step_ms := ms,
          feed_deadline_ms :=
            (ms + deg_to_steps (feed_degrees (es.getD i ⟨0, 0, '\x00', 0⟩).amount) * 10 + 1000)
              % U32,
          feed_last_amount_g := level_to_grams (es.getD i ⟨0, 0, '\x00', 0⟩).amount,
          busy := true } := by
  intro es
  induction es with
  | nil => intro i S hi; simp at hi
  | cons e es ih =>
    intro i S hi hpre hat hb
    cases i with
    | zero =>
      simp only [List.getD_cons_zero] at hat
      simp only [sched_scan, List.getD_cons_zero]
      rw [if_pos ⟨hat, hb⟩]
      have h := (feed_degrees_steps e.amount).1
      have e1 : deg_to_steps (feed_degrees e.amount) * FEED_STEP_DELAY_MS % U32
          = deg_to_steps (feed_degrees e.amount) * 10 := Nat.mod_eq_of_lt h
      simp only [feed_degrees] at e1 ⊢
      rw [e1]
    | succ i =>
      simp only [sched_scan]
      have h0 := hpre 0 (by omega)
      simp only [List.getD_cons_zero] at h0
      rw [if_neg (fun hc => h0 hc.1)]
      simp only [List.getD_cons_succ] at hat ⊢
      exact ih i S (by simpa using hi)
        (fun j hj => by
          have := hpre (j + 1) (by omega)
          simpa only [List.getD_cons_succ] using this)
        hat hb

theorem slots_getD (sched : List SchedEntry) (n i : Nat) (hi : i < n) :
    ((List.range n).map (sched_slot sched)).getD i ⟨0, 0, '\x00', 0⟩ = sched_slot sched i := by
  rw [List.getD_eq_getElem _ _ (by simpa using hi)]
  simp

theorem slot_minute_exact (e : SchedEntry) (h : e.hh < 256 ∧ e.mm < 256) :
    (e.hh % 65536 * 60 + e.mm % 65536) % 65536 = e.hh * 60 + e.mm := by
  omega

/-! ## Scheduler tick: postcondition -/

theorem tick_schedule_changed (S : ProtoState) (env : Env)
    (hbase : S.unix_base ≠ 0) (hinit : S.sched_init = true)
    (hmin : minute_of_day (now_unix S (millis env)) ≠ S.last_sched_minute) :
    tick_schedule S env
      = sched_scan { S with last_sched_minute := minute_of_day (now_unix S (millis env)) }
          (millis env) (minute_of_day (now_unix S (millis env)))
          ((List.range S.sched_len).map (sched_slot S.sched)) := by
  simp [tick_schedule, hbase, hinit, hmin]

/-- C23: postcondition of `Proto_Tick1000ms`, for every state and tick.
(a) With the time base unset, feed task, busy flag and minute cursor are
unchanged. (b) On a minute change (cursor initialised, minute of the day of
`now_unix` different from the cursor) the cursor moves to the current minute;
with no task active, the first slot in table order whose hour*60+minute equals
the current minute starts a task with `deg_to_steps` of the degrees of its
amount as step count, 10 ms per step, next-step deadline the current tick, task
deadline tick + steps*10 + 1000 (modulo 2^32) and `level_to_grams` of its
amount (10, 25, 40 for L, M, H); if no slot matches the feed task is unchanged.
(c) On a minute change with a task active the feed task is unchanged and the
state differs from the one before in the cursor and the resend time stamp
only; and whatever happens next, a call in a minute the cursor already holds
never changes the feed task. Slots hold bytes, as in the C structure. -/
theorem C23_scheduler_tick (S : ProtoState) (env : Env) :
    (S.unix_base = 0 →
      feed_task (Proto_Tick1000ms S env).1 = feed_task S ∧
      minute_cursor (Proto_Tick1000ms S env).1 = minute_cursor S) ∧
    (S.unix_base ≠ 0 → S.sched_init = true →
      minute_of_day (now_unix S (millis env)) ≠ S.last_sched_minute →
      minute_cursor (Proto_Tick1000ms S env).1
        = (minute_of_day (now_unix S (millis env)), true) ∧
      (S.busy = false →
        (∀ i, i < S.sched_len → (sched_slot S.sched i).hh < 256 ∧
          (sched_slot S.sched i).mm < 256) →
        (∀ i, i < S.sched_len →
          (∀ j, j < i → (sched_slot S.sched j).hh * 60 + (sched_slot S.sched j).mm
            ≠ minute_of_day (now_unix S (millis env))) →
          (sched_slot S.sched i).hh * 60 + (sched_slot S.sched i).mm
            = minute_of_day (now_unix S (millis env)) →
          feed_task (Proto_Tick1000ms S env).1
            = (true, deg_to_steps (feed_degrees (sched_slot S.sched i).amount), 10, millis env,
                (millis env + deg_to_steps (feed_degrees (sched_slot S.sched i).amount) * 10
                  + 1000) % U32,
                level_to_grams (sched_slot S.sched i).amount)) ∧
        ((∀ i, i < S.sched_len →
            (sched_slot S.sched i).hh * 60 + (sched_slot S.sched i).mm
              ≠ minute_of_day (now_unix S (millis env))) →
          feed_task (Proto_Tick1000ms S env).1 = feed_task S)) ∧
      (S.busy = true →
        feed_task (Proto_Tick1000ms S env).1 = feed_task S ∧
        { (Proto_Tick1000ms S env).1 with
            last_sched_minute := S.last_sched_minute,
            time_request_last_ms := S.time_request_last_ms } = S)) ∧
    (S.sched_init = true →
      minute_of_day (now_unix S (millis env)) = S.last_sched_minute →
      feed_task (Proto_Tick1000ms S env).1 = feed_task S) ∧
    level_to_grams 'L' = 10 ∧ level_to_grams 'M' = 25 ∧ level_to_grams 'H' = 40 ∧
    feed_degrees 'L' = 30 ∧ feed_degrees 'M' = 60 ∧ feed_degrees 'H' = 120 := by
  obtain ⟨a1, a2, a3, a4, a5⟩ := tick_time_request_frame S env
  obtain ⟨b1, b2, b3, b4⟩ := tick_time_request_table S env
  have hT : (Proto_Tick1000ms S env).1 = tick_schedule (tick_time_request S env).1 env := rfl
  rw [hT]
  generalize (tick_time_request S env).1 = S1 at *
  have hnow : now_unix S1 (millis env) = now_unix S (millis env) := now_unix_congr _ _ _ a1 a2
  refine ⟨?_, ?_, ?_, by decide, by decide, by decide, by decide, by decide, by decide⟩
  · intro h0
    rw [(tick_schedule_cursor S1 env).2.2.1 (by rw [a1]; exact h0)]
    exact ⟨a5, by simp [minute_cursor, a3, a4]⟩
  · intro hbase hinit hmin
    have hch := tick_schedule_changed S1 env (by rw [a1]; exact hbase) (by rw [a3]; exact hinit)
      (by rw [hnow, a4]; exact hmin)
    have hl : (List.range S1.sched_len).map (sched_slot S1.sched)
        = (List.range S.sched_len).map (sched_slot S.sched) := by rw [b1, b2]
    rw [hnow, hl] at hch
    obtain ⟨f1, f2, f3, f4, f5, f6⟩ :=
      sched_scan_frame (millis env) (minute_of_day (now_unix S (millis env)))
        ((List.range S.sched_len).map (sched_slot S.sched))
        { S1 with last_sched_minute := minute_of_day (now_unix S (millis env)) }
    refine ⟨?_, ?_, ?_⟩
    · rw [hch]
      simp only [minute_cursor, f3, f4]
      rw [a3, hinit]
    · intro hidle hbytes
      refine ⟨?_, ?_⟩
      · intro i hi hpre hat
        rw [hch]
        rw [sched_scan_first (millis env) (minute_of_day (now_unix S (millis env)))
          ((List.range S.sched_len).map (sched_slot S.sched)) i
          { S1 with last_sched_minute := minute_of_day (now_unix S (millis env)) }
          (by simpa using hi)
          (fun j hj => by
            rw [slots_getD _ _ _ (by omega), slot_minute_exact _ (hbytes j (by omega))]
            exact hpre j hj)
          (by
            rw [slots_getD _ _ _ hi, slot_minute_exact _ (hbytes i hi)]
            exact hat)
          (by simp only []; rw [b3]; exact hidle)]
        rw [slots_getD _ _ _ hi]
        rfl
      · intro hno
        rw [hch, sched_scan_none]
        · rw [← a5]; rfl
        · intro e he
          obtain ⟨i, hi, rfl⟩ := List.mem_map.mp he
          have hi2 : i < S.sched_len := by simpa using hi
          rw [slot_minute_exact _ (hbytes i hi2)]
          exact hno i hi2
    · intro hbusy
      rw [hch, sched_scan_busy _ _ _ _ (by simp only []; rw [b3]; exact hbusy)]
      refine ⟨by rw [← a5]; rfl, ?_⟩
      rw [← b4]
  · intro hinit hmin
    rw [tick_schedule_same_minute S1 env (Or.inr ⟨by rw [a3]; exact hinit, by
      rw [hnow, a4]; exact hmin⟩)]
    exact a5

theorem C23_scheduler_tick_witness :
    (feed_task (Proto_Tick1000ms (init_state 0) ⟨61000, none, none⟩).1
        = feed_task (init_state 0) ∧
      minute_cursor (Proto_Tick1000ms (init_state 0) ⟨61000, none, none⟩).1
        = minute_cursor (init_state 0)) ∧
    feed_task (Proto_Tick1000ms sched_state ⟨61000, none, none⟩).1
      = (true, deg_to_steps (feed_degrees (sched_slot sched_state.sched 0).amount), 10,
          millis ⟨61000, none, none⟩,
          (millis ⟨61000, none, none⟩
            + deg_to_steps (feed_degrees (sched_slot sched_state.sched 0).amount) * 10
            + 1000) % U32,
          level_to_grams (sched_slot sched_state.sched 0).amount) ∧
    (feed_task (Proto_Tick1000ms sched_state_busy ⟨61000, none, none⟩).1
        = feed_task sched_state_busy ∧
      { (Proto_Tick1000ms sched_state_busy ⟨61000, none, none⟩).1 with
          last_sched_minute := sched_state_busy.last_sched_minute,
          time_request_last_ms := sched_state_busy.time_request_last_ms } = sched_state_busy) ∧
    feed_task (Proto_Tick1000ms sched_state ⟨1000, none, none⟩).1 = feed_task sched_state :=
  ⟨(C23_scheduler_tick (init_state 0) ⟨61000, none, none⟩).1 (by decide),
   (((C23_scheduler_tick sched_state ⟨61000, none, none⟩).2.1
      (by decide) (by decide) (by decide)).2.1 (by decide) (by decide)).1 0
      (by decide) (by decide) (by decide),
   ((C23_scheduler_tick sched_state_busy ⟨61000, none, none⟩).2.1
      (by decide) (by decide) (by decide)).2.2 (by decide),
   (C23_scheduler_tick sched_state ⟨1000, none, none⟩).2.2.1 (by decide) (by decide)⟩

/-! ## Feed task invariant -/

/-- The chain of comparisons of `handle_at_command`, for a property of the
result that every handler establishes. -/
theorem dispatch_chain_prop (P : Device × List Char → Prop) (D : Device) (env : Env)
    (param : List Char) (c1 c2 c3 c4 c5 c6 c7 c8 c9 : Bool)
    (h1 : P (cmd_at_status D env)) (h2 : P (cmd_at_feed D env param)) (h3 : P (cmd_at_log D))
    (h4 : P (cmd_at_tare D env param)) (h5 : P (cmd_at_calibrate D env param))
    (h6 : P (cmd_at_settime D env param)) (h7 : P (cmd_at_schedule D param))
    (h8 : P (cmd_at_get_schedule D)) (h9 : P (cmd_at_eeprom_diag D))
    (h10 : P (D, ack_err "UNKNOWN_CMD".data)) :
    P (if c1 = true then cmd_at_status D env
      else if c2 = true then cmd_at_feed D env param
      else if c3 = true then cmd_at_log D
      else if c4 = true then cmd_at_tare D env param
      else if c5 = true then cmd_at_calibrate D env param
      else if c6 = true then cmd_at_settime D env param
      else if c7 = true then cmd_at_schedule D param
      else if c8 = true then cmd_at_get_schedule D
      else if c9 = true then cmd_at_eeprom_diag D
      else (D, ack_err "UNKNOWN_CMD".data)) := by
  cases c1
  case true => exact h1
  cases c2
  case true => exact h2
  cases c3
  case true => exact h3
  cases c4
  case true => exact h4
  cases c5
  case true => exact h5
  cases c6
  case true => exact h6
  cases c7
  case true => exact h7
  cases c8
  case true => exact h8
  cases c9
  case true => exact h9
  exact h10

theorem cmd_at_status_feed (D : Device) (env : Env) : (cmd_at_status D env).1 = D := by
  unfold cmd_at_status
  simp only []
  split <;> rfl

theorem cmd_at_feed_inv (D : Device) (env : Env) (param : List Char) (h : feed_inv D.S) :
    feed_inv (cmd_at_feed D env param).1.S := by
  unfold cmd_at_feed
  simp only []
  split
  · exact h
  · split
    · exact h
    · have hs := feed_degrees_steps (param.headD '\x00')
      simp only [feed_degrees] at hs
      exact ⟨⟨fun _ => hs.2.2, fun _ => rfl⟩, hs.2.1⟩

theorem set_hx_S (D : Device) (d : Sensor) (h : hx711_t) : (D.set_hx d h).S = D.S := by
  cases d <;> rfl

theorem cmd_at_tare_S (D : Device) (env : Env) (param : List Char) :
    (cmd_at_tare D env param).1.S = D.S := by
  unfold cmd_at_tare
  simp only []
  repeat' split
  all_goals first | rfl | exact set_hx_S _ _ _

theorem cmd_at_calibrate_S (D : Device) (env : Env) (param : List Char) :
    (cmd_at_calibrate D env param).1.S = D.S := by
  unfold cmd_at_calibrate
  simp only []
  repeat' split
  all_goals first | rfl | exact set_hx_S _ _ _

theorem cmd_at_settime_feed (D : Device) (env : Env) (param : List Char) :
    feed_task (cmd_at_settime D env param).1.S = feed_task D.S := by
  unfold cmd_at_settime
  simp only []
  split <;> rfl

theorem cmd_at_schedule_feed (D : Device) (param : List Char) :
    feed_task (cmd_at_schedule D param).1.S = feed_task D.S := by
  unfold cmd_at_schedule
  simp only []
  repeat' split
  all_goals rfl

theorem cmd_at_get_schedule_D (D : Device) : (cmd_at_get_schedule D).1 = D := by
  unfold cmd_at_get_schedule
  simp only []
  split <;> rfl

theorem feed_inv_of_task (S T : ProtoState) (h : feed_task T = feed_task S)
    (hi : feed_inv S) : feed_inv T := by
  simp only [feed_task, Prod.mk.injEq] at h
  unfold feed_inv at *
  rw [h.1, h.2.1]
  exact hi

theorem feed_inv_idle (S : ProtoState) (hb : S.busy = false)
    (h0 : S.feed_steps_remaining = 0) : feed_inv S := by
  unfold feed_inv
  rw [hb, h0]
  exact ⟨⟨fun hc => absurd hc (by decide), fun hc => absurd hc (by decide)⟩, by decide⟩

theorem handle_at_command_inv (D : Device) (env : Env) (line : List Char)
    (h : feed_inv D.S) : feed_inv (handle_at_command D env line).1.S := by
  unfold handle_at_command
  split
  · exact h
  · exact dispatch_chain_prop (fun r => feed_inv r.1.S) D env _ _ _ _ _ _ _ _ _ _
      (by show feed_inv (cmd_at_status D env).1.S; rw [cmd_at_status_feed]; exact h)
      (cmd_at_feed_inv D env _ h)
      h
      (by show feed_inv (cmd_at_tare D env _).1.S; rw [cmd_at_tare_S]; exact h)
      (by show feed_inv (cmd_at_calibrate D env _).1.S; rw [cmd_at_calibrate_S]; exact h)
      (feed_inv_of_task _ _ (cmd_at_settime_feed D env _) h)
      (feed_inv_of_task _ _ (cmd_at_schedule_feed D _) h)
      (by show feed_inv (cmd_at_get_schedule D).1.S; rw [cmd_at_get_schedule_D]; exact h)
      h
      h

theorem Proto_Tick10ms_inv (S : ProtoState) (m : Stepper) (env : Env) (h : feed_inv S) :
    feed_inv (Proto_Tick10ms S m env).1 := by
  obtain ⟨hiff, hmax⟩ := h
  by_cases ha : S.busy = true ∧ 0 < S.feed_steps_remaining
  · cases hd : deadline_passed (millis env) S.feed_deadline_ms
    · cases hn : deadline_passed (millis env) S.feed_next_step_ms
      · rw [tick10_wait S m env hmax ha.1 ha.2 hd hn]
        exact ⟨hiff, hmax⟩
      · rw [tick10_step S m env hmax ha.1 ha.2 hd hn]
        split
        · exact feed_inv_idle _ rfl rfl
        · refine ⟨⟨fun _ => ?_, fun _ => ha.1⟩, ?_⟩
          · show 0 < S.feed_steps_remaining - 1
            omega
          · show S.feed_steps_remaining - 1 ≤ MAX_FEED_STEPS
            omega
    · rw [tick10_deadline S m env hmax ha.1 ha.2 hd]
      exact feed_inv_idle _ rfl rfl
  · rw [tick10_inactive S m env hmax ha]
    exact ⟨hiff, hmax⟩

theorem sched_scan_inv (ms cur : Nat) (es : List SchedEntry) (S : ProtoState)
    (h : feed_inv S) : feed_inv (sched_scan S ms cur es) := by
  induction es with
  | nil => exact h
  | cons e es ih =>
    simp only [sched_scan]
    split
    · have hs := feed_degrees_steps e.amount
      simp only [feed_degrees] at hs
      exact ⟨⟨fun _ => hs.2.2, fun _ => rfl⟩, hs.2.1⟩
    · exact ih

theorem Proto_Tick1000ms_inv (S : ProtoState) (env : Env) (h : feed_inv S) :
    feed_inv (Proto_Tick1000ms S env).1 := by
  have h1 : feed_inv (tick_time_request S env).1 :=
    feed_inv_of_task _ _ (tick_time_request_frame S env).2.2.2.2 h
  show feed_inv (tick_schedule (tick_time_request S env).1 env)
  generalize (tick_time_request S env).1 = S1 at h1
  unfold tick_schedule
  simp only []
  split
  · exact h1
  · split
    · exact h1
    · split
      · exact h1
      · exact sched_scan_inv _ _ _ _ h1

theorem Proto_Tick100ms_inv (S : ProtoState) (pump : Bool) (food water : Option Int)
    (h : feed_inv S) : feed_inv (Proto_Tick100ms S pump food water).1 := by
  unfold Proto_Tick100ms
  cases food <;> cases water <;> exact h

theorem Proto_Init_feed (env : Env) (hw : Nat → Bool) (ee : Eeprom) :
    feed_inv (Proto_Init env hw ee).1.S := by
  unfold Proto_Init
  simp only []
  split
  · unfold eeprom_load_schedule
    simp only []
    repeat' split
    all_goals exact feed_inv_idle _ rfl rfl
  · exact feed_inv_idle _ rfl rfl

theorem Machine_step_inv (M : Machine) (ev : Event) (h : feed_inv M.D.S) :
    feed_inv (M.step ev).D.S := by
  cases ev with
  | command env line => exact handle_at_command_inv M.D env line h
  | tick10 env => exact Proto_Tick10ms_inv M.D.S M.motor env h
  | tick100 food water => exact Proto_Tick100ms_inv M.D.S M.pump food water h
  | tick1000 env => exact Proto_Tick1000ms_inv M.D.S env h

theorem Machine_run_inv (evs : List Event) : ∀ M : Machine, feed_inv M.D.S →
    feed_inv (M.run evs).D.S := by
  induction evs with
  | nil => intro M h; exact h
  | cons ev evs ih =>
    intro M h
    exact ih (M.step ev) (Machine_step_inv M ev h)

/-- C27: the feed task invariant. In every state reached from `Proto_Init`
(whatever the storage holds and whether or not it initialises) by any
sequence of command lines and calls of the three tick handlers, at arbitrary
ticks and sensor readings: busy is set exactly when steps remain, and the
remaining steps do not exceed `MAX_FEED_STEPS` = 8192. So the safety ceiling
test of `Proto_Tick10ms` is never met and the state busy with zero remaining
steps never occurs. -/
theorem C27_feed_task_invariant (env : Env) (hw : Nat → Bool) (ee : Eeprom) (motor : Stepper)
    (pump : Bool) (evs : List Event) :
    feed_inv (Machine.run ⟨(Proto_Init env hw ee).1, motor, pump⟩ evs).D.S ∧
    ((Machine.run ⟨(Proto_Init env hw ee).1, motor, pump⟩ evs).D.S.busy = true ↔
      0 < (Machine.run ⟨(Proto_Init env hw ee).1, motor, pump⟩ evs).D.S.feed_steps_remaining) ∧
    (Machine.run ⟨(Proto_Init env hw ee).1, motor, pump⟩ evs).D.S.feed_steps_remaining ≤ 8192 ∧
    ¬ (MAX_FEED_STEPS
        < (Machine.run ⟨(Proto_Init env hw ee).1, motor, pump⟩ evs).D.S.feed_steps_remaining) ∧
    ¬ ((Machine.run ⟨(Proto_Init env hw ee).1, motor, pump⟩ evs).D.S.busy = true ∧
        (Machine.run ⟨(Proto_Init env hw ee).1, motor, pump⟩ evs).D.S.feed_steps_remaining
          = 0) := by
  have h := Machine_run_inv evs ⟨(Proto_Init env hw ee).1, motor, pump⟩
    (Proto_Init_feed env hw ee)
  refine ⟨h, h.1, h.2, ?_, ?_⟩
  · have := h.2
    omega
  · intro hc
    have := h.1.mp hc.1
    omega

/-! ## Calendar: the year loop -/

theorem days_in_year_bounds (y : Nat) : 365 ≤ days_in_year y ∧ days_in_year y ≤ 366 := by
  unfold days_in_year
  split <;> omega

theorem add_years_succ (n y d : Nat) :
    add_years (n + 1) y d = add_years n (y + 1) ((d + days_in_year y) % U32) := rfl

/-- The year loop of `rtc_unix_to_time`, given enough iterations, stops at a
year `year + k` with the days counted so far equal to what the year loop of
`rtc_time_to_unix` adds up over the same `k` years. -/
theorem find_year_spec (days : Nat) (hdays : days < U32) :
    ∀ (fuel year counted : Nat), counted ≤ days → days - counted < 365 * fuel →
      ∃ k, find_year fuel days year counted = some (year + k, add_years k year counted) ∧
        (∀ j, j ≤ k → add_years j year counted ≤ days) ∧
        days < add_years k year counted + days_in_year (year + k) := by
  intro fuel
  induction fuel with
  | zero => intro year counted _ h; omega
  | succ fuel ih =>
    intro year counted hc hf
    have hb := days_in_year_bounds year
    by_cases hstop : counted + days_in_year year > days
    · refine ⟨0, ?_, ?_, ?_⟩
      · simp only [find_year]
        rw [if_pos (by unfold days_in_year at hstop; exact hstop)]
        rfl
      · intro j hj
        have : j = 0 := by omega
        subst this
        exact hc
      · exact hstop
    · obtain ⟨k, e1, e2, e3⟩ := ih (year + 1) (counted + days_in_year year) (by omega) (by omega)
      have hmod : (counted + days_in_year year) % U32 = counted + days_in_year year :=
        Nat.mod_eq_of_lt (by omega)
      refine ⟨k + 1, ?_, ?_, ?_⟩
      · simp only [find_year]
        rw [if_neg (by unfold days_in_year at hstop; exact hstop)]
        have e4 : year + (k + 1) = year + 1 + k := by omega
        rw [add_years_succ, hmod, e4]
        unfold days_in_year at e1
        exact e1
      · intro j hj
        cases j with
        | zero => exact hc
        | succ j =>
          rw [add_years_succ, hmod]
          exact e2 j (by omega)
      · have e4 : year + (k + 1) = year + 1 + k := by omega
        rw [add_years_succ, hmod, e4]
        exact e3

set_option maxRecDepth 100000 in
theorem add_years_2100 : add_years 130 1970 0 = 47482 := by
  decide

/-! ## Calendar: the month loop -/

theorem month_length_eq (year m : Nat) :
    (if m = 2 then (if is_leap_year year = true then 29 else 28)
      else days_in_month.getD (m - 1) 0) = month_length year m := rfl

theorem add_months_succ (year n m d : Nat) :
    add_months year (n + 1) m d = add_months year n (m + 1) ((d + month_length year m) % U32) := by
  simp only [add_months, month_length]
  by_cases h2 : m = 2
  · subst h2
    by_cases hl : is_leap_year year = true
    · simp [hl]
    · simp [hl, days_in_month]
  · simp [h2]

/-- The month loop of `rtc_unix_to_time` takes away from the day of the year
exactly what the month loop of `rtc_time_to_unix` adds back. -/
theorem find_month_spec (year : Nat) :
    ∀ (fuel m doy base : Nat), base + doy < U32 →
      m ≤ (find_month (if is_leap_year year = true then 29 else 28) fuel m doy).1 ∧
      add_months year
          ((find_month (if is_leap_year year = true then 29 else 28) fuel m doy).1 - m) m base
        + (find_month (if is_leap_year year = true then 29 else 28) fuel m doy).2
        = base + doy := by
  intro fuel
  induction fuel with
  | zero =>
    intro m doy base _
    simp [find_month, add_months]
  | succ fuel ih =>
    intro m doy base hb
    simp only [find_month]
    by_cases h12 : m ≤ 12
    · rw [if_pos h12, month_length_eq]
      by_cases hlt : doy < month_length year m
      · rw [if_pos hlt]
        simp [add_months]
      · rw [if_neg hlt]
        obtain ⟨i1, i2⟩ := ih (m + 1) (doy - month_length year m) (base + month_length year m)
          (by omega)
        refine ⟨by omega, ?_⟩
        have e : (find_month (if is_leap_year year = true then 29 else 28) fuel (m + 1)
            (doy - month_length year m)).1 - m
            = ((find_month (if is_leap_year year = true then 29 else 28) fuel (m + 1)
              (doy - month_length year m)).1 - (m + 1)) + 1 := by omega
        rw [e, add_months_succ, Nat.mod_eq_of_lt (by omega), i2]
        omega
    · rw [if_neg h12]
      simp [add_months]

set_option maxRecDepth 100000 in
theorem find_month_range_leap : ∀ doy, doy < 366 →
    (find_month 29 13 1 doy).1 ≤ 12 ∧
    (find_month 29 13 1 doy).2
      < (if (find_month 29 13 1 doy).1 = 2 then 29
          else days_in_month.getD ((find_month 29 13 1 doy).1 - 1) 0) ∧
    (find_month 29 13 1 doy).2 < 31 := by
  decide

set_option maxRecDepth 100000 in
theorem find_month_range_common : ∀ doy, doy < 365 →
    (find_month 28 13 1 doy).1 ≤ 12 ∧
    (find_month 28 13 1 doy).2
      < (if (find_month 28 13 1 doy).1 = 2 then 28
          else days_in_month.getD ((find_month 28 13 1 doy).1 - 1) 0) ∧
    (find_month 28 13 1 doy).2 < 31 := by
  decide

theorem find_month_range (year doy : Nat) (h : doy < days_in_year year) :
    (find_month (if is_leap_year year = true then 29 else 28) 13 1 doy).1 ≤ 12 ∧
    (find_month (if is_leap_year year = true then 29 else 28) 13 1 doy).2
      < month_length year (find_month (if is_leap_year year = true then 29 else 28) 13 1 doy).1 ∧
    (find_month (if is_leap_year year = true then 29 else 28) 13 1 doy).2 < 31 := by
  unfold month_length
  unfold days_in_year at h
  by_cases hl : is_leap_year year = true
  · simp only [hl, if_true] at h ⊢
    exact find_month_range_leap doy h
  · simp only [hl, if_false] at h ⊢
    exact find_month_range_common doy (by simpa using h)

/-! ## Calendar: round trip -/

theorem fmt_0d_year_length (y : Nat) (h1 : 1970 ≤ y) (h2 : y ≤ 2099) :
    (fmt_0d 4 y).length = 4 := by
  interval_cases y <;> rfl

theorem fmt_0d_two_length (n : Nat) (hn : n < 100) : (fmt_0d 2 n).length = 2 := by
  rw [fmt_0d_two n hn]
  rfl

/-- C29: calendar conversion round trip. For every Unix time `u` below
4102444800 (2100-01-01 00:00:00), `rtc_unix_to_time u` returns a result (the
year loop ends within its iteration budget) whose year is in 1970..2099, month
in 1..12, date in 1..length of that month in that year, hour at most 23,
minute and second at most 59, and `rtc_time_to_unix` maps those fields back
to `u`. Whenever `now_unix` is `u`, the reply to STATUS carries these fields
as `TIME=YYYY-MM-DD HH:MM:SS`, none of them cut short. -/
theorem C29_calendar_roundtrip (u : Nat) (hu : u < 4102444800) :
    ∃ t, rtc_unix_to_time u = some t ∧
      1970 ≤ t.year ∧ t.year ≤ 2099 ∧ 1 ≤ t.month ∧ t.month ≤ 12 ∧
      1 ≤ t.date ∧ t.date ≤ month_length t.year t.month ∧
      t.hour ≤ 23 ∧ t.min ≤ 59 ∧ t.sec ≤ 59 ∧
      rtc_time_to_unix t = u ∧
      ∀ (D : Device) (env : Env), now_unix D.S (millis env) = u →
        cmd_at_status D env
          = (D, send_ok_data
              (("TIME=".data
                ++ (fmt_0d 4 t.year ++ ['-'] ++ fmt_0d 2 t.month ++ ['-'] ++ fmt_0d 2 t.date
                    ++ [' '] ++ fmt_0d 2 t.hour ++ [':'] ++ fmt_0d 2 t.min ++ [':']
                    ++ fmt_0d 2 t.sec)
                ++ ",BOWL=".data ++ fmt_d D.S.bowl_g
                ++ ",WATER=".data ++ fmt_d D.S.water_g ++ ",ALARM=".data ++ fmt_d D.S.alarm
                ++ ",BUSY=".data ++ fmt_d (if D.S.busy then 1 else 0)).take 127)) := by
  have hdays : u / 86400 < 47482 := by omega
  obtain ⟨k, e1, e2, e3⟩ := find_year_spec (u / 86400) (by unfold U32; omega)
    (u / 86400 + 1) 1970 0 (by omega) (by omega)
  have hk : k < 130 := by
    by_contra hc
    have := e2 130 (by omega)
    rw [add_years_2100] at this
    omega
  have hc0 := e2 k (le_refl k)
  have hy : 1970 + k - 1970 = k := by omega
  generalize hcdef : add_years k 1970 0 = c at e1 e3 hc0
  obtain ⟨r1, r2, r3⟩ := find_month_range (1970 + k) (u / 86400 - c) (by omega)
  obtain ⟨m1, m2⟩ := find_month_spec (1970 + k) 13 1 (u / 86400 - c) c (by unfold U32; omega)
  generalize hmd : find_month (if is_leap_year (1970 + k) = true then 29 else 28) 13 1
    (u / 86400 - c) = md at r1 r2 r3 m1 m2
  have hrt : rtc_unix_to_time u
      = some { year := 1970 + k, month := md.1, date := md.2 + 1,
               hour := u % 86400 / 3600, min := u % 86400 % 3600 / 60,
               sec := u % 86400 % 60,
               weekday := calculate_weekday (1970 + k) md.1 ((md.2 + 1) % 256) } := by
    unfold rtc_unix_to_time
    simp only [e1, hmd]
    have a1 : (1970 + k) % 65536 = 1970 + k := by omega
    have a2 : (md.2 + 1) % 256 = md.2 + 1 := by omega
    have a3 : u % 86400 / 3600 % 256 = u % 86400 / 3600 := by omega
    have a4 : u % 86400 % 3600 / 60 % 256 = u % 86400 % 3600 / 60 := by omega
    have a5 : u % 86400 % 60 % 256 = u % 86400 % 60 := by omega
    rw [a1, a2, a3, a4, a5]
  refine ⟨_, hrt, ?_, ?_, ?_, ?_, ?_, ?_, ?_, ?_, ?_, ?_, ?_⟩
  · show 1970 ≤ 1970 + k
    omega
  · show 1970 + k ≤ 2099
    omega
  · exact m1
  · exact r1
  · show 1 ≤ md.2 + 1
    omega
  · show md.2 + 1 ≤ month_length (1970 + k) md.1
    omega
  · show u % 86400 / 3600 ≤ 23
    omega
  · show u % 86400 % 3600 / 60 ≤ 59
    omega
  · show u % 86400 % 60 ≤ 59
    omega
  · unfold rtc_time_to_unix
    simp only []
    rw [if_neg (by omega), if_neg (by omega), if_neg (by omega), if_neg (by omega)]
    rw [hy, hcdef]
    have hm : md.2 + 1 - 1 = md.2 := by omega
    rw [hm]
    have hsum : add_months (1970 + k) (md.1 - 1) 1 c + md.2 = u / 86400 := by omega
    rw [hsum]
    unfold U32
    omega
  · intro D env hnow
    unfold cmd_at_status
    simp only [hnow, hrt]
    have hlen : (fmt_0d 4 (1970 + k) ++ ['-'] ++ fmt_0d 2 md.1 ++ ['-'] ++ fmt_0d 2 (md.2 + 1)
        ++ [' '] ++ fmt_0d 2 (u % 86400 / 3600) ++ [':'] ++ fmt_0d 2 (u % 86400 % 3600 / 60)
        ++ [':'] ++ fmt_0d 2 (u % 86400 % 60)).length = 19 := by
      simp only [List.length_append, List.length_singleton,
        fmt_0d_year_length (1970 + k) (by omega) (by omega),
        fmt_0d_two_length md.1 (by omega), fmt_0d_two_length (md.2 + 1) (by omega),
        fmt_0d_two_length (u % 86400 / 3600) (by omega),
        fmt_0d_two_length (u % 86400 % 3600 / 60) (by omega),
        fmt_0d_two_length (u % 86400 % 60) (by omega)]
    rw [List.take_of_length_le (le_of_eq hlen)]

theorem C29_calendar_roundtrip_witness :
    ∃ t, rtc_unix_to_time 1733475540 = some t ∧
      1970 ≤ t.year ∧ t.year ≤ 2099 ∧ 1 ≤ t.month ∧ t.month ≤ 12 ∧
      1 ≤ t.date ∧ t.date ≤ month_length t.year t.month ∧
      t.hour ≤ 23 ∧ t.min ≤ 59 ∧ t.sec ≤ 59 ∧
      rtc_time_to_unix t = 1733475540 :=
  (C29_calendar_roundtrip 1733475540 (by decide)).imp
    (fun _ h => ⟨h.1, h.2.1, h.2.2.1, h.2.2.2.1, h.2.2.2.2.1, h.2.2.2.2.2.1, h.2.2.2.2.2.2.1,
      h.2.2.2.2.2.2.2.1, h.2.2.2.2.2.2.2.2.1, h.2.2.2.2.2.2.2.2.2.1,
      h.2.2.2.2.2.2.2.2.2.2.1⟩)

set_option maxRecDepth 1000000 in
/-- The sample time 1733475540 is 2024-12-06 08:59:00, a Friday (weekday 6,
Sunday being 1), and the last second covered is 2099-12-31 23:59:59. -/
theorem rtc_sample_times :
    rtc_unix_to_time 1733475540 = some ⟨2024, 12, 6, 6, 8, 59, 0⟩ ∧
    rtc_time_to_unix ⟨2024, 12, 6, 6, 8, 59, 0⟩ = 1733475540 ∧
    rtc_time_to_unix ⟨2099, 12, 31, 5, 23, 59, 59⟩ = 4102444799 := by
  refine ⟨?_, ?_, ?_⟩ <;> decide

/-! ## Byte-addressed storage -/

theorem EEPROMRead_length (mem : Nat → Nat) (addr count : Nat) :
    (EEPROMRead mem addr count).length = count := by
  simp [EEPROMRead]

/-- A read returns the bytes last programmed. -/
theorem EEPROMRead_program_same (mem : Nat → Nat) (data : List Nat) (addr : Nat) :
    EEPROMRead (EEPROMProgram mem data addr) addr data.length = data := by
  apply List.ext_getElem
  · simp [EEPROMRead]
  · intro n h1 h2
    simp only [EEPROMRead, List.getElem_map, List.getElem_range, EEPROMProgram]
    rw [if_pos ⟨by omega, by omega⟩]
    have e : addr + n - addr = n := by omega
    rw [e, List.getD_eq_getElem _ _ h2]

/-- Programming one byte range leaves what is read from a disjoint range as
it was. -/
theorem EEPROMRead_program_disjoint (mem : Nat → Nat) (data : List Nat) (addr addr2 count : Nat)
    (h : addr2 + count ≤ addr ∨ addr + data.length ≤ addr2) :
    EEPROMRead (EEPROMProgram mem data addr) addr2 count = EEPROMRead mem addr2 count := by
  apply List.ext_getElem
  · simp [EEPROMRead]
  · intro n h1 h2
    have hn : n < count := by simpa [EEPROMRead] using h1
    simp only [EEPROMRead, List.getElem_map, List.getElem_range, EEPROMProgram]
    rw [if_neg (by omega)]

theorem u32_bytes_length (w : Nat) : (u32_bytes w).length = 4 := rfl

theorem slots_bytes_length (es : List SchedEntry) : (slots_bytes es).length = 4 * es.length := by
  induction es with
  | nil => rfl
  | cons e es ih =>
    simp only [slots_bytes, List.length_append, ih, List.length_cons, sched_entry_bytes,
      List.length_nil]
    omega

theorem schedule_bytes_length (r : eeprom_schedule_t) :
    r.to_bytes.length = sizeof_eeprom_schedule_t := by
  simp [eeprom_schedule_t.to_bytes, slots_bytes_length, u32_bytes_length,
    sizeof_eeprom_schedule_t]

theorem calibration_bytes_length (enc : F32 → Nat) (r : eeprom_calibration_t) :
    (r.to_bytes enc).length = sizeof_eeprom_calibration_t := by
  simp [eeprom_calibration_t.to_bytes, u32_bytes_length, sizeof_eeprom_calibration_t]

theorem u32_join (w : Nat) (h : w < 4294967296) :
    w % 256 + 256 * (w / 256 % 256) + 65536 * (w / 65536 % 256)
      + 16777216 * (w / 16777216 % 256) = w := by
  omega

theorem sched_entry_norm (e : SchedEntry)
    (h : e.hh < 256 ∧ e.mm < 256 ∧ e.amount.toNat < 256 ∧ e.en < 256) :
    ({ hh := e.hh % 256, mm := e.mm % 256, amount := Char.ofNat (e.amount.toNat % 256),
       en := e.en % 256 } : SchedEntry) = e := by
  obtain ⟨a, b, c, d⟩ := h
  rw [Nat.mod_eq_of_lt a, Nat.mod_eq_of_lt b, Nat.mod_eq_of_lt c, Nat.mod_eq_of_lt d,
    Char.ofNat_toNat]

/-- Decoding the object representation of a schedule record gives the record
back, when its fields fit their C types. -/
theorem schedule_of_to_bytes (magic len crc : Nat) (e0 e1 e2 e3 e4 e5 e6 e7 : SchedEntry)
    (hm : magic < 4294967296) (hl : len < 4294967296) (hc : crc < 4294967296)
    (hb : ∀ e ∈ [e0, e1, e2, e3, e4, e5, e6, e7],
      e.hh < 256 ∧ e.mm < 256 ∧ e.amount.toNat < 256 ∧ e.en < 256) :
    eeprom_schedule_t.of_bytes
        (eeprom_schedule_t.to_bytes ⟨magic, len, [e0, e1, e2, e3, e4, e5, e6, e7], crc⟩)
      = ⟨magic, len, [e0, e1, e2, e3, e4, e5, e6, e7], crc⟩ := by
  have h0 := hb e0 (by simp)
  have h1 := hb e1 (by simp)
  have h2 := hb e2 (by simp)
  have h3 := hb e3 (by simp)
  have h4 := hb e4 (by simp)
  have h5 := hb e5 (by simp)
  have h6 := hb e6 (by simp)
  have h7 := hb e7 (by simp)
  simp only [eeprom_schedule_t.to_bytes, eeprom_schedule_t.of_bytes, u32_bytes, u32_at,
    slots_bytes, sched_entry_bytes, sched_slot, List.range_succ, List.range_zero, List.map,
    List.nil_append, List.cons_append, List.getD_cons_zero, List.getD_cons_succ,
    List.map_cons, List.map_nil, List.append_nil]
  rw [u32_join magic hm, u32_join len hl, u32_join crc hc, sched_entry_norm e0 h0,
    sched_entry_norm e1 h1, sched_entry_norm e2 h2, sched_entry_norm e3 h3,
    sched_entry_norm e4 h4, sched_entry_norm e5 h5, sched_entry_norm e6 h6,
    sched_entry_norm e7 h7]

/-! ## Persistence over bytes: round trip and independence -/

theorem range8_map (f : Nat → SchedEntry) :
    (List.range 8).map f = [f 0, f 1, f 2, f 3, f 4, f 5, f 6, f 7] := by
  simp [List.range_succ]

/-- C30: schedule persistence round trip and record independence, over a
byte-addressed storage in which a read returns the bytes last programmed.
With the gateway initialised, for every state with schedule length at most 8
(slots holding bytes, as their C types demand), `eeprom_save_schedule` returns
true and a following `eeprom_load_schedule` into any state returns true and
gives the same length and, in all 8 slots, the same hour, minute and amount
with the enable flag 1. The calibration record occupies bytes 0..27 and the
schedule record bytes 28..71, so saving either record leaves what a load of
the other returns as it was. -/
theorem C30_schedule_roundtrip_independent (ee : EepromMem) (st st2 : ProtoState)
    (food water f2 w2 : hx711_t) (enc : F32 → Nat)
    (hinit : ee.eeprom_initialized = true) (hlen : st.sched_len ≤ 8)
    (hbytes : slots_are_bytes st) :
    (eeprom_save_schedule_mem ee st).2 = true ∧
    eeprom_load_schedule_mem (eeprom_save_schedule_mem ee st).1 st2
      = ({ st2 with
            sched_len := st.sched_len,
            sched := (List.range 8).map (fun i => { sched_slot st.sched i with en := 1 }) },
          true) ∧
    EEPROM_ADDR_CALIBRATION + sizeof_eeprom_calibration_t ≤ EEPROM_ADDR_SCHEDULE ∧
    eeprom_load_calibration_mem (eeprom_save_schedule_mem ee st).1 f2 w2
      = eeprom_load_calibration_mem ee f2 w2 ∧
    eeprom_load_schedule_mem (eeprom_save_calibration_mem enc ee food water).1 st2
      = eeprom_load_schedule_mem ee st2 := by
  have hsave : eeprom_save_schedule_mem ee st
      = ({ ee with mem := (EEPROMProgram ee.mem
            (eeprom_schedule_t.to_bytes
              { magic := EEPROM_MAGIC_SCHEDULE, sched_len := st.sched_len,
                sched := (List.range 8).map (fun i => { sched_slot st.sched i with en := 1 }),
                crc32 := 0 })
            EEPROM_ADDR_SCHEDULE) }, true) := by
    unfold eeprom_save_schedule_mem
    rw [hinit]
    rfl
  have hsavec : eeprom_save_calibration_mem enc ee food water
      = ({ ee with mem := (EEPROMProgram ee.mem
            (eeprom_calibration_t.to_bytes enc
              { magic := EEPROM_MAGIC_CALIBRATION,
                food_scale := food.scale, food_offset := food.offset,
                water_scale := water.scale, water_offset := water.offset,
                reserved := 0, crc32 := 0 })
            EEPROM_ADDR_CALIBRATION) }, true) := by
    unfold eeprom_save_calibration_mem
    rw [hinit]
    rfl
  refine ⟨by rw [hsave], ?_, by decide, ?_, ?_⟩
  · rw [hsave]
    unfold eeprom_load_schedule_mem
    simp only [hinit, Bool.not_true, Bool.false_eq_true, if_false]
    rw [← schedule_bytes_length
      { magic := EEPROM_MAGIC_SCHEDULE, sched_len := st.sched_len,
        sched := (List.range 8).map (fun i => { sched_slot st.sched i with en := 1 }),
        crc32 := 0 }, EEPROMRead_program_same, range8_map,
      schedule_of_to_bytes _ _ _ _ _ _ _ _ _ _ _ (by decide) (by omega) (by decide)
        (by
          intro e he
          simp only [List.mem_cons, List.mem_singleton, List.mem_nil_iff, or_false] at he
          rcases he with h | h | h | h | h | h | h | h <;> subst h
          · exact ⟨(hbytes 0 (by decide)).1, (hbytes 0 (by decide)).2.1,
              (hbytes 0 (by decide)).2.2,
              show (1 : Nat) < 256 by decide⟩
          · exact ⟨(hbytes 1 (by decide)).1, (hbytes 1 (by decide)).2.1,
              (hbytes 1 (by decide)).2.2,
              show (1 : Nat) < 256 by decide⟩
          · exact ⟨(hbytes 2 (by decide)).1, (hbytes 2 (by decide)).2.1,
              (hbytes 2 (by decide)).2.2,
              show (1 : Nat) < 256 by decide⟩
          · exact ⟨(hbytes 3 (by decide)).1, (hbytes 3 (by decide)).2.1,
              (hbytes 3 (by decide)).2.2,
              show (1 : Nat) < 256 by decide⟩
          · exact ⟨(hbytes 4 (by decide)).1, (hbytes 4 (by decide)).2.1,
              (hbytes 4 (by decide)).2.2,
              show (1 : Nat) < 256 by decide⟩
          · exact ⟨(hbytes 5 (by decide)).1, (hbytes 5 (by decide)).2.1,
              (hbytes 5 (by decide)).2.2,
              show (1 : Nat) < 256 by decide⟩
          · exact ⟨(hbytes 6 (by decide)).1, (hbytes 6 (by decide)).2.1,
              (hbytes 6 (by decide)).2.2,
              show (1 : Nat) < 256 by decide⟩
          · exact ⟨(hbytes 7 (by decide)).1, (hbytes 7 (by decide)).2.1,
              (hbytes 7 (by decide)).2.2,
              show (1 : Nat) < 256 by decide⟩)]
    simp only []
    rw [if_neg (by simp), if_neg (by omega), Nat.mod_eq_of_lt (by omega)]
    simp [sched_slot, List.range_succ]
  · rw [hsave]
    unfold eeprom_load_calibration_mem
    simp only []
    rw [EEPROMRead_program_disjoint _ _ _ _ _ (Or.inl (by decide))]
  · rw [hsavec]
    unfold eeprom_load_schedule_mem
    simp only []
    rw [EEPROMRead_program_disjoint _ _ _ _ _
      (Or.inr (by rw [calibration_bytes_length]; decide))]

theorem C30_schedule_roundtrip_independent_witness :
    (eeprom_save_schedule_mem blank_mem sched_state).2 = true ∧
    eeprom_load_schedule_mem (eeprom_save_schedule_mem blank_mem sched_state).1 (init_state 0)
      = ({ init_state 0 with
            sched_len := sched_state.sched_len,
            sched := (List.range 8).map
              (fun i => { sched_slot sched_state.sched i with en := 1 }) },
          true) ∧
    eeprom_load_calibration_mem (eeprom_save_schedule_mem blank_mem sched_state).1
        ⟨F32.bits 0x3F800000, 0⟩ ⟨F32.bits 0x3F800000, 0⟩
      = eeprom_load_calibration_mem blank_mem ⟨F32.bits 0x3F800000, 0⟩ ⟨F32.bits 0x3F800000, 0⟩ ∧
    eeprom_load_schedule_mem
        (eeprom_save_calibration_mem (fun _ => 0x40000000) blank_mem ⟨F32.bits 0x40000000, 123⟩
          ⟨F32.bits 0x40000000, -45⟩).1 (init_state 0)
      = eeprom_load_schedule_mem blank_mem (init_state 0) :=
  have h := C30_schedule_roundtrip_independent blank_mem sched_state (init_state 0)
    ⟨F32.bits 0x40000000, 123⟩ ⟨F32.bits 0x40000000, -45⟩
    ⟨F32.bits 0x3F800000, 0⟩ ⟨F32.bits 0x3F800000, 0⟩ (fun _ => 0x40000000)
    rfl (by decide) (by unfold slots_are_bytes; decide)
  ⟨h.1, h.2.1, h.2.2.2.1, h.2.2.2.2⟩

/-! ## The record-level storage model as a view of the bytes -/

/-- Loading the schedule from the records a storage stands for is loading it
from the bytes. -/
theorem records_load_schedule (ee : EepromMem) (st : ProtoState) :
    eeprom_load_schedule ee.records st = eeprom_load_schedule_mem ee st := rfl

/-- Loading the calibration from the records a storage stands for is loading
it from the bytes. -/
theorem records_load_calibration (ee : EepromMem) (food water : hx711_t) :
    eeprom_load_calibration ee.records food water = eeprom_load_calibration_mem ee food water :=
  rfl

/-- Saving the schedule to the bytes changes the records the storage stands
for exactly as the record-level save does: the schedule record is replaced,
the calibration record stays. -/
theorem records_save_schedule (ee : EepromMem) (st : ProtoState)
    (hinit : ee.eeprom_initialized = true) (hlen : st.sched_len < 4294967296)
    (hbytes : slots_are_bytes st) :
    (eeprom_save_schedule_mem ee st).1.records
      = { (eeprom_save_schedule ee.records st).1 with programmed := [] } := by
  have hsave : eeprom_save_schedule_mem ee st
      = ({ ee with mem := (EEPROMProgram ee.mem
            (eeprom_schedule_t.to_bytes
              { magic := EEPROM_MAGIC_SCHEDULE, sched_len := st.sched_len,
                sched := (List.range 8).map (fun i => { sched_slot st.sched i with en := 1 }),
                crc32 := 0 })
            EEPROM_ADDR_SCHEDULE) }, true) := by
    unfold eeprom_save_schedule_mem
    rw [hinit]
    rfl
  have hrec : (eeprom_save_schedule ee.records st).1
      = { ee.records with
          sched_rec :=
            { magic := EEPROM_MAGIC_SCHEDULE, sched_len := st.sched_len,
              sched := (List.range 8).map (fun i => { sched_slot st.sched i with en := 1 }),
              crc32 := 0 },
          programmed := EEPROM_ADDR_SCHEDULE :: ee.records.programmed } := by
    unfold eeprom_save_schedule
    have : ee.records.eeprom_initialized = true := hinit
    rw [if_neg (by rw [this]; decide)]
  rw [hsave, hrec]
  unfold EepromMem.records
  simp only []
  rw [EEPROMRead_program_disjoint _ _ _ _ _ (Or.inl (by decide)),
    ← schedule_bytes_length
      { magic := EEPROM_MAGIC_SCHEDULE, sched_len := st.sched_len,
        sched := (List.range 8).map (fun i => { sched_slot st.sched i with en := 1 }),
        crc32 := 0 }, EEPROMRead_program_same, range8_map,
    schedule_of_to_bytes _ _ _ _ _ _ _ _ _ _ _ (by decide) hlen (by decide)
      (by
        intro e he
        simp only [List.mem_cons, List.mem_singleton, List.mem_nil_iff, or_false] at he
        rcases he with h | h | h | h | h | h | h | h <;> subst h
        · exact ⟨(hbytes 0 (by decide)).1, (hbytes 0 (by decide)).2.1,
            (hbytes 0 (by decide)).2.2, show (1 : Nat) < 256 by decide⟩
        · exact ⟨(hbytes 1 (by decide)).1, (hbytes 1 (by decide)).2.1,
            (hbytes 1 (by decide)).2.2, show (1 : Nat) < 256 by decide⟩
        · exact ⟨(hbytes 2 (by decide)).1, (hbytes 2 (by decide)).2.1,
            (hbytes 2 (by decide)).2.2, show (1 : Nat) < 256 by decide⟩
        · exact ⟨(hbytes 3 (by decide)).1, (hbytes 3 (by decide)).2.1,
            (hbytes 3 (by decide)).2.2, show (1 : Nat) < 256 by decide⟩
        · exact ⟨(hbytes 4 (by decide)).1, (hbytes 4 (by decide)).2.1,
            (hbytes 4 (by decide)).2.2, show (1 : Nat) < 256 by decide⟩
        · exact ⟨(hbytes 5 (by decide)).1, (hbytes 5 (by decide)).2.1,
            (hbytes 5 (by decide)).2.2, show (1 : Nat) < 256 by decide⟩
        · exact ⟨(hbytes 6 (by decide)).1, (hbytes 6 (by decide)).2.1,
            (hbytes 6 (by decide)).2.2, show (1 : Nat) < 256 by decide⟩
        · exact ⟨(hbytes 7 (by decide)).1, (hbytes 7 (by decide)).2.1,
            (hbytes 7 (by decide)).2.2, show (1 : Nat) < 256 by decide⟩)]

/-! ## Schedule command: the parser on written tokens -/

theorem entry_text_shape (hh mm : Nat) (a : Char) (h1 : hh < 100) (h2 : mm < 100) :
    (SchedToken.entry hh mm a).text
      = [Nat.digitChar (hh / 10), Nat.digitChar (hh % 10), Nat.digitChar (mm / 10),
          Nat.digitChar (mm % 10), a] := by
  simp [SchedToken.text, fmt_0d_two hh h1, fmt_0d_two mm h2]

theorem legacy_text_shape (hh mm : Nat) (a en : Char) (h1 : hh < 100) (h2 : mm < 100) :
    (SchedToken.legacy hh mm a en).text
      = [Nat.digitChar (hh / 10), Nat.digitChar (hh % 10), ':', Nat.digitChar (mm / 10),
          Nat.digitChar (mm % 10), ',', a, ',', en] := by
  simp [SchedToken.text, fmt_0d_two hh h1, fmt_0d_two mm h2]

/-- An entry written `HHMM{L|M|H}` parses to the written hour, minute and
amount exactly when the hour is at most 23 and the minute at most 59. -/
theorem parse_entry_text (hh mm : Nat) (a : Char)
    (h : (SchedToken.entry hh mm a).wf) :
    parse_sched_token (SchedToken.entry hh mm a).text
      = (SchedToken.entry hh mm a).value.map slot_of := by
  obtain ⟨h1, h2, h3⟩ := h
  rw [entry_text_shape hh mm a h1 h2]
  have a1 := digitChar_spec (hh / 10) (by omega)
  have a2 := digitChar_spec (hh % 10) (by omega)
  have a3 := digitChar_spec (mm / 10) (by omega)
  have a4 := digitChar_spec (mm % 10) (by omega)
  have e1 : (hh / 10 * 10 + hh % 10) % 256 = hh := by omega
  have e2 : (mm / 10 * 10 + mm % 10) % 256 = mm := by omega
  unfold parse_sched_token SchedToken.value
  by_cases hr : hh ≤ 23 ∧ mm ≤ 59
  · simp [collect_digits, a1.1, a2.1, a3.1, a4.1, a1.2.1, a2.2.1, a3.2.1, a4.2.1, h3, e1, e2,
      slot_of, hr]
  · simp [collect_digits, a1.1, a2.1, a3.1, a4.1, a1.2.1, a2.2.1, a3.2.1, a4.2.1, h3, e1, e2,
      hr]

theorem digitChar_sep (d : Nat) (hd : d < 10) :
    Nat.digitChar d ≠ ':' ∧ Nat.digitChar d ≠ ',' ∧ Nat.digitChar d ≠ ';' ∧
    Nat.digitChar d ≠ '\x00' := by
  interval_cases d <;> decide

theorem atoi_two_digits (d0 d1 : Nat) (c : Char) (rest : List Char)
    (h0 : d0 < 10) (h1 : d1 < 10) (hc : isdigit c = false) :
    atoi (Nat.digitChar d0 :: Nat.digitChar d1 :: c :: rest) = ((d0 * 10 + d1 : Nat) : Int) := by
  have a0 := digitChar_spec d0 h0
  have a1 := digitChar_spec d1 h1
  unfold atoi
  have hdw : List.dropWhile isspace (Nat.digitChar d0 :: Nat.digitChar d1 :: c :: rest)
      = Nat.digitChar d0 :: Nat.digitChar d1 :: c :: rest := by
    simp [List.dropWhile, a0.2.2.1]
  have hss : strip_sign (Nat.digitChar d0 :: Nat.digitChar d1 :: c :: rest)
      = (false, Nat.digitChar d0 :: Nat.digitChar d1 :: c :: rest) := by
    simp [strip_sign, a0.2.2.2.1, a0.2.2.2.2]
  have hdv : digits_value (Nat.digitChar d0 :: Nat.digitChar d1 :: c :: rest)
      = d0 * 10 + d1 := by
    simp [digits_value, List.takeWhile, a0.1, a1.1, hc, a0.2.1, a1.2.1]
  simp only [hdw, hss, hdv]
  rw [if_neg (by decide), if_neg (by omega)]

/-- An entry written in the legacy form `HH:MM,A,E` parses to the written
hour, minute and amount exactly when the hour is at most 23 and the minute at
most 59. -/
theorem parse_legacy_text (hh mm : Nat) (a en : Char)
    (h : (SchedToken.legacy hh mm a en).wf) :
    parse_sched_token (SchedToken.legacy hh mm a en).text
      = (SchedToken.legacy hh mm a en).value.map slot_of := by
  obtain ⟨h1, h2, h3, h4⟩ := h
  rw [legacy_text_shape hh mm a en h1 h2]
  have s1 := digitChar_sep (hh / 10) (by omega)
  have s2 := digitChar_sep (hh % 10) (by omega)
  have s3 := digitChar_sep (mm / 10) (by omega)
  have s4 := digitChar_sep (mm % 10) (by omega)
  have hen : ¬ (en = 'L' ∨ en = 'M' ∨ en = 'H') := by
    rcases h4 with h | h <;> rw [h] <;> decide
  have at1 := atoi_two_digits (hh / 10) (hh % 10) ':'
    [Nat.digitChar (mm / 10), Nat.digitChar (mm % 10), ',', a, ',', en]
    (by omega) (by omega) (by decide)
  have at2 := atoi_two_digits (mm / 10) (mm % 10) ',' [a, ',', en]
    (by omega) (by omega) (by decide)
  have e1 : hh / 10 * 10 + hh % 10 = hh := by omega
  have e2 : mm / 10 * 10 + mm % 10 = mm := by omega
  rw [e1] at at1
  rw [e2] at at2
  have c1 : strchr [Nat.digitChar (hh / 10), Nat.digitChar (hh % 10), ':',
      Nat.digitChar (mm / 10), Nat.digitChar (mm % 10), ',', a, ',', en] ':'
      = some [':', Nat.digitChar (mm / 10), Nat.digitChar (mm % 10), ',', a, ',', en] := by
    simp [strchr, s1.1, s2.1]
  have c2 : strchr [':', Nat.digitChar (mm / 10), Nat.digitChar (mm % 10), ',', a, ',', en] ','
      = some [',', a, ',', en] := by
    simp [strchr, s3.2.1, s4.2.1]
  have m1 : (((hh : Nat) : Int) % 256).toNat = hh := by omega
  have m2 : (((mm : Nat) : Int) % 256).toNat = mm := by omega
  unfold parse_sched_token SchedToken.value
  simp only [List.length_cons, List.length_nil, List.getD_cons_succ, List.getD_cons_zero]
  have hc5 : ¬ (0 + 1 + 1 + 1 + 1 + 1 + 1 + 1 + 1 + 1 ≥ 5 ∧
      ((if 0 + 1 + 1 + 1 + 1 + 1 + 1 + 1 + 1 + 1 ≥ 5 then en else '\x00') = 'L' ∨
        (if 0 + 1 + 1 + 1 + 1 + 1 + 1 + 1 + 1 + 1 ≥ 5 then en else '\x00') = 'M' ∨
          (if 0 + 1 + 1 + 1 + 1 + 1 + 1 + 1 + 1 + 1 ≥ 5 then en else '\x00') = 'H')) := by
    rw [if_pos (by decide)]
    exact fun hx => hen hx.2
  rw [if_neg hc5]
  simp only [c1, c2, List.drop_succ_cons, List.drop_zero, List.headD_cons, h3, if_true, at1,
    at2, m1, m2]
  by_cases hr : hh ≤ 23 ∧ mm ≤ 59
  · simp [hr, slot_of]
  · simp [hr]

theorem strchr_none (c : Char) (s : List Char) (h : c ∉ s) : strchr s c = none := by
  induction s with
  | nil => rfl
  | cons x xs ih =>
    simp only [List.mem_cons, not_or] at h
    simp only [strchr]
    rw [if_neg (fun hx => h.1 hx.symm)]
    exact ih h.2

theorem collect_digits_length (l : List Char) :
    ∀ acc : List Char,
      (collect_digits l acc).length ≤ acc.length + (l.filter isdigit).length := by
  induction l with
  | nil => intro acc; simp [collect_digits]
  | cons c cs ih =>
    intro acc
    simp only [collect_digits]
    split
    · split
      · rename_i hd
        have := ih (acc ++ [c])
        simp only [List.length_append, List.length_singleton] at this
        simp only [List.filter_cons, hd, if_true, List.length_cons]
        omega
      · rename_i hd
        have := ih acc
        simp only [List.filter_cons, hd, Bool.false_eq_true, if_false]
        exact this
    · omega

theorem last_byte_eq (t : List Char) (d : Char) :
    t.getD (t.length - 1) d = t.getLast?.getD d := by
  rw [List.getLast?_eq_getElem?, List.getD_eq_getElem?_getD]

/-- Text that is no entry in either form does not parse. -/
theorem parse_junk_text (t : List Char) (h : (SchedToken.junk t).wf) :
    parse_sched_token t = none := by
  obtain ⟨_, _, hcolon, _, hcase⟩ := h
  have hlen : (if t.length ≥ 5 ∧
        ((if t.length ≥ 5 then t.getD (t.length - 1) '\x00' else '\x00') = 'L' ∨
          (if t.length ≥ 5 then t.getD (t.length - 1) '\x00' else '\x00') = 'M' ∨
          (if t.length ≥ 5 then t.getD (t.length - 1) '\x00' else '\x00') = 'H')
      then collect_digits (t.take (t.length - 1)) [] else []).length < 4 := by
    by_cases hc : t.length ≥ 5 ∧
        ((if t.length ≥ 5 then t.getD (t.length - 1) '\x00' else '\x00') = 'L' ∨
          (if t.length ≥ 5 then t.getD (t.length - 1) '\x00' else '\x00') = 'M' ∨
          (if t.length ≥ 5 then t.getD (t.length - 1) '\x00' else '\x00') = 'H')
    · rw [if_pos hc]
      obtain ⟨h5, hamt⟩ := hc
      rw [if_pos h5, last_byte_eq] at hamt
      rcases hcase with hno | hdig
      · exfalso
        apply hno
        unfold ends_in_amount
        cases hl : t.getLast? with
        | none =>
          rw [hl] at hamt
          exact absurd hamt (by decide)
        | some x =>
          rw [hl] at hamt
          simp only [Option.getD_some] at hamt
          rcases hamt with h | h | h <;> rw [h] <;> simp
      · have := collect_digits_length (t.take (t.length - 1)) []
        rw [← List.dropLast_eq_take] at this ⊢
        simp only [List.length_nil, Nat.zero_add] at this
        omega
    · rw [if_neg hc]
      simp
  unfold parse_sched_token
  simp only []
  generalize (if t.length ≥ 5 ∧
        ((if t.length ≥ 5 then t.getD (t.length - 1) '\x00' else '\x00') = 'L' ∨
          (if t.length ≥ 5 then t.getD (t.length - 1) '\x00' else '\x00') = 'M' ∨
          (if t.length ≥ 5 then t.getD (t.length - 1) '\x00' else '\x00') = 'H')
      then collect_digits (t.take (t.length - 1)) [] else []) = ds at hlen
  rw [strchr_none ':' t hcolon]
  rcases ds with _ | ⟨a, _ | ⟨b, _ | ⟨c, _ | ⟨d, _ | ⟨e, r⟩⟩⟩⟩⟩
  · rfl
  · rfl
  · rfl
  · rfl
  · simp at hlen
  · rfl

/-- On every token the parser returns the entry the token stands for, and
nothing when it stands for none. -/
theorem parse_token_text (t : SchedToken) (h : t.wf) :
    parse_sched_token t.text = t.value.map slot_of := by
  cases t with
  | entry hh mm a => exact parse_entry_text hh mm a h
  | legacy hh mm a en => exact parse_legacy_text hh mm a en h
  | junk t => exact parse_junk_text t h

/-! ## Schedule command: tokens of a written parameter -/

theorem token_text_plain (t : SchedToken) (h : t.wf) :
    t.text ≠ [] ∧ ∀ c ∈ t.text, c ≠ ';' := by
  cases t with
  | entry hh mm a =>
    obtain ⟨h1, h2, h3⟩ := h
    rw [entry_text_shape hh mm a h1 h2]
    have s1 := digitChar_sep (hh / 10) (by omega)
    have s2 := digitChar_sep (hh % 10) (by omega)
    have s3 := digitChar_sep (mm / 10) (by omega)
    have s4 := digitChar_sep (mm % 10) (by omega)
    refine ⟨by simp, ?_⟩
    intro c hc
    simp only [List.mem_cons, List.mem_singleton, List.not_mem_nil, or_false] at hc
    rcases hc with hc | hc | hc | hc | hc
    · rw [hc]; exact s1.2.2.1
    · rw [hc]; exact s2.2.2.1
    · rw [hc]; exact s3.2.2.1
    · rw [hc]; exact s4.2.2.1
    · rw [hc]; rcases h3 with h | h | h <;> rw [h] <;> decide
  | legacy hh mm a en =>
    obtain ⟨h1, h2, h3, h4⟩ := h
    rw [legacy_text_shape hh mm a en h1 h2]
    have s1 := digitChar_sep (hh / 10) (by omega)
    have s2 := digitChar_sep (hh % 10) (by omega)
    have s3 := digitChar_sep (mm / 10) (by omega)
    have s4 := digitChar_sep (mm % 10) (by omega)
    refine ⟨by simp, ?_⟩
    intro c hc
    simp only [List.mem_cons, List.mem_singleton, List.not_mem_nil, or_false] at hc
    rcases hc with hc | hc | hc | hc | hc | hc | hc | hc | hc
    · rw [hc]; exact s1.2.2.1
    · rw [hc]; exact s2.2.2.1
    · rw [hc]; decide
    · rw [hc]; exact s3.2.2.1
    · rw [hc]; exact s4.2.2.1
    · rw [hc]; decide
    · rw [hc]; rcases h3 with h | h | h <;> rw [h] <;> decide
    · rw [hc]; decide
    · rw [hc]; rcases h4 with h | h <;> rw [h] <;> decide
  | junk t =>
    obtain ⟨h1, h2, _, _, _⟩ := h
    exact ⟨h1, fun c hc hx => h2 (hx ▸ hc)⟩

theorem sched_tokens_nil (n : Nat) : sched_tokens n [] = [] := by
  cases n with
  | zero => rfl
  | succ n => simp [sched_tokens, strtok_nil]

/-- Splitting the joined texts at `;` gives the texts back, as many as are
asked for. -/
theorem sched_tokens_join (ts : List (List Char)) :
    ∀ n : Nat, (∀ t ∈ ts, t ≠ [] ∧ ∀ c ∈ t, c ≠ ';') →
      sched_tokens n (join_tokens ts) = ts.take n := by
  induction ts with
  | nil => intro n _; simp [join_tokens, sched_tokens_nil]
  | cons t rest ih =>
    intro n h
    obtain ⟨hne, hns⟩ := h t (List.mem_cons_self t rest)
    have hs := strtok_token t (join_tokens rest) hne hns
    cases n with
    | zero => rfl
    | succ n =>
      cases rest with
      | nil =>
        simp only [join_tokens, sched_tokens, hs.2, sched_tokens_nil, List.take_succ_cons,
          List.take_nil]
      | cons t2 rest2 =>
        have hj : join_tokens (t :: t2 :: rest2) = t ++ ';' :: join_tokens (t2 :: rest2) := rfl
        rw [hj]
        simp only [sched_tokens, hs.1, List.take_succ_cons]
        rw [ih n (fun x hx => h x (List.mem_cons_of_mem t hx))]

theorem join_tokens_ne_nil (t : List Char) (ts : List (List Char)) (h : t ≠ []) :
    join_tokens (t :: ts) ≠ [] := by
  cases ts with
  | nil => exact h
  | cons t2 rest =>
    show t ++ ';' :: join_tokens (t2 :: rest) ≠ []
    simp

/-- What the token loop keeps of a written parameter of at most 255 bytes is
the table the tokens stand for. -/
theorem sched_kept_param (toks : List SchedToken) (hwf : ∀ t ∈ toks, t.wf)
    (hlen : (sched_param toks).length ≤ 255) :
    sched_kept (sched_param toks) = (sched_expected toks).map slot_of := by
  unfold sched_kept sched_expected
  rw [List.take_of_length_le hlen]
  unfold sched_param
  rw [sched_tokens_join _ 16 (by
    intro x hx
    obtain ⟨t, ht, rfl⟩ := List.mem_map.mp hx
    exact token_text_plain t (hwf t ht))]
  rw [← List.map_take, List.filterMap_map, List.map_take, List.map_filterMap]
  congr 1
  apply List.filterMap_congr
  intro t ht
  exact parse_token_text t (hwf t (List.mem_of_mem_take ht))

theorem tuple_slot_of (es : List (Nat × Nat × Char)) :
    (es.map slot_of).map (fun e => (e.hh, e.mm, e.amount)) = es := by
  induction es with
  | nil => rfl
  | cons e es ih =>
    simp only [List.map_cons, ih]
    rfl

/-! ## Schedule command: valid entries kept, invalid tokens dropped -/

/-- C15 (amended): take a parameter of at most 255 bytes, other than `NONE`,
made of one or more tokens joined by `;`, each token an entry written
`HHMM{L|M|H}`, an entry written `HH:MM,A,E` with two-digit numbers and `E` one
of `0`, `1`, or text that is no entry (not empty, without `;`, `:` and NUL, and
not ending in an amount letter or with fewer than four digits before its last
byte). Then
`AT+SCHED=<param>` replies `+OK` and the table holds exactly the entries with
hour at most 23 and minute at most 59 among the first 16 tokens, with their
written hour, minute and amount, in their order, limited to the first 8, each
enabled; every other token among the first 16 is skipped wherever it stands,
and no token after the 16th is stored. -/
theorem C15_sched_keeps_valid (D : Device) (env : Env) (toks : List SchedToken)
    (hwf : ∀ t ∈ toks, t.wf) (hne : toks ≠ [])
    (hlen : (sched_param toks).length ≤ 255) (hnone : sched_param toks ≠ "NONE".data) :
    (handle_at_command D env ("AT+SCHED=".data ++ sched_param toks)).2 = send_ok ∧
    sched_tuples (handle_at_command D env ("AT+SCHED=".data ++ sched_param toks)).1.S
      = sched_expected toks ∧
    (handle_at_command D env ("AT+SCHED=".data ++ sched_param toks)).1.S.sched_len
      = (sched_expected toks).length ∧
    (sched_expected toks).length ≤ 8 ∧
    (∀ i, i < (sched_expected toks).length →
      (sched_slot (handle_at_command D env ("AT+SCHED=".data ++ sched_param toks)).1.S.sched
        i).en = 1) := by
  have hpne : sched_param toks ≠ [] := by
    cases toks with
    | nil => exact absurd rfl hne
    | cons t ts =>
      exact join_tokens_ne_nil _ _ (token_text_plain t (hwf t (List.mem_cons_self t ts))).1
  have hk := sched_kept_param toks hwf hlen
  have h8 : (sched_expected toks).length ≤ 8 := by
    unfold sched_expected
    simp [List.length_take]
  rw [dispatch_sched, cmd_at_schedule_kept D (sched_param toks) hpne hnone, hk]
  have hslots := slots_of_copy_sched ((sched_expected toks).map slot_of) D.S.sched
  rw [List.length_map] at hslots
  refine ⟨rfl, ?_, by simp, h8, ?_⟩
  · show ((List.range ((sched_expected toks).map slot_of).length).map
        (sched_slot (copy_sched ((sched_expected toks).map slot_of) D.S.sched))).map
        (fun e => (e.hh, e.mm, e.amount)) = sched_expected toks
    rw [List.length_map, hslots, tuple_slot_of]
  · intro i hi
    show (sched_slot (copy_sched ((sched_expected toks).map slot_of) D.S.sched) i).en = 1
    have hi2 : i < ((List.range (sched_expected toks).length).map
        (sched_slot (copy_sched ((sched_expected toks).map slot_of) D.S.sched))).length := by
      simpa using hi
    have e1 : ((List.range (sched_expected toks).length).map
        (sched_slot (copy_sched ((sched_expected toks).map slot_of) D.S.sched)))[i]
        = sched_slot (copy_sched ((sched_expected toks).map slot_of) D.S.sched) i := by
      simp
    rw [← e1]
    simp only [hslots, List.getElem_map]
    rfl

theorem C15_sched_keeps_valid_witness :
    (handle_at_command idle_device env_timeout
        ("AT+SCHED=".data ++ "0700M;bad;2500L;12:30,L,1;0760H;1900H".data)).2 = send_ok ∧
    sched_tuples (handle_at_command idle_device env_timeout
        ("AT+SCHED=".data ++ "0700M;bad;2500L;12:30,L,1;0760H;1900H".data)).1.S
      = [(7, 0, 'M'), (12, 30, 'L'), (19, 0, 'H')] :=
  have h := C15_sched_keeps_valid idle_device env_timeout
    [.entry 7 0 'M', .junk "bad".data, .entry 25 0 'L', .legacy 12 30 'L' '1',
      .entry 7 60 'H', .entry 19 0 'H']
    (by
      intro t ht
      simp only [List.mem_cons, List.mem_singleton, List.not_mem_nil, or_false] at ht
      rcases ht with h | h | h | h | h | h <;> subst h
      · exact ⟨by decide, by decide, by decide⟩
      · exact ⟨by decide, by decide, by decide, by decide, Or.inl (by
          unfold ends_in_amount; decide)⟩
      · exact ⟨by decide, by decide, by decide⟩
      · exact ⟨by decide, by decide, by decide, by decide⟩
      · exact ⟨by decide, by decide, by decide⟩
      · exact ⟨by decide, by decide, by decide⟩)
    (by simp) (by decide) (by decide)
  ⟨h.1, h.2.1⟩

end Feeder
